import Mathlib

/-!
# mterm: keyboard scancode translator and screen escape-sequence interpreter

A shallow embedding of `src/Keyboard.c` and `src/Screen.c`.

Conventions of the embedding:
* a `char`/`uint8_t` is a `Nat` below 256, a `uint32_t` is a `Nat` below `2 ^ 32`,
  an `int32_t` is an `Int` reduced by `toInt32` where a conversion or an
  arithmetic overflow can occur;
* global variables become explicit state that each function takes and returns;
* a store outside the array `gScreen` is recorded in the flag `overrun` of the
  state; what it overwrites is a matter of memory layout and is not followed;
* a C string is the list of the bytes of its literal; the terminating NUL the
  compiler appends is supplied by `cstr`.
-/

namespace Mterm

/-! ## Keyboard.c -/

/-- Scancodes of the modifier keys (`SCANCODE_*`). -/
def SCANCODE_ALT_LEFT_ON : Nat := 0x380000
def SCANCODE_ALT_LEFT_OFF : Nat := 0xB80000
def SCANCODE_ALT_RIGHT_ON : Nat := 0xE03800
def SCANCODE_ALT_RIGHT_OFF : Nat := 0xE0B800
def SCANCODE_CTRL_LEFT_ON : Nat := 0x1D0000
def SCANCODE_CTRL_LEFT_OFF : Nat := 0x9D0000
def SCANCODE_CTRL_RIGHT_ON : Nat := 0xE01D00
def SCANCODE_CTRL_RIGHT_OFF : Nat := 0xE09D00
def SCANCODE_SHIFT_LEFT_ON : Nat := 0x2A0000
def SCANCODE_SHIFT_LEFT_OFF : Nat := 0xAA0000
def SCANCODE_SHIFT_RIGHT_ON : Nat := 0x360000
def SCANCODE_SHIFT_RIGHT_OFF : Nat := 0xB60000

/-- Bit masks of the modifier state (`MODIFIER_MASK_*`). -/
def MODIFIER_MASK_ALT_LEFT : Nat := 0x00000001
def MODIFIER_MASK_ALT_RIGHT : Nat := 0x00000002
def MODIFIER_MASK_ALT : Nat := 0x00000003
def MODIFIER_MASK_CTRL_LEFT : Nat := 0x00000004
def MODIFIER_MASK_CTRL_RIGHT : Nat := 0x00000008
def MODIFIER_MASK_CTRL : Nat := 0x0000000C
def MODIFIER_MASK_SHIFT_LEFT : Nat := 0x00000010
def MODIFIER_MASK_SHIFT_RIGHT : Nat := 0x00000020
def MODIFIER_MASK_SHIFT : Nat := 0x00000030

/-- Conversion table entry (`ConvEntry_t`). A text field is `none` for `NULL`
and otherwise holds the bytes of the string literal. -/
structure ConvEntry_t where
  scan : Nat
  pUnshift : Option (List Nat)
  pShift : Option (List Nat)
  pCtrl : Option (List Nat)
  alt : Bool
deriving DecidableEq, Repr

/-- Modifier rule table entry (`ModifierRuleEntry_t`). -/
structure ModifierRuleEntry_t where
  scan : Nat
  mask : Nat
  state : Bool
deriving DecidableEq, Repr

/-- Rows ESC .. SPC of `gConvTbl` (main block keys), as in the source:
scan, unshift, shift, ctrl, alt. -/
def gConvTbl_main : List ConvEntry_t := [
  { scan := 0x010000, pUnshift := some [0x1B], pShift := some [0x1B], pCtrl := none, alt := true },
  { scan := 0x020000, pUnshift := some [0x31], pShift := some [0x21], pCtrl := none, alt := true },
  { scan := 0x030000, pUnshift := some [0x32], pShift := some [0x22], pCtrl := some [0x00], alt := true },
  { scan := 0x040000, pUnshift := some [0x33], pShift := some [0x23], pCtrl := some [0x1B], alt := true },
  { scan := 0x050000, pUnshift := some [0x34], pShift := some [0x24], pCtrl := some [0x1C], alt := true },
  { scan := 0x060000, pUnshift := some [0x35], pShift := some [0x25], pCtrl := some [0x1D], alt := true },
  { scan := 0x070000, pUnshift := some [0x36], pShift := some [0x26], pCtrl := some [0x1E], alt := true },
  { scan := 0x080000, pUnshift := some [0x37], pShift := some [0x27], pCtrl := some [0x1F], alt := true },
  { scan := 0x090000, pUnshift := some [0x38], pShift := some [0x28], pCtrl := some [0x7F], alt := true },
  { scan := 0x0A0000, pUnshift := some [0x39], pShift := some [0x29], pCtrl := none, alt := true },
  { scan := 0x0B0000, pUnshift := some [0x30], pShift := some [], pCtrl := none, alt := true },
  { scan := 0x0C0000, pUnshift := some [0x2D], pShift := some [0x3D], pCtrl := none, alt := true },
  { scan := 0x0D0000, pUnshift := some [0x5E], pShift := some [0x7E], pCtrl := none, alt := true },
  { scan := 0x0E0000, pUnshift := some [0x08], pShift := some [0x08], pCtrl := some [0x08], alt := true },
  { scan := 0x0F0000, pUnshift := some [0x09], pShift := some [0x09], pCtrl := none, alt := true },
  { scan := 0x100000, pUnshift := some [0x71], pShift := some [0x51], pCtrl := some [0x11], alt := true },
  { scan := 0x110000, pUnshift := some [0x77], pShift := some [0x57], pCtrl := some [0x17], alt := true },
  { scan := 0x120000, pUnshift := some [0x65], pShift := some [0x45], pCtrl := some [0x05], alt := true },
  { scan := 0x130000, pUnshift := some [0x72], pShift := some [0x52], pCtrl := some [0x12], alt := true },
  { scan := 0x140000, pUnshift := some [0x74], pShift := some [0x54], pCtrl := some [0x14], alt := true },
  { scan := 0x150000, pUnshift := some [0x79], pShift := some [0x59], pCtrl := some [0x19], alt := true },
  { scan := 0x160000, pUnshift := some [0x75], pShift := some [0x55], pCtrl := some [0x15], alt := true },
  { scan := 0x170000, pUnshift := some [0x69], pShift := some [0x49], pCtrl := some [0x09], alt := true },
  { scan := 0x180000, pUnshift := some [0x6F], pShift := some [0x4F], pCtrl := some [0x0F], alt := true },
  { scan := 0x190000, pUnshift := some [0x70], pShift := some [0x50], pCtrl := some [0x10], alt := true },
  { scan := 0x1A0000, pUnshift := some [0x40], pShift := some [0x60], pCtrl := some [0x00], alt := true },
  { scan := 0x1B0000, pUnshift := some [0x5B], pShift := some [0x7B], pCtrl := some [0x1B], alt := true },
  { scan := 0x1C0000, pUnshift := some [0x0A], pShift := some [0x0A], pCtrl := none, alt := true },
  { scan := 0x1E0000, pUnshift := some [0x61], pShift := some [0x41], pCtrl := some [0x01], alt := true },
  { scan := 0x1F0000, pUnshift := some [0x73], pShift := some [0x53], pCtrl := some [0x13], alt := true },
  { scan := 0x200000, pUnshift := some [0x64], pShift := some [0x44], pCtrl := some [0x04], alt := true },
  { scan := 0x210000, pUnshift := some [0x66], pShift := some [0x46], pCtrl := some [0x06], alt := true },
  { scan := 0x220000, pUnshift := some [0x67], pShift := some [0x47], pCtrl := some [0x07], alt := true },
  { scan := 0x230000, pUnshift := some [0x68], pShift := some [0x48], pCtrl := some [0x08], alt := true },
  { scan := 0x240000, pUnshift := some [0x6A], pShift := some [0x4A], pCtrl := some [0x0A], alt := true },
  { scan := 0x250000, pUnshift := some [0x6B], pShift := some [0x4B], pCtrl := some [0x0B], alt := true },
  { scan := 0x260000, pUnshift := some [0x6C], pShift := some [0x4C], pCtrl := some [0x0C], alt := true },
  { scan := 0x270000, pUnshift := some [0x3B], pShift := some [0x2B], pCtrl := none, alt := true },
  { scan := 0x280000, pUnshift := some [0x3A], pShift := some [0x2A], pCtrl := none, alt := true },
  { scan := 0x2B0000, pUnshift := some [0x5D], pShift := some [0x7D], pCtrl := some [0x1D], alt := true },
  { scan := 0x2C0000, pUnshift := some [0x7A], pShift := some [0x5A], pCtrl := some [0x1A], alt := true },
  { scan := 0x2D0000, pUnshift := some [0x78], pShift := some [0x58], pCtrl := some [0x18], alt := true },
  { scan := 0x2E0000, pUnshift := some [0x63], pShift := some [0x43], pCtrl := some [0x03], alt := true },
  { scan := 0x2F0000, pUnshift := some [0x76], pShift := some [0x56], pCtrl := some [0x16], alt := true },
  { scan := 0x300000, pUnshift := some [0x62], pShift := some [0x42], pCtrl := some [0x02], alt := true },
  { scan := 0x310000, pUnshift := some [0x6E], pShift := some [0x4E], pCtrl := some [0x0E], alt := true },
  { scan := 0x320000, pUnshift := some [0x6D], pShift := some [0x4D], pCtrl := some [0x0D], alt := true },
  { scan := 0x330000, pUnshift := some [0x2C], pShift := some [0x3C], pCtrl := none, alt := true },
  { scan := 0x340000, pUnshift := some [0x2E], pShift := some [0x3E], pCtrl := none, alt := true },
  { scan := 0x350000, pUnshift := some [0x2F], pShift := some [0x3F], pCtrl := some [0x1F], alt := true },
  { scan := 0x370000, pUnshift := some [0x2A], pShift := some [0x2A], pCtrl := none, alt := true },
  { scan := 0x390000, pUnshift := some [0x20], pShift := some [0x20], pCtrl := some [0x00], alt := true }]

/-- Rows F1 .. DEL of `gConvTbl` (function keys, keypad, the two backslash keys, cursor keys). -/
def gConvTbl_func : List ConvEntry_t := [
  { scan := 0x3B0000, pUnshift := some [0x1B, 0x5B, 0x31, 0x31, 0x7E], pShift := some [0x1B, 0x5B, 0x32, 0x35, 0x7E], pCtrl := none, alt := false },
  { scan := 0x3C0000, pUnshift := some [0x1B, 0x5B, 0x31, 0x32, 0x7E], pShift := some [0x1B, 0x5B, 0x32, 0x36, 0x7E], pCtrl := none, alt := false },
  { scan := 0x3D0000, pUnshift := some [0x1B, 0x5B, 0x31, 0x33, 0x7E], pShift := some [0x1B, 0x5B, 0x32, 0x38, 0x7E], pCtrl := none, alt := false },
  { scan := 0x3E0000, pUnshift := some [0x1B, 0x5B, 0x31, 0x34, 0x7E], pShift := some [0x1B, 0x5B, 0x32, 0x39, 0x7E], pCtrl := none, alt := false },
  { scan := 0x3F0000, pUnshift := some [0x1B, 0x5B, 0x31, 0x35, 0x7E], pShift := some [0x1B, 0x5B, 0x33, 0x31, 0x7E], pCtrl := none, alt := false },
  { scan := 0x400000, pUnshift := some [0x1B, 0x5B, 0x31, 0x37, 0x7E], pShift := some [0x1B, 0x5B, 0x33, 0x32, 0x7E], pCtrl := none, alt := false },
  { scan := 0x410000, pUnshift := some [0x1B, 0x5B, 0x31, 0x38, 0x7E], pShift := some [0x1B, 0x5B, 0x33, 0x33, 0x7E], pCtrl := none, alt := false },
  { scan := 0x420000, pUnshift := some [0x1B, 0x5B, 0x31, 0x39, 0x7E], pShift := some [0x1B, 0x5B, 0x33, 0x34, 0x7E], pCtrl := none, alt := false },
  { scan := 0x430000, pUnshift := some [0x1B, 0x5B, 0x32, 0x30, 0x7E], pShift := none, pCtrl := none, alt := false },
  { scan := 0x440000, pUnshift := some [0x1B, 0x5B, 0x32, 0x31, 0x7E], pShift := none, pCtrl := none, alt := false },
  { scan := 0x470000, pUnshift := some [0x37], pShift := some [0x37], pCtrl := none, alt := false },
  { scan := 0x480000, pUnshift := some [0x38], pShift := some [0x38], pCtrl := none, alt := false },
  { scan := 0x490000, pUnshift := some [0x39], pShift := some [0x39], pCtrl := none, alt := false },
  { scan := 0x4A0000, pUnshift := some [0x2D], pShift := some [0x2D], pCtrl := none, alt := false },
  { scan := 0x4B0000, pUnshift := some [0x34], pShift := some [0x34], pCtrl := none, alt := false },
  { scan := 0x4C0000, pUnshift := some [0x35], pShift := some [0x35], pCtrl := none, alt := false },
  { scan := 0x4D0000, pUnshift := some [0x36], pShift := some [0x36], pCtrl := none, alt := false },
  { scan := 0x4E0000, pUnshift := some [0x2B], pShift := some [0x2B], pCtrl := none, alt := false },
  { scan := 0x4F0000, pUnshift := some [0x31], pShift := some [0x31], pCtrl := none, alt := false },
  { scan := 0x500000, pUnshift := some [0x32], pShift := some [0x32], pCtrl := none, alt := false },
  { scan := 0x510000, pUnshift := some [0x33], pShift := some [0x33], pCtrl := none, alt := false },
  { scan := 0x520000, pUnshift := some [0x30], pShift := some [0x30], pCtrl := none, alt := false },
  { scan := 0x530000, pUnshift := some [0x2E], pShift := some [0x2E], pCtrl := none, alt := false },
  { scan := 0x570000, pUnshift := some [0x1B, 0x5B, 0x32, 0x33, 0x7E], pShift := none, pCtrl := none, alt := false },
  { scan := 0x580000, pUnshift := some [0x1B, 0x5B, 0x32, 0x34, 0x7E], pShift := none, pCtrl := none, alt := false },
  { scan := 0x730000, pUnshift := some [0x5C], pShift := some [0x5F], pCtrl := some [0x1C], alt := true },
  { scan := 0x7D0000, pUnshift := some [0x5C], pShift := some [0x7C], pCtrl := some [0x1C], alt := true },
  { scan := 0xE01C00, pUnshift := some [0x0A], pShift := some [0x0A], pCtrl := none, alt := false },
  { scan := 0xE03500, pUnshift := some [0x2F], pShift := some [0x2F], pCtrl := none, alt := false },
  { scan := 0xE04700, pUnshift := some [0x1B, 0x5B, 0x31, 0x7E], pShift := some [0x1B, 0x5B, 0x31, 0x7E], pCtrl := none, alt := false },
  { scan := 0xE04800, pUnshift := some [0x1B, 0x5B, 0x41], pShift := some [0x1B, 0x5B, 0x41], pCtrl := none, alt := false },
  { scan := 0xE04900, pUnshift := some [0x1B, 0x5B, 0x35, 0x7E], pShift := some [0x1B, 0x5B, 0x35, 0x7E], pCtrl := none, alt := false },
  { scan := 0xE04B00, pUnshift := some [0x1B, 0x5B, 0x44], pShift := some [0x1B, 0x5B, 0x44], pCtrl := none, alt := false },
  { scan := 0xE04D00, pUnshift := some [0x1B, 0x5B, 0x43], pShift := some [0x1B, 0x5B, 0x43], pCtrl := none, alt := false },
  { scan := 0xE04F00, pUnshift := some [0x1B, 0x5B, 0x34, 0x7E], pShift := some [0x1B, 0x5B, 0x34, 0x7E], pCtrl := none, alt := false },
  { scan := 0xE05000, pUnshift := some [0x1B, 0x5B, 0x42], pShift := some [0x1B, 0x5B, 0x42], pCtrl := none, alt := false },
  { scan := 0xE05100, pUnshift := some [0x1B, 0x5B, 0x36, 0x7E], pShift := some [0x1B, 0x5B, 0x36, 0x7E], pCtrl := none, alt := false },
  { scan := 0xE05200, pUnshift := some [0x1B, 0x5B, 0x32, 0x7E], pShift := some [0x1B, 0x5B, 0x32, 0x7E], pCtrl := none, alt := false },
  { scan := 0xE05300, pUnshift := some [0x7F], pShift := some [0x7F], pCtrl := none, alt := false }]

/-- The conversion table `gConvTbl`, in source order. -/
def gConvTbl : List ConvEntry_t :=
  gConvTbl_main ++ gConvTbl_func

/-- The modifier rule table `gModifierRuleTbl`. -/
def gModifierRuleTbl : List ModifierRuleEntry_t := [
  ⟨SCANCODE_ALT_LEFT_ON, MODIFIER_MASK_ALT_LEFT, true⟩,
  ⟨SCANCODE_ALT_LEFT_OFF, MODIFIER_MASK_ALT_LEFT, false⟩,
  ⟨SCANCODE_ALT_RIGHT_ON, MODIFIER_MASK_ALT_RIGHT, true⟩,
  ⟨SCANCODE_ALT_RIGHT_OFF, MODIFIER_MASK_ALT_RIGHT, false⟩,
  ⟨SCANCODE_CTRL_LEFT_ON, MODIFIER_MASK_CTRL_LEFT, true⟩,
  ⟨SCANCODE_CTRL_LEFT_OFF, MODIFIER_MASK_CTRL_LEFT, false⟩,
  ⟨SCANCODE_CTRL_RIGHT_ON, MODIFIER_MASK_CTRL_RIGHT, true⟩,
  ⟨SCANCODE_CTRL_RIGHT_OFF, MODIFIER_MASK_CTRL_RIGHT, false⟩,
  ⟨SCANCODE_SHIFT_LEFT_ON, MODIFIER_MASK_SHIFT_LEFT, true⟩,
  ⟨SCANCODE_SHIFT_LEFT_OFF, MODIFIER_MASK_SHIFT_LEFT, false⟩,
  ⟨SCANCODE_SHIFT_RIGHT_ON, MODIFIER_MASK_SHIFT_RIGHT, true⟩,
  ⟨SCANCODE_SHIFT_RIGHT_OFF, MODIFIER_MASK_SHIFT_RIGHT, false⟩]

/-- The bytes `strcpy` copies from a C string: everything before the first
NUL, then the terminating NUL. -/
def cstr (p : List Nat) : List Nat :=
  p.takeWhile (fun b => b != 0) ++ [0]

/-- The C library `strlen`: the number of bytes before the first NUL. -/
def strlen (p : List Nat) : Nat :=
  (p.takeWhile (fun b => b != 0)).length

/-- The message `SendCode` builds in its buffer (`MttyMsgInput_t`):
`length` is `header.length`, `data` the bytes the `strcpy` (and the ESC store)
put into `pMsg->data`. `header.funcId` is always the constant
`MTTY_FUNC_INPUT` and is not represented; neither is the byte count
`sizeof ( pMsg ) + length` handed to `MkMsgSend`, which depends on the layout
of the message type declared in `mtty.h`. -/
structure MttyMsgInput_t where
  length : Nat
  data : List Nat
deriving DecidableEq, Repr

/-- The bytes of a message that its declared length covers. -/
def MttyMsgInput_t.payload (msg : MttyMsgInput_t) : List Nat :=
  msg.data.take msg.length

/-- Function `SendCode`: `none` when nothing is sent (`pCode == NULL`),
otherwise the message handed to `MkMsgSend`. -/
def SendCode (gModifierState : Nat) (pCode : Option (List Nat)) (alt : Bool) :
    Option MttyMsgInput_t :=
  match pCode with
  | none => none
  | some code =>
    let length := strlen code
    let length := if length = 0 then 1 else length
    if alt ≠ false ∧ (gModifierState &&& MODIFIER_MASK_ALT) ≠ 0 then
      some { length := length + 1, data := 0x1B :: cstr code }
    else
      some { length := length, data := cstr code }

/-- The `for` loop of `Convert` over the remaining table entries. -/
def ConvertLoop (gModifierState : Nat) (scan : Nat) :
    List ConvEntry_t → Option MttyMsgInput_t
  | [] => none
  | e :: rest =>
    if e.scan ≠ scan then ConvertLoop gModifierState scan rest
    else if (gModifierState &&& MODIFIER_MASK_CTRL) ≠ 0 then
      SendCode gModifierState e.pCtrl e.alt
    else if (gModifierState &&& MODIFIER_MASK_SHIFT) ≠ 0 then
      SendCode gModifierState e.pShift e.alt
    else
      SendCode gModifierState e.pUnshift e.alt

/-- Function `Convert`. -/
def Convert (gModifierState : Nat) (scan : Nat) : Option MttyMsgInput_t :=
  ConvertLoop gModifierState scan gConvTbl

/-- The `for` loop of `ProcModifierKey` over the remaining rule entries:
the return value and the new modifier state. `~mask` is the 32-bit
complement. -/
def ProcModifierKeyLoop (gModifierState : Nat) (scan : Nat) :
    List ModifierRuleEntry_t → Bool × Nat
  | [] => (false, gModifierState)
  | e :: rest =>
    if e.scan ≠ scan then ProcModifierKeyLoop gModifierState scan rest
    else if e.state = false then
      (true, gModifierState &&& (0xFFFFFFFF ^^^ e.mask))
    else
      (true, gModifierState ||| e.mask)

/-- Function `ProcModifierKey`. -/
def ProcModifierKey (gModifierState : Nat) (scan : Nat) : Bool × Nat :=
  ProcModifierKeyLoop gModifierState scan gModifierRuleTbl

/-- Function `KeyboardInput` on the scancode of the message: the new modifier
state and the message sent, if any. -/
def KeyboardInput (gModifierState : Nat) (scan : Nat) :
    Nat × Option MttyMsgInput_t :=
  let r := ProcModifierKey gModifierState scan
  if r.1 ≠ false then (r.2, none)
  else (r.2, Convert r.2 scan)

/-! ## Screen.c -/

/-- Row count `MAX_ROW`. -/
def MAX_ROW : Int := 25

/-- Column count `MAX_COLUMN`. -/
def MAX_COLUMN : Int := 80

/-- Conversion of an integer to `int32_t`: two's complement wrap-around. -/
def toInt32 (x : Int) : Int :=
  (x + 2147483648) % 4294967296 - 2147483648

/-- Modelled from the spec: the colour constants of `vga.h`, which is not
part of the sources. The spec says that the attribute byte encodes foreground
and background colour, brightness and blink, without bit positions; the
positions taken here are those of the VGA text attribute byte, which the names
of the macros refer to (foreground colour in bits 0-2, bright in bit 3,
background colour in bits 4-6, blink in bit 7), and the colour numbers are the
VGA palette. -/
def VGA_TEXT_ATTR_FG_BLACK : Nat := 0x00
def VGA_TEXT_ATTR_FG_BLUE : Nat := 0x01
def VGA_TEXT_ATTR_FG_GREEN : Nat := 0x02
def VGA_TEXT_ATTR_FG_CYAN : Nat := 0x03
def VGA_TEXT_ATTR_FG_RED : Nat := 0x04
def VGA_TEXT_ATTR_FG_PURPLE : Nat := 0x05
def VGA_TEXT_ATTR_FG_BROWN : Nat := 0x06
def VGA_TEXT_ATTR_FG_WHITE : Nat := 0x07
def VGA_TEXT_ATTR_FG_BRIGHT : Nat := 0x08
def VGA_TEXT_ATTR_BG_BLACK : Nat := 0x00
def VGA_TEXT_ATTR_BG_BLUE : Nat := 0x10
def VGA_TEXT_ATTR_BG_GREEN : Nat := 0x20
def VGA_TEXT_ATTR_BG_CYAN : Nat := 0x30
def VGA_TEXT_ATTR_BG_RED : Nat := 0x40
def VGA_TEXT_ATTR_BG_PURPLE : Nat := 0x50
def VGA_TEXT_ATTR_BG_BROWN : Nat := 0x60
def VGA_TEXT_ATTR_BG_WHITE : Nat := 0x70
def VGA_TEXT_ATTR_BLINK : Nat := 0x80

/-- Modelled from the spec: macro `VGA_TEXT_ATTR_FG` of `vga.h` (not part of
the sources), the foreground field of an attribute: colour bits 0-2 and the
bright bit 3. -/
def VGA_TEXT_ATTR_FG (attr : Nat) : Nat := attr &&& 0x0F

/-- Modelled from the spec: macro `VGA_TEXT_ATTR_BG` of `vga.h` (not part of
the sources), the background field of an attribute: colour bits 4-6. -/
def VGA_TEXT_ATTR_BG (attr : Nat) : Nat := attr &&& 0x70

/-- Modelled from the spec: macro `VGA_TEXT_ATTR_FG_CHG` of `vga.h` (not part
of the sources): replace the foreground field (bits 0-3) of an attribute. -/
def VGA_TEXT_ATTR_FG_CHG (attr fg : Nat) : Nat := (attr &&& 0xF0) ||| fg

/-- Modelled from the spec: macro `VGA_TEXT_ATTR_BG_CHG` of `vga.h` (not part
of the sources): replace the background field (bits 4-6) of an attribute. -/
def VGA_TEXT_ATTR_BG_CHG (attr bg : Nat) : Nat := (attr &&& 0x8F) ||| bg

/-- Cursor information (`cursorInfo_t`): `row` and `column` are `int32_t`,
`attr` is `uint8_t`. -/
structure cursorInfo_t where
  row : Int
  column : Int
  attr : Nat
deriving DecidableEq, Repr

/-- One cell of the screen buffer: `gScreen[r][c][0]` is the character and
`gScreen[r][c][1]` the attribute. -/
structure Cell where
  c : Nat
  attr : Nat
deriving DecidableEq, Repr

/-- The global state of `Screen.c`.

* `gScreen i j` is the cell `gScreen[i][j]` of the `25 x 80` array (0-indexed);
  only `i < 25`, `j < 80` are cells of the array.
* `gCursor` is the cursor information.
* `overrun` records that some `WriteScreen` call stored outside the array.
  Such a store overwrites whatever the build places around `gScreen` (the
  source declares `gCursor` right after it), which the source does not
  determine. The embedding sets this flag and keeps `gScreen` and `gCursor` as
  the stores inside the array left them. What the program holds in `gCursor`
  after such a store is not determined by the source, so from a state with
  `overrun = true` nothing is concluded about the program's cursor or
  attribute, nor about what it does afterwards. -/
structure Screen where
  gScreen : Nat → Nat → Cell
  gCursor : cursorInfo_t
  overrun : Bool

/-- Function `WriteScreen`: store `(c, attr)` in `gScreen[row - 1][column - 1]`.
The function has no bounds test. `gScreen` is `uint8_t [25][80][2]`, so the
store goes to the cell with the flat index `(row - 1) * 80 + (column - 1)`: for
a column outside 1..80 that is a cell of a neighbouring row, and for an index
outside `0 .. 1999` it is a store outside the array, recorded in `overrun`. -/
def WriteScreen (row column : Int) (c attr : Nat) (s : Screen) : Screen :=
  if 0 ≤ (row - 1) * 80 + (column - 1) ∧ (row - 1) * 80 + (column - 1) < 2000 then
    { s with gScreen := fun i j =>
        if j < 80 ∧ (i : Int) * 80 + (j : Int) = (row - 1) * 80 + (column - 1) then ⟨c, attr⟩
        else s.gScreen i j }
  else
    { s with overrun := true }

/-- The loop `for ( column = 1; column <= MAX_COLUMN; column++ )` that writes
a blank with the current attribute into every column of `row`. -/
def fillRow (row : Int) (s : Screen) : Screen :=
  (List.range' 1 80).foldl
    (fun (st : Screen) (column : Nat) =>
      WriteScreen row (column : Int) 0x20 st.gCursor.attr st) s

/-- Function `ScreenInit` (the snapshot sent to the display is the array). -/
def ScreenInit (s : Screen) : Screen :=
  let s1 : Screen := { s with gCursor :=
    { row := 1, column := 1,
      attr := VGA_TEXT_ATTR_FG_WHITE ||| VGA_TEXT_ATTR_FG_BRIGHT |||
              VGA_TEXT_ATTR_BG_BLACK } }
  (List.range' 1 25).foldl
    (fun (st : Screen) (row : Nat) => fillRow (row : Int) st) s1

/-- One `memcpy( &gScreen[ row - 1 ][ 0 ][ 0 ], &gScreen[ row ][ 0 ][ 0 ],
MAX_COLUMN * 2 )`: the 80 cells of array row `row` go to array row `row - 1`. -/
def copyRowUp (g : Nat → Nat → Cell) (row : Nat) : Nat → Nat → Cell :=
  fun i j => if i = row - 1 ∧ j < 80 then g row j else g i j

/-- Function `doLineFeed`. -/
def doLineFeed (s : Screen) : Screen :=
  let s1 : Screen := { s with gCursor :=
    { s.gCursor with row := s.gCursor.row + 1, column := 1 } }
  let s2 : Screen :=
    if s1.gCursor.row > MAX_ROW then
      { s1 with
        gCursor := { s1.gCursor with row := MAX_ROW }
        gScreen := (List.range' 1 24).foldl copyRowUp s1.gScreen }
    else s1
  fillRow s2.gCursor.row s2

/-- One `while` loop of `GetEscapeCsiParam`: read decimal digits from the
front of the text, accumulating modulo `2 ^ 32`; returns the value and the
index reached. -/
def GetEscapeCsiParamDigits : List Nat → Nat → Nat → Nat × Nat
  | [], acc, index => (acc, index)
  | b :: rest, acc, index =>
    if 0x30 ≤ b ∧ b ≤ 0x39 then
      GetEscapeCsiParamDigits rest ((acc * 10 + (b - 0x30)) % 4294967296) (index + 1)
    else (acc, index)

/-- Function `GetEscapeCsiParam`: the returned index, `*pN` and `*pM`.
A byte past the end of the text reads as NUL. -/
def GetEscapeCsiParam (pStr : List Nat) : Nat × Nat × Nat :=
  let r1 := GetEscapeCsiParamDigits pStr 0 0
  if pStr.getD r1.2 0 ≠ 0x3B then (r1.2, r1.1, 0)
  else
    let r2 := GetEscapeCsiParamDigits (pStr.drop (r1.2 + 1)) 0 (r1.2 + 1)
    (r2.2, r1.1, r2.1)

/-- Function `OptimizeCursor`. -/
def OptimizeCursor (s : Screen) : Screen :=
  let row :=
    if s.gCursor.row > MAX_ROW then MAX_ROW
    else if s.gCursor.row < 1 then 1 else s.gCursor.row
  let column :=
    if s.gCursor.column > MAX_COLUMN then MAX_COLUMN
    else if s.gCursor.column < 1 then 1 else s.gCursor.column
  { s with gCursor := { s.gCursor with row := row, column := column } }

/-- Function `ProcEscapeCsiCha`. -/
def ProcEscapeCsiCha (n _m : Nat) (s : Screen) : Screen :=
  OptimizeCursor { s with gCursor := { s.gCursor with column := toInt32 n } }

/-- Function `ProcEscapeCsiCnl`. -/
def ProcEscapeCsiCnl (n _m : Nat) (s : Screen) : Screen :=
  OptimizeCursor { s with gCursor :=
    { s.gCursor with row := toInt32 (s.gCursor.row + toInt32 n), column := 1 } }

/-- Function `ProcEscapeCsiCpl`. -/
def ProcEscapeCsiCpl (n _m : Nat) (s : Screen) : Screen :=
  OptimizeCursor { s with gCursor :=
    { s.gCursor with row := toInt32 (s.gCursor.row - toInt32 n), column := 1 } }

/-- Function `ProcEscapeCsiCub`. -/
def ProcEscapeCsiCub (n _m : Nat) (s : Screen) : Screen :=
  OptimizeCursor { s with gCursor :=
    { s.gCursor with column := toInt32 (s.gCursor.column - toInt32 n) } }

/-- Function `ProcEscapeCsiCud`. -/
def ProcEscapeCsiCud (n _m : Nat) (s : Screen) : Screen :=
  OptimizeCursor { s with gCursor :=
    { s.gCursor with row := toInt32 (s.gCursor.row + toInt32 n) } }

/-- Function `ProcEscapeCsiCuf`. -/
def ProcEscapeCsiCuf (n _m : Nat) (s : Screen) : Screen :=
  OptimizeCursor { s with gCursor :=
    { s.gCursor with column := toInt32 (s.gCursor.column + toInt32 n) } }

/-- Function `ProcEscapeCsiCup`. -/
def ProcEscapeCsiCup (n m : Nat) (s : Screen) : Screen :=
  OptimizeCursor { s with gCursor :=
    { s.gCursor with row := toInt32 n, column := toInt32 m } }

/-- Function `ProcEscapeCsiCuu`. -/
def ProcEscapeCsiCuu (n _m : Nat) (s : Screen) : Screen :=
  OptimizeCursor { s with gCursor :=
    { s.gCursor with row := toInt32 (s.gCursor.row - toInt32 n) } }

/-- The `do ... while` loop of `ProcEscapeCsiEd`, run for at most `fuel`
iterations: `none` when the fuel runs out before the exit test fails. -/
def ProcEscapeCsiEdLoop : Nat → Int → Int → Int → Screen → Option Screen
  | 0, _, _, _, _ => none
  | fuel + 1, row, column, endPos, s =>
    let s1 := WriteScreen row column 0x20 s.gCursor.attr s
    let column1 := column + 1
    let row2 := if column1 > 80 then row + 1 else row
    let column2 := if column1 > 80 then 1 else column1
    if (row2 - 1) * MAX_ROW + column2 ≤ endPos then
      ProcEscapeCsiEdLoop fuel row2 column2 endPos s1
    else some s1

/-- Iteration budget given to the loop of `ProcEscapeCsiEd`; from a cursor
inside the grid the loop makes at most `78 * 80` iterations. -/
def ProcEscapeCsiEdFuel : Nat := 8000

/-- Function `ProcEscapeCsiEd`. The loop gets the budget
`ProcEscapeCsiEdFuel`; an exhausted budget (`none`) is mapped to the state as
it was before the call. -/
def ProcEscapeCsiEd (n _m : Nat) (s : Screen) : Screen :=
  if n = 0 then
    (ProcEscapeCsiEdLoop ProcEscapeCsiEdFuel s.gCursor.row s.gCursor.column
      (MAX_ROW * MAX_COLUMN) s).getD s
  else if n = 1 then
    (ProcEscapeCsiEdLoop ProcEscapeCsiEdFuel 1 1
      ((s.gCursor.row - 1) * 80 + s.gCursor.column) s).getD s
  else if n = 2 then
    (ProcEscapeCsiEdLoop ProcEscapeCsiEdFuel 1 1 (MAX_ROW * MAX_COLUMN) s).getD s
  else s

/-- The `do ... while` loop of `ProcEscapeCsiEl`; `fuel` bounds the number
of iterations. -/
def ProcEscapeCsiElLoop : Nat → Int → Int → Screen → Screen
  | 0, _, _, s => s
  | fuel + 1, column, endPos, s =>
    let s1 := WriteScreen s.gCursor.row column 0x20 s.gCursor.attr s
    if column + 1 ≤ endPos then ProcEscapeCsiElLoop fuel (column + 1) endPos s1
    else s1

/-- Function `ProcEscapeCsiEl`. The loop runs once and then while
`column <= end`, which is `end - column + 1` iterations when that is
positive. -/
def ProcEscapeCsiEl (n _m : Nat) (s : Screen) : Screen :=
  if n = 0 then
    ProcEscapeCsiElLoop ((80 - s.gCursor.column).toNat + 1) s.gCursor.column 80 s
  else if n = 1 then
    ProcEscapeCsiElLoop ((s.gCursor.column - 1).toNat + 1) 1 s.gCursor.column s
  else if n = 2 then
    ProcEscapeCsiElLoop 80 1 80 s
  else s

/-- The `switch` of `ProcEscapeCsiSgr`: the value `gCursor.attr` holds
afterwards, for the parameter `n` and the attribute `a` held before. Each case
stores its result in the `uint8_t` attribute; the default case stores nothing.
`~VGA_TEXT_ATTR_BLINK` is the complement in `int`. -/
def ProcEscapeCsiSgrAttr (n a : Nat) : Nat :=
  if n = 0 then
    (VGA_TEXT_ATTR_FG_WHITE ||| VGA_TEXT_ATTR_FG_BRIGHT |||
      VGA_TEXT_ATTR_BG_BLACK) % 256
  else if n = 7 then
    let attr := ((VGA_TEXT_ATTR_BG a >>> 4) ||| VGA_TEXT_ATTR_FG_BRIGHT) % 256
    let attr := attr &&&
      ((VGA_TEXT_ATTR_FG a <<< 4) &&& (0xFFFFFFFF ^^^ VGA_TEXT_ATTR_BLINK))
    attr % 256
  else if n = 30 then
    (VGA_TEXT_ATTR_FG_CHG a (VGA_TEXT_ATTR_FG_BLACK ||| VGA_TEXT_ATTR_FG_BRIGHT)) % 256
  else if n = 31 then
    (VGA_TEXT_ATTR_FG_CHG a (VGA_TEXT_ATTR_FG_RED ||| VGA_TEXT_ATTR_FG_BRIGHT)) % 256
  else if n = 32 then
    (VGA_TEXT_ATTR_FG_CHG a (VGA_TEXT_ATTR_FG_GREEN ||| VGA_TEXT_ATTR_FG_BRIGHT)) % 256
  else if n = 33 then
    (VGA_TEXT_ATTR_FG_CHG a (VGA_TEXT_ATTR_FG_BROWN ||| VGA_TEXT_ATTR_FG_BRIGHT)) % 256
  else if n = 34 then
    (VGA_TEXT_ATTR_FG_CHG a (VGA_TEXT_ATTR_FG_BLUE ||| VGA_TEXT_ATTR_FG_BRIGHT)) % 256
  else if n = 35 then
    (VGA_TEXT_ATTR_FG_CHG a (VGA_TEXT_ATTR_FG_PURPLE ||| VGA_TEXT_ATTR_FG_BRIGHT)) % 256
  else if n = 36 then
    (VGA_TEXT_ATTR_FG_CHG a (VGA_TEXT_ATTR_FG_CYAN ||| VGA_TEXT_ATTR_FG_BRIGHT)) % 256
  else if n = 37 ∨ n = 39 then
    (VGA_TEXT_ATTR_FG_CHG a (VGA_TEXT_ATTR_FG_WHITE ||| VGA_TEXT_ATTR_FG_BRIGHT)) % 256
  else if n = 40 ∨ n = 49 then
    (VGA_TEXT_ATTR_BG_CHG a VGA_TEXT_ATTR_BG_BLACK) % 256
  else if n = 41 then
    (VGA_TEXT_ATTR_BG_CHG a VGA_TEXT_ATTR_BG_RED) % 256
  else if n = 42 then
    (VGA_TEXT_ATTR_BG_CHG a VGA_TEXT_ATTR_BG_RED) % 256
  else if n = 43 then
    (VGA_TEXT_ATTR_BG_CHG a VGA_TEXT_ATTR_BG_BROWN) % 256
  else if n = 44 then
    (VGA_TEXT_ATTR_BG_CHG a VGA_TEXT_ATTR_BG_BLUE) % 256
  else if n = 45 then
    (VGA_TEXT_ATTR_BG_CHG a VGA_TEXT_ATTR_BG_PURPLE) % 256
  else if n = 46 then
    (VGA_TEXT_ATTR_BG_CHG a VGA_TEXT_ATTR_BG_CYAN) % 256
  else if n = 47 then
    (VGA_TEXT_ATTR_BG_CHG a VGA_TEXT_ATTR_BG_WHITE) % 256
  else a

/-- Function `ProcEscapeCsiSgr`. -/
def ProcEscapeCsiSgr (n _m : Nat) (s : Screen) : Screen :=
  { s with gCursor := { s.gCursor with attr := ProcEscapeCsiSgrAttr n s.gCursor.attr } }

/-- The CSI function table `gEscCsiTbl`: function code and function, in
source order; the terminating entry `{ 0, NULL }` is the end of the list. -/
def gEscCsiTbl : List (Nat × (Nat → Nat → Screen → Screen)) := [
  (0x41, ProcEscapeCsiCuu),
  (0x42, ProcEscapeCsiCud),
  (0x43, ProcEscapeCsiCuf),
  (0x44, ProcEscapeCsiCub),
  (0x45, ProcEscapeCsiCnl),
  (0x46, ProcEscapeCsiCpl),
  (0x47, ProcEscapeCsiCha),
  (0x48, ProcEscapeCsiCup),
  (0x4A, ProcEscapeCsiEd),
  (0x4B, ProcEscapeCsiEl),
  (0x66, ProcEscapeCsiCup),
  (0x6D, ProcEscapeCsiSgr)]

/-- The function search loop of `ProcEscape` over the remaining table
entries, for the byte `code = pStr[ index ]`: the return value and the new
state. -/
def ProcEscapeSearch (code n m index : Nat) (s : Screen) :
    List (Nat × (Nat → Nat → Screen → Screen)) → Nat × Screen
  | [] => (1, s)
  | e :: rest =>
    if e.1 = code then (index + 1, e.2 n m s)
    else ProcEscapeSearch code n m index s rest

/-- Function `ProcEscape`. The local `index` is declared without an
initial value and first used in `index += GetEscapeCsiParam( ... )`, so its
starting value is indeterminate; it is the parameter `index0` here.
`GetEscapeCsiParam` receives `pStr` itself, whose first byte is `[`.
A byte past the end of the text reads as NUL. -/
def ProcEscape (index0 : Nat) (pStr : List Nat) (s : Screen) : Nat × Screen :=
  if pStr.getD 0 0 ≠ 0x5B then (0, s)
  else
    let r := GetEscapeCsiParam pStr
    let index := index0 + r.1
    ProcEscapeSearch (pStr.getD index 0) r.2.1 r.2.2 index s gEscCsiTbl

/-- The `while` loop of `ScreenOutput`, run for at most `fuel` iterations.
`indexInit i` is the indeterminate starting value of the local `index` of
`ProcEscape` in the call made when the loop index is `i`. A byte past the end
of the buffer reads as NUL. -/
def ScreenOutputLoop (indexInit : Nat → Nat) (pStr : List Nat) (length : Nat) :
    Nat → Nat → Screen → Screen
  | 0, _, s => s
  | fuel + 1, index, s =>
    if pStr.getD index 0 ≠ 0 ∧ index < length then
      let r : Nat × Screen :=
        if pStr.getD index 0 = 0x1B then
          let e := ProcEscape (indexInit index) (pStr.drop (index + 1)) s
          (index + 1 + e.1, e.2)
        else if pStr.getD index 0 = 0x0A then
          (index + 1, doLineFeed s)
        else
          let s1 := WriteScreen s.gCursor.row s.gCursor.column
            (pStr.getD index 0) s.gCursor.attr s
          (index + 1,
            { s1 with gCursor := { s1.gCursor with column := s1.gCursor.column + 1 } })
      let s2 := if r.2.gCursor.column > MAX_COLUMN then doLineFeed r.2 else r.2
      ScreenOutputLoop indexInit pStr length fuel r.1 s2
    else s

/-- Function `ScreenOutput` on a message with data `pStr` and declared
length `length` (the snapshot sent to the display is the array). Every
iteration moves the index forward and stops at the end of the buffer, so
`pStr.length` iterations are enough. -/
def ScreenOutput (indexInit : Nat → Nat) (length : Nat) (pStr : List Nat)
    (s : Screen) : Screen :=
  ScreenOutputLoop indexInit pStr length pStr.length 0 s

/-- The cursor is inside the grid: `1 <= row <= 25` and `1 <= column <= 80`. -/
def cursorInBounds (s : Screen) : Prop :=
  1 ≤ s.gCursor.row ∧ s.gCursor.row ≤ 25 ∧ 1 ≤ s.gCursor.column ∧ s.gCursor.column ≤ 80

instance cursorInBounds.decidable (s : Screen) : Decidable (cursorInBounds s) :=
  inferInstanceAs (Decidable (1 ≤ s.gCursor.row ∧ s.gCursor.row ≤ 25 ∧
    1 ≤ s.gCursor.column ∧ s.gCursor.column ≤ 80))

/-- A concrete state for examples: every cell holds the character `c` with
attribute 0x07, the cursor is at `(row, column)` with attribute 0x0F, and no
write has left the array. -/
def exampleScreen (c : Nat) (row column : Int) : Screen :=
  { gScreen := fun _ _ => { c := c, attr := 0x07 }
    gCursor := { row := row, column := column, attr := 0x0F }
    overrun := false }

/-- The selection rule of the specification: the ctrl text when a Ctrl bit
(bit 2 or 3) is set, otherwise the shifted text when a Shift bit (bit 4 or 5)
is set, otherwise the unshifted text. -/
def specSelectedText (e : ConvEntry_t) (gModifierState : Nat) : Option (List Nat) :=
  if gModifierState.testBit 2 = true ∨ gModifierState.testBit 3 = true then e.pCtrl
  else if gModifierState.testBit 4 = true ∨ gModifierState.testBit 5 = true then e.pShift
  else e.pUnshift

/-- The decimal value of a run of digit bytes, as the specification reads
it (not reduced). -/
def decimalValue (ds : List Nat) : Nat :=
  ds.foldl (fun acc d => acc * 10 + (d - 0x30)) 0

/-- The state after one iteration of the loop of `ScreenOutput` on the byte
`b` when no control sequence is entered: an ESC that is not followed by `[`
changes nothing, a line feed calls `doLineFeed`, any other byte is written at
the cursor and the column advances; then comes the check of the column
against `MAX_COLUMN`. Used to state what the loop does byte by byte. -/
def ScreenOutputByte (b : Nat) (s : Screen) : Screen :=
  let s1 : Screen :=
    if b = 0x1B then s
    else if b = 0x0A then doLineFeed s
    else
      let w := WriteScreen s.gCursor.row s.gCursor.column b s.gCursor.attr s
      { w with gCursor := { w.gCursor with column := w.gCursor.column + 1 } }
  if s1.gCursor.column > MAX_COLUMN then doLineFeed s1 else s1

/-- One iteration of the `while` loop of `ScreenOutput` at buffer index
`index`: the `switch` on the byte and the line feed check that follows it.
Returns the new index and the new state. -/
def ScreenOutputStep (indexInit : Nat → Nat) (pStr : List Nat) (index : Nat)
    (s : Screen) : Nat × Screen :=
  let r : Nat × Screen :=
    if pStr.getD index 0 = 0x1B then
      let e := ProcEscape (indexInit index) (pStr.drop (index + 1)) s
      (index + 1 + e.1, e.2)
    else if pStr.getD index 0 = 0x0A then
      (index + 1, doLineFeed s)
    else
      let s1 := WriteScreen s.gCursor.row s.gCursor.column
        (pStr.getD index 0) s.gCursor.attr s
      (index + 1,
        { s1 with gCursor := { s1.gCursor with column := s1.gCursor.column + 1 } })
  (r.1, if r.2.gCursor.column > MAX_COLUMN then doLineFeed r.2 else r.2)

/-- The `while` loop of `ScreenOutput` with a count of its iterations:
`none` when the budget `fuel` runs out before the loop condition fails,
otherwise the number of iterations made, the index reached and the state
reached. -/
def ScreenOutputCount (indexInit : Nat → Nat) (pStr : List Nat) (length : Nat) :
    Nat → Nat → Screen → Option (Nat × Nat × Screen)
  | 0, _, _ => none
  | fuel + 1, index, s =>
    if pStr.getD index 0 ≠ 0 ∧ index < length then
      (ScreenOutputCount indexInit pStr length fuel
        (ScreenOutputStep indexInit pStr index s).1
        (ScreenOutputStep indexInit pStr index s).2).map (fun p => (p.1 + 1, p.2))
    else some (0, index, s)

/-! ## Keyboard.c: lemmas -/

theorem land_ne_zero_iff (x k : Nat) :
    x &&& k ≠ 0 ↔ ∃ i, x.testBit i = true ∧ k.testBit i = true := by
  constructor
  · intro h
    obtain ⟨i, hi⟩ := Nat.ne_zero_implies_bit_true h
    rw [Nat.testBit_and, Bool.and_eq_true] at hi
    exact ⟨i, hi⟩
  · rintro ⟨i, h1, h2⟩ hz
    have := congrArg (fun y => y.testBit i) hz
    simp [Nat.testBit_and, h1, h2] at this

theorem testBit_index_lt (k i n : Nat) (hk : k < 2 ^ n) (h : k.testBit i = true) :
    i < n := by
  by_contra hc
  have hlt : k < 2 ^ i :=
    lt_of_lt_of_le hk (Nat.pow_le_pow_right (by norm_num) (by omega))
  rw [Nat.testBit_lt_two_pow hlt] at h
  exact Bool.false_ne_true h

theorem mask_alt_iff (x : Nat) :
    x &&& MODIFIER_MASK_ALT ≠ 0 ↔ (x.testBit 0 = true ∨ x.testBit 1 = true) := by
  rw [land_ne_zero_iff]
  constructor
  · rintro ⟨i, h1, h2⟩
    have hi : i < 2 := testBit_index_lt _ i 2 (by decide) h2
    interval_cases i
    · exact Or.inl h1
    · exact Or.inr h1
  · rintro (h | h)
    · exact ⟨0, h, by decide⟩
    · exact ⟨1, h, by decide⟩

theorem mask_ctrl_iff (x : Nat) :
    x &&& MODIFIER_MASK_CTRL ≠ 0 ↔ (x.testBit 2 = true ∨ x.testBit 3 = true) := by
  rw [land_ne_zero_iff]
  constructor
  · rintro ⟨i, h1, h2⟩
    have hi : i < 4 := testBit_index_lt _ i 4 (by decide) h2
    interval_cases i
    · exact absurd h2 (by decide)
    · exact absurd h2 (by decide)
    · exact Or.inl h1
    · exact Or.inr h1
  · rintro (h | h)
    · exact ⟨2, h, by decide⟩
    · exact ⟨3, h, by decide⟩

theorem mask_shift_iff (x : Nat) :
    x &&& MODIFIER_MASK_SHIFT ≠ 0 ↔ (x.testBit 4 = true ∨ x.testBit 5 = true) := by
  rw [land_ne_zero_iff]
  constructor
  · rintro ⟨i, h1, h2⟩
    have hi : i < 6 := testBit_index_lt _ i 6 (by decide) h2
    interval_cases i
    · exact absurd h2 (by decide)
    · exact absurd h2 (by decide)
    · exact absurd h2 (by decide)
    · exact absurd h2 (by decide)
    · exact Or.inl h1
    · exact Or.inr h1
  · rintro (h | h)
    · exact ⟨4, h, by decide⟩
    · exact ⟨5, h, by decide⟩

/-- On a hit the loop of `Convert` sends the text the selection rule names. -/
theorem ConvertLoop_hit (x : Nat) (e : ConvEntry_t) (rest : List ConvEntry_t) :
    ConvertLoop x e.scan (e :: rest) = SendCode x (specSelectedText e x) e.alt := by
  unfold ConvertLoop specSelectedText
  simp only [ne_eq, not_true_eq_false, if_false]
  by_cases hc : x &&& MODIFIER_MASK_CTRL ≠ 0
  · rw [if_pos hc, if_pos ((mask_ctrl_iff x).1 hc)]
  · rw [if_neg hc, if_neg (fun h => hc ((mask_ctrl_iff x).2 h))]
    by_cases hs : x &&& MODIFIER_MASK_SHIFT ≠ 0
    · rw [if_pos hs, if_pos ((mask_shift_iff x).1 hs)]
    · rw [if_neg hs, if_neg (fun h => hs ((mask_shift_iff x).2 h))]

/-- In a table without duplicate scancodes the loop of `Convert` reaches
every entry through its scancode. -/
theorem ConvertLoop_mem (x : Nat) (e : ConvEntry_t) :
    ∀ tbl : List ConvEntry_t, (tbl.map (fun r => r.scan)).Nodup → e ∈ tbl →
      ConvertLoop x e.scan tbl = SendCode x (specSelectedText e x) e.alt
  | [], _, h => by simp at h
  | r :: rest, hnd, h => by
    rw [List.map_cons, List.nodup_cons] at hnd
    rcases List.mem_cons.1 h with rfl | hmem
    · exact ConvertLoop_hit x e rest
    · have hne : r.scan ≠ e.scan := by
        intro heq
        exact hnd.1 (heq ▸ List.mem_map_of_mem (fun r => r.scan) hmem)
      have ih := ConvertLoop_mem x e rest hnd.2 hmem
      rw [← ih]
      conv_lhs => unfold ConvertLoop
      rw [if_pos hne]

theorem ConvertLoop_miss (x scan : Nat) :
    ∀ tbl : List ConvEntry_t, scan ∉ tbl.map (fun r => r.scan) →
      ConvertLoop x scan tbl = none
  | [], _ => rfl
  | r :: rest, h => by
    rw [List.map_cons, List.mem_cons, not_or] at h
    unfold ConvertLoop
    rw [if_pos (fun heq => h.1 heq.symm)]
    exact ConvertLoop_miss x scan rest h.2

theorem ProcModifierKeyLoop_miss (x scan : Nat) :
    ∀ tbl : List ModifierRuleEntry_t, scan ∉ tbl.map (fun r => r.scan) →
      ProcModifierKeyLoop x scan tbl = (false, x)
  | [], _ => rfl
  | r :: rest, h => by
    rw [List.map_cons, List.mem_cons, not_or] at h
    unfold ProcModifierKeyLoop
    rw [if_pos (fun heq => h.1 heq.symm)]
    exact ProcModifierKeyLoop_miss x scan rest h.2

set_option maxRecDepth 100000 in
theorem gConvTbl_scan_nodup : (gConvTbl.map (fun r => r.scan)).Nodup := by
  decide

set_option maxRecDepth 100000 in
theorem gConvTbl_scan_not_modifier :
    ∀ e ∈ gConvTbl, e.scan ∉ gModifierRuleTbl.map (fun r => r.scan) := by
  decide

/-- A scancode outside the modifier rule table goes to `Convert` with the
modifier state as it is. -/
theorem KeyboardInput_not_modifier (x scan : Nat)
    (h : scan ∉ gModifierRuleTbl.map (fun r => r.scan)) :
    KeyboardInput x scan = (x, Convert x scan) := by
  unfold KeyboardInput ProcModifierKey
  rw [ProcModifierKeyLoop_miss x scan _ h]
  simp

/-- `KeyboardInput` on the scancode of a conversion table entry. -/
theorem KeyboardInput_entry (e : ConvEntry_t) (he : e ∈ gConvTbl) (x : Nat) :
    KeyboardInput x e.scan = (x, SendCode x (specSelectedText e x) e.alt) := by
  rw [KeyboardInput_not_modifier x e.scan (gConvTbl_scan_not_modifier e he)]
  unfold Convert
  rw [ConvertLoop_mem x e gConvTbl gConvTbl_scan_nodup he]

theorem testBit_or_two_pow (x k i : Nat) :
    (x ||| 2 ^ k).testBit i = if i = k then true else x.testBit i := by
  rw [Nat.testBit_or, Nat.testBit_two_pow]
  by_cases h : i = k
  · subst h; simp
  · have h2 : ¬ k = i := fun hk => h hk.symm
    simp [h, h2]

theorem testBit_and_not_two_pow (x k i : Nat) (hx : x < 2 ^ 32) (hk : k < 32) :
    (x &&& (0xFFFFFFFF ^^^ 2 ^ k)).testBit i = if i = k then false else x.testBit i := by
  have hff : (0xFFFFFFFF : Nat) = 2 ^ 32 - 1 := by norm_num
  rw [Nat.testBit_and, Nat.testBit_xor, hff, Nat.testBit_two_pow_sub_one,
    Nat.testBit_two_pow]
  by_cases h : i = k
  · subst h; simp [hk]
  · have h2 : ¬ k = i := fun hk => h hk.symm
    by_cases h32 : i < 32
    · simp [h, h2, h32]
    · have hlt : x < 2 ^ i :=
        lt_of_lt_of_le hx (Nat.pow_le_pow_right (by norm_num) (by omega))
      simp [h, Nat.testBit_lt_two_pow hlt]

theorem payload_cstr (t : List Nat) :
    (cstr t).take (if strlen t = 0 then 1 else strlen t) =
      if strlen t = 0 then [0] else t.takeWhile (fun b => b != 0) := by
  unfold cstr strlen
  by_cases h : (t.takeWhile (fun b => b != 0)).length = 0
  · rw [if_pos h, if_pos h]
    rw [List.length_eq_zero] at h
    rw [h]; rfl
  · rw [if_neg h, if_neg h]
    rw [List.take_append_of_le_length (le_refl _), List.take_length]

/-! ## Keyboard.c: the claims -/

/-- C1: for every conversion table entry and every modifier state,
`KeyboardInput` on the entry's scancode leaves the modifier state as it is and
sends the ctrl text when a Ctrl bit (bit 2 or 3) is set, otherwise the shifted
text when a Shift bit (bit 4 or 5) is set, otherwise the unshifted text; in
particular, when the ctrl and the shifted text are both present and a Ctrl bit
and a Shift bit are both set, the message carries the ctrl text (after the ESC
prefix, if one is added). -/
theorem C1_selection_priority (e : ConvEntry_t) (he : e ∈ gConvTbl) (x : Nat) :
    KeyboardInput x e.scan =
      (x, SendCode x
        (if x.testBit 2 = true ∨ x.testBit 3 = true then e.pCtrl
         else if x.testBit 4 = true ∨ x.testBit 5 = true then e.pShift
         else e.pUnshift) e.alt) ∧
    (∀ c t : List Nat, e.pCtrl = some c → e.pShift = some t →
      (x.testBit 2 = true ∨ x.testBit 3 = true) →
      (x.testBit 4 = true ∨ x.testBit 5 = true) →
      ∃ msg, (KeyboardInput x e.scan).2 = some msg ∧
        (msg.data = cstr c ∨ msg.data = 0x1B :: cstr c)) := by
  have key := KeyboardInput_entry e he x
  refine ⟨key, ?_⟩
  intro c t hc _ hctrl _
  rw [key]
  simp only [specSelectedText, if_pos hctrl, hc, SendCode]
  split
  · exact ⟨_, rfl, Or.inr rfl⟩
  · exact ⟨_, rfl, Or.inl rfl⟩

/-- C1, witness: the `a` key with left Ctrl and left Shift held. -/
theorem C1_selection_priority_witness :
    KeyboardInput 0x14 0x1E0000 = (0x14, some { length := 1, data := [0x01, 0] }) := by
  have h := (C1_selection_priority
    { scan := 0x1E0000, pUnshift := some [0x61], pShift := some [0x41],
      pCtrl := some [0x01], alt := true } (by decide) 0x14).1
  rw [h]
  decide

/-- C2: for every conversion table entry whose selected text `t` is present,
compared with the same key under a modifier state `x0` that has no Alt bit
(bits 0 and 1) and agrees with `x` on all other bits: the message without Alt
carries `t`; if the entry is alt-eligible and an Alt bit of `x` is set, the
message carries the byte 0x1B followed by `t`, its declared length is one
more, and the bytes covered by the declared length are 0x1B followed by those
without Alt; if the entry is not alt-eligible the message is the same
whatever the Alt bits are. -/
theorem C2_alt_prefix (e : ConvEntry_t) (he : e ∈ gConvTbl) (x x0 : Nat)
    (t : List Nat) (hsel : specSelectedText e x = some t)
    (h0 : x0.testBit 0 = false ∧ x0.testBit 1 = false)
    (hagree : ∀ i, 2 ≤ i → x0.testBit i = x.testBit i) :
    ∃ msg0, (KeyboardInput x0 e.scan).2 = some msg0 ∧ msg0.data = cstr t ∧
      (e.alt = true → (x.testBit 0 = true ∨ x.testBit 1 = true) →
        ∃ msg, (KeyboardInput x e.scan).2 = some msg ∧
          msg.data = 0x1B :: cstr t ∧ msg.length = msg0.length + 1 ∧
          msg.payload = 0x1B :: msg0.payload) ∧
      (e.alt = false → (KeyboardInput x e.scan).2 = some msg0) := by
  have hsel0 : specSelectedText e x0 = some t := by
    rw [← hsel]
    simp only [specSelectedText, hagree 2 (by norm_num), hagree 3 (by norm_num),
      hagree 4 (by norm_num), hagree 5 (by norm_num)]
  have hno : ¬ (x0 &&& MODIFIER_MASK_ALT ≠ 0) := by
    rw [mask_alt_iff]
    simp [h0.1, h0.2]
  rw [KeyboardInput_entry e he x0, KeyboardInput_entry e he x, hsel, hsel0]
  refine ⟨{ length := if strlen t = 0 then 1 else strlen t, data := cstr t }, ?_, rfl, ?_, ?_⟩
  · simp only [SendCode]
    rw [if_neg (fun h => hno h.2)]
  · intro halt hbit
    refine ⟨{ length := (if strlen t = 0 then 1 else strlen t) + 1,
              data := 0x1B :: cstr t }, ?_, rfl, rfl, ?_⟩
    · simp only [SendCode]
      rw [if_pos ⟨by simp [halt], (mask_alt_iff x).2 hbit⟩]
    · simp [MttyMsgInput_t.payload, List.take_succ_cons]
  · intro halt
    simp only [SendCode]
    rw [if_neg (fun h => h.1 halt)]

/-- C2, witness: the `a` key with left Alt held against no modifier, and
its entry is alt-eligible. -/
theorem C2_alt_prefix_witness :
    ∃ msg0, (KeyboardInput 0 0x1E0000).2 = some msg0 ∧ msg0.data = cstr [0x61] ∧
      (true = true → ((1 : Nat).testBit 0 = true ∨ (1 : Nat).testBit 1 = true) →
        ∃ msg, (KeyboardInput 1 0x1E0000).2 = some msg ∧
          msg.data = 0x1B :: cstr [0x61] ∧ msg.length = msg0.length + 1 ∧
          msg.payload = 0x1B :: msg0.payload) ∧
      (true = false → (KeyboardInput 1 0x1E0000).2 = some msg0) :=
  C2_alt_prefix
    { scan := 0x1E0000, pUnshift := some [0x61], pShift := some [0x41],
      pCtrl := some [0x01], alt := true } (by decide) 1 0 [0x61] (by decide)
    (by decide) (fun i hi => by
      have h1 : (1 : Nat) < 2 ^ i :=
        lt_of_lt_of_le (by norm_num : (1 : Nat) < 2 ^ 2) (Nat.pow_le_pow_right (by norm_num) hi)
      rw [Nat.zero_testBit, Nat.testBit_lt_two_pow h1])

/-- C3: for every scancode that is in neither `gModifierRuleTbl` nor
`gConvTbl`, and every modifier state, `KeyboardInput` sends no message and
leaves the modifier state exactly as it was. -/
theorem C3_unknown_scancode (scan x : Nat)
    (hmod : scan ∉ gModifierRuleTbl.map (fun r => r.scan))
    (hconv : scan ∉ gConvTbl.map (fun r => r.scan)) :
    KeyboardInput x scan = (x, none) := by
  rw [KeyboardInput_not_modifier x scan hmod]
  unfold Convert
  rw [ConvertLoop_miss x scan gConvTbl hconv]

set_option maxRecDepth 100000 in
/-- C3, witness: the key-up code of the `a` key, with every modifier held. -/
theorem C3_unknown_scancode_witness : KeyboardInput 0x3F 0x9E0000 = (0x3F, none) :=
  C3_unknown_scancode 0x9E0000 0x3F (by decide) (by decide)

/-- C4: for each of the six modifier keys (key-down code, key-up code, bit
number) and every 32-bit modifier state, the key-down code leaves the paired
bit set and every other bit unchanged, and the key-up code leaves that bit
cleared and every other bit unchanged; every scancode that is not one of the
twelve codes of `gModifierRuleTbl` leaves the modifier state unchanged. -/
theorem C4_modifier_bits (x : Nat) (hx : x < 2 ^ 32) :
    (∀ key ∈ [(SCANCODE_ALT_LEFT_ON, SCANCODE_ALT_LEFT_OFF, 0),
              (SCANCODE_ALT_RIGHT_ON, SCANCODE_ALT_RIGHT_OFF, 1),
              (SCANCODE_CTRL_LEFT_ON, SCANCODE_CTRL_LEFT_OFF, 2),
              (SCANCODE_CTRL_RIGHT_ON, SCANCODE_CTRL_RIGHT_OFF, 3),
              (SCANCODE_SHIFT_LEFT_ON, SCANCODE_SHIFT_LEFT_OFF, 4),
              (SCANCODE_SHIFT_RIGHT_ON, SCANCODE_SHIFT_RIGHT_OFF, 5)],
      (∀ i, (KeyboardInput x key.1).1.testBit i =
        if i = key.2.2 then true else x.testBit i) ∧
      (∀ i, (KeyboardInput x key.2.1).1.testBit i =
        if i = key.2.2 then false else x.testBit i)) ∧
    (∀ scan, scan ∉ gModifierRuleTbl.map (fun r => r.scan) →
      (KeyboardInput x scan).1 = x) := by
  refine ⟨?_, fun scan h => by rw [KeyboardInput_not_modifier x scan h]⟩
  have hon : ∀ dn k : Nat, (KeyboardInput x dn).1 = x ||| 2 ^ k →
      ∀ i, (KeyboardInput x dn).1.testBit i = if i = k then true else x.testBit i :=
    fun dn k h i => by rw [h, testBit_or_two_pow]
  have hoff : ∀ up k : Nat, k < 32 →
      (KeyboardInput x up).1 = x &&& (0xFFFFFFFF ^^^ 2 ^ k) →
      ∀ i, (KeyboardInput x up).1.testBit i = if i = k then false else x.testBit i :=
    fun up k hk h i => by rw [h, testBit_and_not_two_pow x k i hx hk]
  intro key hkey
  simp only [List.mem_cons, List.mem_singleton, List.not_mem_nil, or_false] at hkey
  rcases hkey with rfl | rfl | rfl | rfl | rfl | rfl
  · exact ⟨hon _ 0 rfl, hoff _ 0 (by norm_num) rfl⟩
  · exact ⟨hon _ 1 rfl, hoff _ 1 (by norm_num) rfl⟩
  · exact ⟨hon _ 2 rfl, hoff _ 2 (by norm_num) rfl⟩
  · exact ⟨hon _ 3 rfl, hoff _ 3 (by norm_num) rfl⟩
  · exact ⟨hon _ 4 rfl, hoff _ 4 (by norm_num) rfl⟩
  · exact ⟨hon _ 5 rfl, hoff _ 5 (by norm_num) rfl⟩

/-- C4, witness: the modifier state with left Ctrl and right Shift held. -/
theorem C4_modifier_bits_witness :
    (∀ key ∈ [(SCANCODE_ALT_LEFT_ON, SCANCODE_ALT_LEFT_OFF, 0),
              (SCANCODE_ALT_RIGHT_ON, SCANCODE_ALT_RIGHT_OFF, 1),
              (SCANCODE_CTRL_LEFT_ON, SCANCODE_CTRL_LEFT_OFF, 2),
              (SCANCODE_CTRL_RIGHT_ON, SCANCODE_CTRL_RIGHT_OFF, 3),
              (SCANCODE_SHIFT_LEFT_ON, SCANCODE_SHIFT_LEFT_OFF, 4),
              (SCANCODE_SHIFT_RIGHT_ON, SCANCODE_SHIFT_RIGHT_OFF, 5)],
      (∀ i, (KeyboardInput 0x24 key.1).1.testBit i =
        if i = key.2.2 then true else (0x24 : Nat).testBit i) ∧
      (∀ i, (KeyboardInput 0x24 key.2.1).1.testBit i =
        if i = key.2.2 then false else (0x24 : Nat).testBit i)) ∧
    (∀ scan, scan ∉ gModifierRuleTbl.map (fun r => r.scan) →
      (KeyboardInput 0x24 scan).1 = 0x24) :=
  C4_modifier_bits 0x24 (by norm_num)

/-- C5: for each of the twelve scancodes of `gModifierRuleTbl` (key-down and
key-up of left and right Alt, Ctrl and Shift) and every modifier state,
`KeyboardInput` sends no message: `ProcModifierKey` reports the key as
handled, so the conversion step is never reached. -/
theorem C5_modifier_no_output (x : Nat) :
    ∀ r ∈ gModifierRuleTbl,
      (KeyboardInput x r.scan).2 = none ∧ (ProcModifierKey x r.scan).1 = true := by
  intro r hr
  simp only [gModifierRuleTbl, List.mem_cons, List.mem_singleton, List.not_mem_nil,
    or_false] at hr
  rcases hr with rfl | rfl | rfl | rfl | rfl | rfl | rfl | rfl | rfl | rfl | rfl | rfl <;>
    exact ⟨rfl, rfl⟩

/-- C5, witness: the key-up code of right Ctrl, with every modifier held. -/
theorem C5_modifier_no_output_witness :
    (KeyboardInput 0x3F SCANCODE_CTRL_RIGHT_OFF).2 = none ∧
    (ProcModifierKey 0x3F SCANCODE_CTRL_RIGHT_OFF).1 = true :=
  C5_modifier_no_output 0x3F
    { scan := SCANCODE_CTRL_RIGHT_OFF, mask := MODIFIER_MASK_CTRL_RIGHT, state := false }
    (by decide)

/-- C6: for every conversion table entry and modifier state for which the
selected text field is absent (`NULL`), `KeyboardInput` sends no message at
all, whatever the Alt bits and the alt-eligibility; so it is for the `1` key
with a Ctrl bit set and for F9 with a Shift bit set. -/
theorem C6_absent_text_no_output :
    (∀ e ∈ gConvTbl, ∀ x : Nat, specSelectedText e x = none →
      (KeyboardInput x e.scan).2 = none) ∧
    (∀ x : Nat, (x.testBit 2 = true ∨ x.testBit 3 = true) →
      (KeyboardInput x 0x020000).2 = none) ∧
    (∀ x : Nat, (x.testBit 4 = true ∨ x.testBit 5 = true) →
      (KeyboardInput x 0x430000).2 = none) := by
  have main : ∀ e ∈ gConvTbl, ∀ x : Nat, specSelectedText e x = none →
      (KeyboardInput x e.scan).2 = none := by
    intro e he x hsel
    rw [KeyboardInput_entry e he x, hsel]
    rfl
  refine ⟨main, ?_, ?_⟩
  · intro x hx
    exact main { scan := 0x020000, pUnshift := some [0x31], pShift := some [0x21],
                 pCtrl := none, alt := true } (by decide) x
      (by simp only [specSelectedText, if_pos hx])
  · intro x hx
    exact main { scan := 0x430000, pUnshift := some [0x1B, 0x5B, 0x32, 0x30, 0x7E],
                 pShift := none, pCtrl := none, alt := false } (by decide) x
      (by
        simp only [specSelectedText, if_pos hx]
        split <;> rfl)

/-- C6, witness: the `1` key (alt-eligible, ctrl text `NULL`) with left
Ctrl and left Alt held. -/
theorem C6_absent_text_no_output_witness : (KeyboardInput 0x05 0x020000).2 = none :=
  C6_absent_text_no_output.1
    { scan := 0x020000, pUnshift := some [0x31], pShift := some [0x21],
      pCtrl := none, alt := true } (by decide) 0x05 (by decide)

/-! ## Screen.c: lemmas -/

@[simp] theorem WriteScreen_gCursor (row column : Int) (c attr : Nat) (s : Screen) :
    (WriteScreen row column c attr s).gCursor = s.gCursor := by
  unfold WriteScreen
  split <;> rfl

theorem fillRow_fold_gCursor (row : Int) (l : List Nat) :
    ∀ s : Screen,
      (l.foldl (fun (st : Screen) (column : Nat) =>
        WriteScreen row (column : Int) 0x20 st.gCursor.attr st) s).gCursor = s.gCursor := by
  induction l with
  | nil => intro s; rfl
  | cons a l ih =>
    intro s
    rw [List.foldl_cons, ih, WriteScreen_gCursor]

@[simp] theorem fillRow_gCursor (row : Int) (s : Screen) :
    (fillRow row s).gCursor = s.gCursor :=
  fillRow_fold_gCursor row _ s

theorem ScreenInit_fold_gCursor (l : List Nat) :
    ∀ s : Screen,
      (l.foldl (fun (st : Screen) (row : Nat) => fillRow (row : Int) st) s).gCursor =
        s.gCursor := by
  induction l with
  | nil => intro s; rfl
  | cons a l ih =>
    intro s
    rw [List.foldl_cons, ih, fillRow_gCursor]

theorem ScreenInit_gCursor (s : Screen) :
    (ScreenInit s).gCursor =
      { row := 1, column := 1,
        attr := VGA_TEXT_ATTR_FG_WHITE ||| VGA_TEXT_ATTR_FG_BRIGHT |||
                VGA_TEXT_ATTR_BG_BLACK } := by
  unfold ScreenInit
  rw [ScreenInit_fold_gCursor]

theorem doLineFeed_gCursor (s : Screen) :
    (doLineFeed s).gCursor =
      { row := if s.gCursor.row + 1 > 25 then 25 else s.gCursor.row + 1,
        column := 1, attr := s.gCursor.attr } := by
  unfold doLineFeed
  simp only [fillRow_gCursor, MAX_ROW]
  split <;> rfl

theorem doLineFeed_inBounds (s : Screen) (h1 : 1 ≤ s.gCursor.row)
    (h2 : s.gCursor.row ≤ 25) : cursorInBounds (doLineFeed s) := by
  unfold cursorInBounds
  rw [doLineFeed_gCursor]
  dsimp only
  split <;> omega

theorem OptimizeCursor_inBounds (s : Screen) : cursorInBounds (OptimizeCursor s) := by
  unfold cursorInBounds OptimizeCursor
  simp only [MAX_ROW, MAX_COLUMN]
  refine ⟨?_, ?_, ?_, ?_⟩ <;> split_ifs <;> omega

theorem ProcEscapeCsiEdLoop_gCursor :
    ∀ (fuel : Nat) (row column endPos : Int) (s s' : Screen),
      ProcEscapeCsiEdLoop fuel row column endPos s = some s' → s'.gCursor = s.gCursor
  | 0, _, _, _, _, _, h => by simp [ProcEscapeCsiEdLoop] at h
  | fuel + 1, row, column, endPos, s, s', h => by
    unfold ProcEscapeCsiEdLoop at h
    dsimp only at h
    split_ifs at h <;> first
      | (cases h; rw [WriteScreen_gCursor])
      | rw [ProcEscapeCsiEdLoop_gCursor fuel _ _ _ _ s' h, WriteScreen_gCursor]

theorem getD_EdLoop_gCursor (fuel : Nat) (row column endPos : Int) (s : Screen) :
    ((ProcEscapeCsiEdLoop fuel row column endPos s).getD s).gCursor = s.gCursor := by
  cases h : ProcEscapeCsiEdLoop fuel row column endPos s with
  | none => rfl
  | some s' => exact ProcEscapeCsiEdLoop_gCursor fuel row column endPos s s' h

/-- In the embedding `ProcEscapeCsiEd` returns the cursor information it was
given: the function never assigns `gCursor`. For the program this says
something only when no store left the array (`overrun`). -/
@[simp] theorem ProcEscapeCsiEd_gCursor (n m : Nat) (s : Screen) :
    (ProcEscapeCsiEd n m s).gCursor = s.gCursor := by
  unfold ProcEscapeCsiEd
  split_ifs
  · exact getD_EdLoop_gCursor _ _ _ _ s
  · exact getD_EdLoop_gCursor _ _ _ _ s
  · exact getD_EdLoop_gCursor _ _ _ _ s
  · rfl

theorem ProcEscapeCsiElLoop_gCursor :
    ∀ (fuel : Nat) (column endPos : Int) (s : Screen),
      (ProcEscapeCsiElLoop fuel column endPos s).gCursor = s.gCursor
  | 0, _, _, _ => rfl
  | fuel + 1, column, endPos, s => by
    unfold ProcEscapeCsiElLoop
    dsimp only
    split
    · rw [ProcEscapeCsiElLoop_gCursor fuel, WriteScreen_gCursor]
    · rw [WriteScreen_gCursor]

@[simp] theorem ProcEscapeCsiEl_gCursor (n m : Nat) (s : Screen) :
    (ProcEscapeCsiEl n m s).gCursor = s.gCursor := by
  unfold ProcEscapeCsiEl
  split_ifs
  · exact ProcEscapeCsiElLoop_gCursor _ _ _ s
  · exact ProcEscapeCsiElLoop_gCursor _ _ _ s
  · exact ProcEscapeCsiElLoop_gCursor _ _ _ s
  · rfl

theorem ProcEscapeCsiSgr_position (n m : Nat) (s : Screen) :
    (ProcEscapeCsiSgr n m s).gCursor.row = s.gCursor.row ∧
    (ProcEscapeCsiSgr n m s).gCursor.column = s.gCursor.column := by
  exact ⟨rfl, rfl⟩

/-- With the text starting at `[`, `GetEscapeCsiParam` reads no digit and no
separator: it returns index 0 and both parameters 0. -/
theorem GetEscapeCsiParam_bracket (rest : List Nat) :
    GetEscapeCsiParam (0x5B :: rest) = (0, 0, 0) := by
  simp [GetEscapeCsiParam, GetEscapeCsiParamDigits]

/-- What `ProcEscape` does on a text that starts with `[`: the function
search runs on the byte at the indeterminate index, with both parameters 0. -/
theorem ProcEscape_bracket (index0 : Nat) (rest : List Nat) (s : Screen) :
    ProcEscape index0 (0x5B :: rest) s =
      ProcEscapeSearch ((0x5B :: rest).getD index0 0) 0 0 index0 s gEscCsiTbl := by
  unfold ProcEscape
  rw [GetEscapeCsiParam_bracket]
  simp

/-- `ProcEscape` on the text `[10;5H`: only when the indeterminate index
is 5 does the search see `H`, and then CUP runs with parameters (0, 0). -/
theorem ProcEscape_cup_text (k : Nat) (s : Screen) :
    ProcEscape k [0x5B, 0x31, 0x30, 0x3B, 0x35, 0x48] s =
      if k = 5 then (6, ProcEscapeCsiCup 0 0 s) else (1, s) := by
  rw [ProcEscape_bracket]
  rcases k with _ | _ | _ | _ | _ | _ | k
  · simp [ProcEscapeSearch, gEscCsiTbl]
  · simp [ProcEscapeSearch, gEscCsiTbl]
  · simp [ProcEscapeSearch, gEscCsiTbl]
  · simp [ProcEscapeSearch, gEscCsiTbl]
  · simp [ProcEscapeSearch, gEscCsiTbl]
  · simp [ProcEscapeSearch, gEscCsiTbl]
  · have h0 : [0x5B, 0x31, 0x30, 0x3B, 0x35, 0x48].getD (k + 1 + 1 + 1 + 1 + 1 + 1) 0 = 0 := by
      simp [List.getD]
    rw [h0]
    simp [ProcEscapeSearch, gEscCsiTbl]

/-- `ProcEscape` on the text `[2J`: only when the indeterminate index is 2
does the search see `J`, and then ED runs with parameters (0, 0). -/
theorem ProcEscape_ed_text (k : Nat) (s : Screen) :
    ProcEscape k [0x5B, 0x32, 0x4A] s =
      if k = 2 then (3, ProcEscapeCsiEd 0 0 s) else (1, s) := by
  rw [ProcEscape_bracket]
  rcases k with _ | _ | _ | k
  · simp [ProcEscapeSearch, gEscCsiTbl]
  · simp [ProcEscapeSearch, gEscCsiTbl]
  · simp [ProcEscapeSearch, gEscCsiTbl]
  · have h0 : [0x5B, 0x32, 0x4A].getD (k + 1 + 1 + 1) 0 = 0 := by
      simp [List.getD]
    rw [h0]
    simp [ProcEscapeSearch, gEscCsiTbl]

/-- The loop of `ScreenOutput` does not need more fuel than the bytes left
in the buffer: with that much, one more unit changes nothing. -/
theorem ScreenOutputLoop_fuel_succ (indexInit : Nat → Nat) (pStr : List Nat)
    (length : Nat) :
    ∀ (fuel index : Nat) (s : Screen), pStr.length ≤ fuel + index →
      ScreenOutputLoop indexInit pStr length (fuel + 1) index s =
        ScreenOutputLoop indexInit pStr length fuel index s
  | 0, index, s, h => by
    have h0 : pStr.getD index 0 = 0 := by
      rw [List.getD_eq_getElem?_getD, List.getElem?_eq_none (by omega)]
      rfl
    have hc : ¬ (pStr.getD index 0 ≠ 0 ∧ index < length) := fun hc => hc.1 h0
    simp only [ScreenOutputLoop, hc, if_false]
  | fuel + 1, index, s, h => by
    rw [ScreenOutputLoop]
    conv_rhs => rw [ScreenOutputLoop]
    split
    · apply ScreenOutputLoop_fuel_succ indexInit pStr length fuel
      dsimp only
      split_ifs <;> dsimp only <;> omega
    · rfl

/-! ## Screen.c: the claims -/

/-- C8, the code at the failing input: starting with the cursor at (1, 1),
after `ScreenOutput` has processed `ESC [ 1 0 ; 5 H` the cursor is not at
(10, 5), whatever the starting value of the uninitialised index of
`ProcEscape`: either CUP ran with the parameters (0, 0) and the cursor is at
(1, 1), or the bytes `10;5H` were written to the grid as text, the first of
them into cell (0, 0), and the cursor is at (1, 6). -/
theorem C8_code_at_failing_input (indexInit : Nat → Nat) :
    ((ScreenOutput indexInit 7 [0x1B, 0x5B, 0x31, 0x30, 0x3B, 0x35, 0x48]
        (exampleScreen 0x20 1 1)).gCursor.row = 1 ∧
     (ScreenOutput indexInit 7 [0x1B, 0x5B, 0x31, 0x30, 0x3B, 0x35, 0x48]
        (exampleScreen 0x20 1 1)).gCursor.column = 1) ∨
    ((ScreenOutput indexInit 7 [0x1B, 0x5B, 0x31, 0x30, 0x3B, 0x35, 0x48]
        (exampleScreen 0x20 1 1)).gCursor.row = 1 ∧
     (ScreenOutput indexInit 7 [0x1B, 0x5B, 0x31, 0x30, 0x3B, 0x35, 0x48]
        (exampleScreen 0x20 1 1)).gCursor.column = 6 ∧
     (ScreenOutput indexInit 7 [0x1B, 0x5B, 0x31, 0x30, 0x3B, 0x35, 0x48]
        (exampleScreen 0x20 1 1)).gScreen 0 0 = { c := 0x31, attr := 0x0F }) := by
  have step : ScreenOutput indexInit 7 [0x1B, 0x5B, 0x31, 0x30, 0x3B, 0x35, 0x48]
        (exampleScreen 0x20 1 1) =
      if indexInit 0 = 5 then
        ScreenOutputLoop indexInit [0x1B, 0x5B, 0x31, 0x30, 0x3B, 0x35, 0x48] 7 6 7
          (ProcEscapeCsiCup 0 0 (exampleScreen 0x20 1 1))
      else
        ScreenOutputLoop indexInit [0x1B, 0x5B, 0x31, 0x30, 0x3B, 0x35, 0x48] 7 6 2
          (exampleScreen 0x20 1 1) := by
    unfold ScreenOutput
    simp only [List.length_cons, List.length_nil]
    rw [ScreenOutputLoop]
    by_cases h : indexInit 0 = 5
    · simp only [h, List.drop, List.getD, ProcEscape_cup_text]
      rfl
    · simp only [h, List.drop, List.getD, ProcEscape_cup_text]
      rfl
  rw [step]
  by_cases h : indexInit 0 = 5
  · rw [if_pos h]
    exact Or.inl ⟨rfl, rfl⟩
  · rw [if_neg h]
    refine Or.inr ⟨?_, ?_, ?_⟩
    · simp [ScreenOutputLoop, WriteScreen_gCursor, exampleScreen, MAX_COLUMN]
    · simp [ScreenOutputLoop, WriteScreen_gCursor, exampleScreen, MAX_COLUMN]
    · simp [ScreenOutputLoop, WriteScreen_gCursor, exampleScreen, MAX_COLUMN, WriteScreen]

/-- C10, counterexample: with the cursor at row 5 and `n = 4294967295`, a
32-bit parameter that exceeds the row, the cast `( int32_t ) n` is `-1` and
the CUU handler moves the cursor down to row 6, not to row 1. -/
theorem C10_counterexample :
    cursorInBounds (exampleScreen 0x20 5 7) ∧
    (exampleScreen 0x20 5 7).gCursor.row < ((4294967295 : Nat) : Int) ∧
    (4294967295 : Nat) < 2 ^ 32 ∧
    (ProcEscapeCsiCuu 4294967295 0 (exampleScreen 0x20 5 7)).gCursor.row = 6 ∧
    (ProcEscapeCsiCuu 4294967295 0 (exampleScreen 0x20 5 7)).gCursor.row ≠ 1 := by
  decide

/-- C10, amended: for every cursor inside the grid and every parameter `n`
that exceeds the current row and is below `2 ^ 31` (so that the cast
`( int32_t ) n` keeps its value), the CUU handler leaves the cursor on row 1
and leaves the column unchanged. -/
theorem C10_cuu_clamps_to_first_row (s : Screen) (n m : Nat)
    (hs : cursorInBounds s) (hn : s.gCursor.row < (n : Int)) (h31 : n < 2 ^ 31) :
    (ProcEscapeCsiCuu n m s).gCursor.row = 1 ∧
    (ProcEscapeCsiCuu n m s).gCursor.column = s.gCursor.column := by
  obtain ⟨h1, h2, h3, h4⟩ := hs
  have hn31 : (n : Int) < 2147483648 := by
    have : n < 2147483648 := by simpa using h31
    exact_mod_cast this
  unfold ProcEscapeCsiCuu OptimizeCursor toInt32
  simp only [MAX_ROW, MAX_COLUMN]
  constructor
  · split_ifs <;> omega
  · split_ifs <;> omega

/-- C10, amended, witness: the cursor at (5, 7) and `n = 9`. -/
theorem C10_cuu_clamps_to_first_row_witness :
    (ProcEscapeCsiCuu 9 0 (exampleScreen 0x20 5 7)).gCursor.row = 1 ∧
    (ProcEscapeCsiCuu 9 0 (exampleScreen 0x20 5 7)).gCursor.column =
      (exampleScreen 0x20 5 7).gCursor.column :=
  C10_cuu_clamps_to_first_row (exampleScreen 0x20 5 7) 9 0 (by decide) (by decide)
    (by norm_num)

/-! ## Keyboard.c: zero-length text -/

theorem cstr_of_strlen_zero (t : List Nat) (h : strlen t = 0) : cstr t = [0] := by
  unfold strlen at h
  unfold cstr
  rw [List.length_eq_zero] at h
  rw [h]
  rfl

/-- C20: for every conversion table entry and modifier state whose selected
text is present but has length zero, `KeyboardInput` still sends a message:
with declared length 1 (the byte NUL) when no Alt prefix applies, and with
declared length 2 (ESC, then NUL) when the entry is alt-eligible and an Alt
bit is set. So it is for Shift (without Ctrl) on the `0` key and for Ctrl on
the `2`, `@` and Space keys, whose texts are `""` and a lone NUL. -/
theorem C20_zero_length_text :
    (∀ e ∈ gConvTbl, ∀ (x : Nat) (t : List Nat),
      specSelectedText e x = some t → strlen t = 0 →
      ∃ msg, (KeyboardInput x e.scan).2 = some msg ∧
        if e.alt = true ∧ (x.testBit 0 = true ∨ x.testBit 1 = true) then
          msg.length = 2 ∧ msg.payload = [0x1B, 0]
        else msg.length = 1 ∧ msg.payload = [0]) ∧
    (∀ x : Nat, ¬ (x.testBit 2 = true ∨ x.testBit 3 = true) →
      (x.testBit 4 = true ∨ x.testBit 5 = true) →
      ∃ msg, (KeyboardInput x 0x0B0000).2 = some msg ∧
        msg.length = if x.testBit 0 = true ∨ x.testBit 1 = true then 2 else 1) ∧
    (∀ x : Nat, (x.testBit 2 = true ∨ x.testBit 3 = true) →
      ∀ scan ∈ [0x030000, 0x1A0000, 0x390000],
      ∃ msg, (KeyboardInput x scan).2 = some msg ∧
        msg.length = if x.testBit 0 = true ∨ x.testBit 1 = true then 2 else 1) := by
  have main : ∀ e ∈ gConvTbl, ∀ (x : Nat) (t : List Nat),
      specSelectedText e x = some t → strlen t = 0 →
      ∃ msg, (KeyboardInput x e.scan).2 = some msg ∧
        if e.alt = true ∧ (x.testBit 0 = true ∨ x.testBit 1 = true) then
          msg.length = 2 ∧ msg.payload = [0x1B, 0]
        else msg.length = 1 ∧ msg.payload = [0] := by
    intro e he x t hsel hlen
    rw [KeyboardInput_entry e he x, hsel]
    simp only [SendCode, hlen, if_true, cstr_of_strlen_zero t hlen]
    by_cases halt : e.alt = true ∧ (x.testBit 0 = true ∨ x.testBit 1 = true)
    · rw [if_pos ⟨by simp [halt.1], (mask_alt_iff x).2 halt.2⟩]
      exact ⟨_, rfl, by rw [if_pos halt]; exact ⟨rfl, rfl⟩⟩
    · have hno : ¬ (e.alt ≠ false ∧ x &&& MODIFIER_MASK_ALT ≠ 0) := by
        rintro ⟨h1, h2⟩
        exact halt ⟨by simpa using h1, (mask_alt_iff x).1 h2⟩
      rw [if_neg hno]
      exact ⟨_, rfl, by rw [if_neg halt]; exact ⟨rfl, rfl⟩⟩
  have inst : ∀ e ∈ gConvTbl, e.alt = true → ∀ (x : Nat) (t : List Nat),
      specSelectedText e x = some t → strlen t = 0 →
      ∃ msg, (KeyboardInput x e.scan).2 = some msg ∧
        msg.length = if x.testBit 0 = true ∨ x.testBit 1 = true then 2 else 1 := by
    intro e he halt x t hsel hlen
    obtain ⟨msg, h1, h2⟩ := main e he x t hsel hlen
    refine ⟨msg, h1, ?_⟩
    by_cases hb : x.testBit 0 = true ∨ x.testBit 1 = true
    · rw [if_pos ⟨halt, hb⟩] at h2
      rw [if_pos hb, h2.1]
    · rw [if_neg (fun h => hb h.2)] at h2
      rw [if_neg hb, h2.1]
  refine ⟨main, ?_, ?_⟩
  · intro x hc hs
    exact inst { scan := 0x0B0000, pUnshift := some [0x30], pShift := some [],
                 pCtrl := none, alt := true } (by decide) rfl x []
      (by simp only [specSelectedText, if_neg hc, if_pos hs]) rfl
  · intro x hc scan hscan
    simp only [List.mem_cons, List.mem_singleton, List.not_mem_nil, or_false] at hscan
    rcases hscan with rfl | rfl | rfl
    · exact inst { scan := 0x030000, pUnshift := some [0x32], pShift := some [0x22],
                   pCtrl := some [0x00], alt := true } (by decide) rfl x [0]
        (by simp only [specSelectedText, if_pos hc]) rfl
    · exact inst { scan := 0x1A0000, pUnshift := some [0x40], pShift := some [0x60],
                   pCtrl := some [0x00], alt := true } (by decide) rfl x [0]
        (by simp only [specSelectedText, if_pos hc]) rfl
    · exact inst { scan := 0x390000, pUnshift := some [0x20], pShift := some [0x20],
                   pCtrl := some [0x00], alt := true } (by decide) rfl x [0]
        (by simp only [specSelectedText, if_pos hc]) rfl

/-- C20, witness: Shift and Alt held on the `0` key. -/
theorem C20_zero_length_text_witness :
    ∃ msg, (KeyboardInput 0x11 0x0B0000).2 = some msg ∧
      if true = true ∧ ((0x11 : Nat).testBit 0 = true ∨ (0x11 : Nat).testBit 1 = true) then
        msg.length = 2 ∧ msg.payload = [0x1B, 0]
      else msg.length = 1 ∧ msg.payload = [0] :=
  C20_zero_length_text.1
    { scan := 0x0B0000, pUnshift := some [0x30], pShift := some [],
      pCtrl := none, alt := true } (by decide) 0x11 [] (by decide) rfl

/-! ## Screen.c: character attributes -/

theorem ProcEscapeCsiSgr_fold_frame (ns : List (Nat × Nat)) :
    ∀ s : Screen,
      (ns.foldl (fun (st : Screen) (p : Nat × Nat) => ProcEscapeCsiSgr p.1 p.2 st) s).gScreen =
        s.gScreen ∧
      (ns.foldl (fun (st : Screen) (p : Nat × Nat) => ProcEscapeCsiSgr p.1 p.2 st)
        s).gCursor.row = s.gCursor.row ∧
      (ns.foldl (fun (st : Screen) (p : Nat × Nat) => ProcEscapeCsiSgr p.1 p.2 st)
        s).gCursor.column = s.gCursor.column := by
  induction ns with
  | nil => intro s; exact ⟨rfl, rfl, rfl⟩
  | cons p ns ih =>
    intro s
    rw [List.foldl_cons]
    obtain ⟨h1, h2, h3⟩ := ih (ProcEscapeCsiSgr p.1 p.2 s)
    exact ⟨h1, h2, h3⟩

/-- In the `&=` of case 7 the left operand lies in bits 0-3 and the right
operand in bits 4-6, so the stored attribute is 0 for every attribute. -/
theorem ProcEscapeCsiSgrAttr_seven (a : Nat) : ProcEscapeCsiSgrAttr 7 a = 0 := by
  have hlow : ((VGA_TEXT_ATTR_BG a >>> 4) ||| VGA_TEXT_ATTR_FG_BRIGHT) % 256 < 2 ^ 4 := by
    have h1 : VGA_TEXT_ATTR_BG a >>> 4 < 2 ^ 4 := by
      have h70 : VGA_TEXT_ATTR_BG a ≤ 0x70 := Nat.and_le_right
      rw [Nat.shiftRight_eq_div_pow]
      omega
    have h2 : VGA_TEXT_ATTR_FG_BRIGHT < 2 ^ 4 := by decide
    have h3 := Nat.or_lt_two_pow h1 h2
    have h4 : ((VGA_TEXT_ATTR_BG a >>> 4) ||| VGA_TEXT_ATTR_FG_BRIGHT) % 256 ≤
        (VGA_TEXT_ATTR_BG a >>> 4) ||| VGA_TEXT_ATTR_FG_BRIGHT := Nat.mod_le _ _
    omega
  have hzero : ((VGA_TEXT_ATTR_BG a >>> 4) ||| VGA_TEXT_ATTR_FG_BRIGHT) % 256 &&&
      ((VGA_TEXT_ATTR_FG a <<< 4) &&& (0xFFFFFFFF ^^^ VGA_TEXT_ATTR_BLINK)) = 0 := by
    apply Nat.eq_of_testBit_eq
    intro i
    rw [Nat.zero_testBit, Nat.testBit_and, Nat.testBit_and, Nat.testBit_shiftLeft]
    by_cases hi : i < 4
    · have : ¬ (i ≥ 4) := by omega
      simp [this]
    · have hlt : ((VGA_TEXT_ATTR_BG a >>> 4) ||| VGA_TEXT_ATTR_FG_BRIGHT) % 256 < 2 ^ i :=
        lt_of_lt_of_le hlow (Nat.pow_le_pow_right (by norm_num) (by omega))
      rw [Nat.testBit_lt_two_pow hlt]
      rfl
  unfold ProcEscapeCsiSgrAttr
  rw [if_neg (by decide), if_pos rfl]
  dsimp only
  rw [hzero]

/-- C12: for every finite sequence of SGR parameter pairs applied through the
SGR handler from any state, applying SGR with `n = 0` afterwards leaves the
current attribute equal to the attribute `ScreenInit` sets (0x0F: white
foreground, bright, black background), independent of the sequence; the grid
and the cursor position are those of the state before the sequence. -/
theorem C12_sgr_reset (ns : List (Nat × Nat)) (s s0 : Screen) (m : Nat) :
    (ProcEscapeCsiSgr 0 m
      (ns.foldl (fun (st : Screen) (p : Nat × Nat) => ProcEscapeCsiSgr p.1 p.2 st)
        s)).gCursor.attr = (ScreenInit s0).gCursor.attr ∧
    (ScreenInit s0).gCursor.attr = 0x0F ∧
    (ProcEscapeCsiSgr 0 m
      (ns.foldl (fun (st : Screen) (p : Nat × Nat) => ProcEscapeCsiSgr p.1 p.2 st)
        s)).gScreen = s.gScreen ∧
    (ProcEscapeCsiSgr 0 m
      (ns.foldl (fun (st : Screen) (p : Nat × Nat) => ProcEscapeCsiSgr p.1 p.2 st)
        s)).gCursor.row = s.gCursor.row ∧
    (ProcEscapeCsiSgr 0 m
      (ns.foldl (fun (st : Screen) (p : Nat × Nat) => ProcEscapeCsiSgr p.1 p.2 st)
        s)).gCursor.column = s.gCursor.column := by
  obtain ⟨h1, h2, h3⟩ := ProcEscapeCsiSgr_fold_frame ns s
  rw [ScreenInit_gCursor]
  exact ⟨rfl, rfl, h1, h2, h3⟩

/-- C18, the code at the failing input: with `n = 42` the SGR handler stores
the same attribute as with `n = 41`, for every starting attribute; from the
attribute 0x0F the background field (bits 4-6) becomes 4, the red of
`n = 41`, not the green `VGA_TEXT_ATTR_BG_GREEN`. -/
theorem C18_code_at_failing_input :
    (∀ a : Nat, ProcEscapeCsiSgrAttr 42 a = ProcEscapeCsiSgrAttr 41 a) ∧
    (ProcEscapeCsiSgr 42 0 (exampleScreen 0x20 1 1)).gCursor.attr = 0x4F ∧
    (ProcEscapeCsiSgr 42 0 (exampleScreen 0x20 1 1)).gCursor.attr / 16 % 8 ≠
      VGA_TEXT_ATTR_BG_GREEN / 16 ∧
    (ProcEscapeCsiSgr 42 0 (exampleScreen 0x20 1 1)).gCursor.attr / 16 % 8 =
      (ProcEscapeCsiSgr 41 0 (exampleScreen 0x20 1 1)).gCursor.attr / 16 % 8 := by
  refine ⟨fun a => rfl, ?_, ?_, ?_⟩ <;> decide

/-- C19, the code at the failing input: with `n = 7` the SGR handler stores
the attribute 0 for every starting attribute; from the attribute 0x0F (white
on black) the new background colour (bits 4-6) is 0, not the old foreground
colour 7. -/
theorem C19_code_at_failing_input :
    (∀ (m : Nat) (s : Screen), (ProcEscapeCsiSgr 7 m s).gCursor.attr = 0) ∧
    (exampleScreen 0x20 1 1).gCursor.attr % 8 = 7 ∧
    (ProcEscapeCsiSgr 7 0 (exampleScreen 0x20 1 1)).gCursor.attr / 16 % 8 = 0 := by
  refine ⟨fun m s => ?_, by decide, ?_⟩
  · exact ProcEscapeCsiSgrAttr_seven s.gCursor.attr
  · have h := ProcEscapeCsiSgrAttr_seven (exampleScreen 0x20 1 1).gCursor.attr
    show ProcEscapeCsiSgrAttr 7 (exampleScreen 0x20 1 1).gCursor.attr / 16 % 8 = 0
    rw [h]

/-! ## Screen.c: parameter parsing -/

/-- The digit loop of `GetEscapeCsiParam` on a run of digits `ds` followed
by a byte that is not a digit: it consumes the run and accumulates its decimal
value modulo `2 ^ 32`. -/
theorem GetEscapeCsiParamDigits_run (t : Nat) (rest : List Nat)
    (ht : ¬ (0x30 ≤ t ∧ t ≤ 0x39)) :
    ∀ (ds : List Nat) (acc index : Nat), (∀ d ∈ ds, 0x30 ≤ d ∧ d ≤ 0x39) →
      GetEscapeCsiParamDigits (ds ++ t :: rest) acc index =
        (ds.foldl (fun a d => (a * 10 + (d - 0x30)) % 4294967296) acc, index + ds.length)
  | [], acc, index, _ => by
    simp only [List.nil_append, GetEscapeCsiParamDigits, if_neg ht, List.foldl_nil,
      List.length_nil, Nat.add_zero]
  | d :: ds, acc, index, h => by
    have hd := h d (List.mem_cons_self _ _)
    have ih := GetEscapeCsiParamDigits_run t rest ht ds
      ((acc * 10 + (d - 0x30)) % 4294967296) (index + 1)
      (fun d' hd' => h d' (List.mem_cons_of_mem _ hd'))
    rw [List.cons_append, GetEscapeCsiParamDigits, if_pos hd, ih, List.foldl_cons,
      List.length_cons]
    congr 1
    omega

theorem foldl_digits_mod (ds : List Nat) :
    ∀ a : Nat,
      ds.foldl (fun a d => (a * 10 + (d - 0x30)) % 4294967296) (a % 4294967296) =
        ds.foldl (fun a d => a * 10 + (d - 0x30)) a % 4294967296 := by
  induction ds with
  | nil => intro a; simp
  | cons d ds ih =>
    intro a
    rw [List.foldl_cons, List.foldl_cons, ← ih]
    congr 1
    omega

theorem foldl_digits_decimalValue (ds : List Nat) :
    ds.foldl (fun a d => (a * 10 + (d - 0x30)) % 4294967296) 0 =
      decimalValue ds % 4294967296 :=
  foldl_digits_mod ds 0

theorem getD_append_cons_length (a : List Nat) (t : Nat) (rest : List Nat) :
    (a ++ t :: rest).getD a.length 0 = t := by
  induction a with
  | nil => rfl
  | cons x a ih => simpa using ih

theorem drop_append_cons_length (a : List Nat) (t : Nat) (rest : List Nat) :
    (a ++ t :: rest).drop (a.length + 1) = rest := by
  rw [← List.drop_drop, List.drop_left]
  rfl

/-- C14, counterexample: on the text `;4294967296H` the value of the second
parameter is 0, not the decimal value 4294967296 of its digits. -/
theorem C14_counterexample :
    GetEscapeCsiParam
      [0x3B, 0x34, 0x32, 0x39, 0x34, 0x39, 0x36, 0x37, 0x32, 0x39, 0x36, 0x48] =
        (11, 0, 0) ∧
    decimalValue [0x34, 0x32, 0x39, 0x34, 0x39, 0x36, 0x37, 0x32, 0x39, 0x36] =
      4294967296 ∧
    (GetEscapeCsiParam
      [0x3B, 0x34, 0x32, 0x39, 0x34, 0x39, 0x36, 0x37, 0x32, 0x39, 0x36, 0x48]).2.2 ≠
      decimalValue [0x34, 0x32, 0x39, 0x34, 0x39, 0x36, 0x37, 0x32, 0x39, 0x36] := by
  decide

/-- C14, amended: on a text that starts with a (possibly empty) run of
decimal digits `a`, optionally followed by `;` and a (possibly empty) run of
digits `b`, and then a byte `t` that is not a digit, `GetEscapeCsiParam`
returns `n` = the decimal value of `a` modulo `2 ^ 32`, `m` = the decimal
value of `b` modulo `2 ^ 32` (0 when there is no `;`), and as index the number
of digit and `;` bytes read, where the text holds the terminator `t`. -/
theorem C14_GetEscapeCsiParam_value (a b : List Nat) (t : Nat) (rest : List Nat)
    (ha : ∀ d ∈ a, 0x30 ≤ d ∧ d ≤ 0x39) (hb : ∀ d ∈ b, 0x30 ≤ d ∧ d ≤ 0x39)
    (ht : ¬ (0x30 ≤ t ∧ t ≤ 0x39)) :
    (t ≠ 0x3B →
      GetEscapeCsiParam (a ++ t :: rest) =
        (a.length, decimalValue a % 4294967296, 0) ∧
      (a ++ t :: rest).getD (GetEscapeCsiParam (a ++ t :: rest)).1 0 = t) ∧
    GetEscapeCsiParam (a ++ 0x3B :: (b ++ t :: rest)) =
      (a.length + 1 + b.length, decimalValue a % 4294967296,
        decimalValue b % 4294967296) ∧
    (a ++ 0x3B :: (b ++ t :: rest)).getD
      (GetEscapeCsiParam (a ++ 0x3B :: (b ++ t :: rest))).1 0 = t := by
  have hsep : ¬ (0x30 ≤ 0x3B ∧ 0x3B ≤ 0x39) := by decide
  have h1 : t ≠ 0x3B → GetEscapeCsiParam (a ++ t :: rest) =
      (a.length, decimalValue a % 4294967296, 0) := by
    intro hne
    unfold GetEscapeCsiParam
    rw [GetEscapeCsiParamDigits_run t rest ht a 0 0 ha, foldl_digits_decimalValue]
    simp only [Nat.zero_add, getD_append_cons_length]
    rw [if_pos hne]
  have h2 : GetEscapeCsiParam (a ++ 0x3B :: (b ++ t :: rest)) =
      (a.length + 1 + b.length, decimalValue a % 4294967296,
        decimalValue b % 4294967296) := by
    unfold GetEscapeCsiParam
    rw [GetEscapeCsiParamDigits_run 0x3B (b ++ t :: rest) hsep a 0 0 ha,
      foldl_digits_decimalValue]
    simp only [Nat.zero_add, getD_append_cons_length, ne_eq, not_true_eq_false, if_false,
      drop_append_cons_length]
    rw [GetEscapeCsiParamDigits_run t rest ht b 0 _ hb, foldl_digits_decimalValue]
  refine ⟨fun hne => ⟨h1 hne, ?_⟩, h2, ?_⟩
  · rw [h1 hne]
    exact getD_append_cons_length a t rest
  · rw [h2]
    have : a ++ 0x3B :: (b ++ t :: rest) = (a ++ 0x3B :: b) ++ t :: rest := by simp
    rw [this]
    have hlen : a.length + 1 + b.length = (a ++ 0x3B :: b).length := by
      simp; omega
    rw [hlen]
    exact getD_append_cons_length _ t rest

/-- C14, amended, witness: the text `10;5H`. -/
theorem C14_GetEscapeCsiParam_value_witness :
    GetEscapeCsiParam [0x31, 0x30, 0x3B, 0x35, 0x48] = (4, 10, 5) := by
  have h := (C14_GetEscapeCsiParam_value [0x31, 0x30] [0x35] 0x48 [] (by decide)
    (by decide) (by decide)).2.1
  simpa [decimalValue] using h

/-! ## Screen.c: erase in line -/

theorem WriteScreen_inside (row column : Int) (c attr : Nat) (s : Screen)
    (h : 1 ≤ row ∧ row ≤ 25 ∧ 1 ≤ column ∧ column ≤ 80) (i j : Nat) :
    (WriteScreen row column c attr s).gScreen i j =
      (if (i : Int) = row - 1 ∧ (j : Int) = column - 1 then { c := c, attr := attr }
       else s.gScreen i j) ∧
    (WriteScreen row column c attr s).overrun = s.overrun := by
  obtain ⟨h1, h2, h3, h4⟩ := h
  unfold WriteScreen
  rw [if_pos ⟨by omega, by omega⟩]
  refine ⟨?_, rfl⟩
  dsimp only
  by_cases hc : j < 80 ∧ (i : Int) * 80 + (j : Int) = (row - 1) * 80 + (column - 1)
  · rw [if_pos hc, if_pos ⟨by omega, by omega⟩]
  · rw [if_neg hc, if_neg (fun hh => hc ⟨by omega, by omega⟩)]

/-- The loop of `ProcEscapeCsiEl` with the fuel its caller gives it writes
blanks into the columns `column .. endPos` of the cursor row and nothing
else. -/
theorem ProcEscapeCsiElLoop_spec :
    ∀ (fuel : Nat) (column endPos : Int) (s : Screen),
      1 ≤ s.gCursor.row → s.gCursor.row ≤ 25 → 1 ≤ column → endPos ≤ 80 →
      column + fuel = endPos + 1 →
      (∀ i j : Nat, (ProcEscapeCsiElLoop fuel column endPos s).gScreen i j =
        if (i : Int) = s.gCursor.row - 1 ∧ column - 1 ≤ (j : Int) ∧ (j : Int) ≤ endPos - 1
        then { c := 0x20, attr := s.gCursor.attr } else s.gScreen i j) ∧
      (ProcEscapeCsiElLoop fuel column endPos s).overrun = s.overrun
  | 0, column, endPos, s, _, _, _, _, hf => by
    refine ⟨fun i j => ?_, rfl⟩
    rw [if_neg (fun h => by omega)]
    rfl
  | fuel + 1, column, endPos, s, h1, h2, h3, h4, hf => by
    have hw := WriteScreen_inside s.gCursor.row column 0x20 s.gCursor.attr s
      ⟨h1, h2, h3, by omega⟩
    unfold ProcEscapeCsiElLoop
    dsimp only
    by_cases hc : column + 1 ≤ endPos
    · rw [if_pos hc]
      have ih := ProcEscapeCsiElLoop_spec fuel (column + 1) endPos
        (WriteScreen s.gCursor.row column 0x20 s.gCursor.attr s)
        (by rw [WriteScreen_gCursor]; exact h1) (by rw [WriteScreen_gCursor]; exact h2)
        (by omega) h4 (by push_cast at hf ⊢; omega)
      rw [WriteScreen_gCursor] at ih
      refine ⟨fun i j => ?_, ?_⟩
      · rw [ih.1 i j, (hw i j).1]
        by_cases hi : (i : Int) = s.gCursor.row - 1
        · by_cases hj1 : column + 1 - 1 ≤ (j : Int) ∧ (j : Int) ≤ endPos - 1
          · rw [if_pos ⟨hi, hj1⟩, if_pos ⟨hi, by omega, hj1.2⟩]
          · rw [if_neg (fun h => hj1 h.2)]
            by_cases hj2 : (j : Int) = column - 1
            · rw [if_pos ⟨hi, hj2⟩, if_pos ⟨hi, by omega, by omega⟩]
            · rw [if_neg (fun h => hj2 h.2), if_neg (fun h => by omega)]
        · rw [if_neg (fun h => hi h.1), if_neg (fun h => hi h.1), if_neg (fun h => hi h.1)]
      · rw [ih.2, (hw 0 0).2]
    · rw [if_neg hc]
      refine ⟨fun i j => ?_, (hw 0 0).2⟩
      rw [(hw i j).1]
      by_cases hi : (i : Int) = s.gCursor.row - 1 ∧ (j : Int) = column - 1
      · rw [if_pos hi, if_pos ⟨hi.1, by omega, by push_cast at hf; omega⟩]
      · rw [if_neg hi, if_neg (fun h => hi ⟨h.1, by push_cast at hf; omega⟩)]

/-- C17: for every grid, attribute `a` and cursor `(r, c)` inside the grid,
the erase-in-line handler sets to `{space, a}` exactly the cells of row `r`
in the columns `c..80` when `n = 0`, `1..c` when `n = 1` and `1..80` when
`n = 2`, and changes nothing when `n` is another value; in every case the
cells of the other rows, the cursor position and the attribute are unchanged
and no write leaves the grid (the flag `overrun` keeps its value). -/
theorem C17_erase_in_line (s : Screen) (m : Nat) (hs : cursorInBounds s) :
    (∀ i j : Nat, (ProcEscapeCsiEl 0 m s).gScreen i j =
      if (i : Int) = s.gCursor.row - 1 ∧ s.gCursor.column - 1 ≤ (j : Int) ∧ (j : Int) ≤ 79
      then { c := 0x20, attr := s.gCursor.attr } else s.gScreen i j) ∧
    (∀ i j : Nat, (ProcEscapeCsiEl 1 m s).gScreen i j =
      if (i : Int) = s.gCursor.row - 1 ∧ (j : Int) ≤ s.gCursor.column - 1
      then { c := 0x20, attr := s.gCursor.attr } else s.gScreen i j) ∧
    (∀ i j : Nat, (ProcEscapeCsiEl 2 m s).gScreen i j =
      if (i : Int) = s.gCursor.row - 1 ∧ (j : Int) ≤ 79
      then { c := 0x20, attr := s.gCursor.attr } else s.gScreen i j) ∧
    (∀ n : Nat, n ≠ 0 → n ≠ 1 → n ≠ 2 → ProcEscapeCsiEl n m s = s) ∧
    (∀ n : Nat, (ProcEscapeCsiEl n m s).gCursor = s.gCursor ∧
      (ProcEscapeCsiEl n m s).overrun = s.overrun) := by
  obtain ⟨h1, h2, h3, h4⟩ := hs
  have e0 := ProcEscapeCsiElLoop_spec ((80 - s.gCursor.column).toNat + 1)
    s.gCursor.column 80 s h1 h2 h3 (le_refl _) (by push_cast; omega)
  have e1 := ProcEscapeCsiElLoop_spec ((s.gCursor.column - 1).toNat + 1)
    1 s.gCursor.column s h1 h2 (le_refl _) h4 (by push_cast; omega)
  have e2 := ProcEscapeCsiElLoop_spec 80 1 80 s h1 h2 (le_refl _) (le_refl _) (by norm_num)
  have u0 : ProcEscapeCsiEl 0 m s = ProcEscapeCsiElLoop
      ((80 - s.gCursor.column).toNat + 1) s.gCursor.column 80 s := by
    unfold ProcEscapeCsiEl; rw [if_pos rfl]
  have u1 : ProcEscapeCsiEl 1 m s = ProcEscapeCsiElLoop
      ((s.gCursor.column - 1).toNat + 1) 1 s.gCursor.column s := by
    unfold ProcEscapeCsiEl; rw [if_neg (by decide), if_pos rfl]
  have u2 : ProcEscapeCsiEl 2 m s = ProcEscapeCsiElLoop 80 1 80 s := by
    unfold ProcEscapeCsiEl; rw [if_neg (by decide), if_neg (by decide), if_pos rfl]
  have u3 : ∀ n : Nat, n ≠ 0 → n ≠ 1 → n ≠ 2 → ProcEscapeCsiEl n m s = s := by
    intro n n0 n1 n2
    unfold ProcEscapeCsiEl; rw [if_neg n0, if_neg n1, if_neg n2]
  refine ⟨fun i j => ?_, fun i j => ?_, fun i j => ?_, u3, fun n => ?_⟩
  · rw [u0, e0.1 i j]
    by_cases hc : (i : Int) = s.gCursor.row - 1 ∧ s.gCursor.column - 1 ≤ (j : Int) ∧
        (j : Int) ≤ 79
    · rw [if_pos hc, if_pos ⟨hc.1, hc.2.1, by omega⟩]
    · rw [if_neg hc, if_neg (fun h => hc ⟨h.1, h.2.1, by omega⟩)]
  · rw [u1, e1.1 i j]
    by_cases hc : (i : Int) = s.gCursor.row - 1 ∧ (j : Int) ≤ s.gCursor.column - 1
    · rw [if_pos hc, if_pos ⟨hc.1, by omega, hc.2⟩]
    · rw [if_neg hc, if_neg (fun h => hc ⟨h.1, h.2.2⟩)]
  · rw [u2, e2.1 i j]
    by_cases hc : (i : Int) = s.gCursor.row - 1 ∧ (j : Int) ≤ 79
    · rw [if_pos hc, if_pos ⟨hc.1, by omega, by omega⟩]
    · rw [if_neg hc, if_neg (fun h => hc ⟨h.1, by omega⟩)]
  · refine ⟨ProcEscapeCsiEl_gCursor n m s, ?_⟩
    by_cases n0 : n = 0
    · subst n0; rw [u0, e0.2]
    · by_cases n1 : n = 1
      · subst n1; rw [u1, e1.2]
      · by_cases n2 : n = 2
        · subst n2; rw [u2, e2.2]
        · rw [u3 n n0 n1 n2]

/-- C17, witness: the cursor at (3, 7). -/
theorem C17_erase_in_line_witness :
    (ProcEscapeCsiEl 1 0 (exampleScreen 0x58 3 7)).gScreen 2 6 =
      { c := 0x20, attr := 0x0F } ∧
    (ProcEscapeCsiEl 1 0 (exampleScreen 0x58 3 7)).gScreen 2 7 =
      { c := 0x58, attr := 0x07 } := by
  have h := (C17_erase_in_line (exampleScreen 0x58 3 7) 0 (by decide)).2.1
  constructor
  · rw [h 2 6]; decide
  · rw [h 2 7]; decide

/-! ## Screen.c: line feed -/

theorem fillRow_fold_spec (row : Int) (h1 : 1 ≤ row) (h2 : row ≤ 25) (s : Screen) :
    ∀ k : Nat, k ≤ 80 → ∀ i j : Nat,
      ((List.range' 1 k).foldl (fun (st : Screen) (column : Nat) =>
        WriteScreen row (column : Int) 0x20 st.gCursor.attr st) s).gScreen i j =
        if (i : Int) = row - 1 ∧ j < k then { c := 0x20, attr := s.gCursor.attr }
        else s.gScreen i j
  | 0, _, i, j => by
    rw [if_neg (fun h => by omega)]
    rfl
  | k + 1, hk, i, j => by
    rw [List.range'_concat, Nat.one_mul, List.foldl_append, List.foldl_cons,
      List.foldl_nil]
    have hw := WriteScreen_inside row ((1 + k : Nat) : Int) 0x20
      ((List.range' 1 k).foldl (fun (st : Screen) (column : Nat) =>
        WriteScreen row (column : Int) 0x20 st.gCursor.attr st) s).gCursor.attr
      ((List.range' 1 k).foldl (fun (st : Screen) (column : Nat) =>
        WriteScreen row (column : Int) 0x20 st.gCursor.attr st) s)
      ⟨h1, h2, by push_cast; omega, by push_cast; omega⟩ i j
    rw [hw.1, fillRow_fold_spec row h1 h2 s k (by omega) i j, fillRow_fold_gCursor]
    by_cases hi : (i : Int) = row - 1
    · by_cases hj : j = k
      · rw [if_pos ⟨hi, by push_cast; omega⟩, if_pos ⟨hi, by omega⟩]
      · rw [if_neg (fun h => hj (by have := h.2; push_cast at this; omega))]
        by_cases hjk : j < k
        · rw [if_pos ⟨hi, hjk⟩, if_pos ⟨hi, by omega⟩]
        · rw [if_neg (fun h => hjk h.2), if_neg (fun h => by omega)]
    · rw [if_neg (fun h => hi h.1), if_neg (fun h => hi h.1), if_neg (fun h => hi h.1)]

/-- The row clearing loop writes a blank with the current attribute into
the 80 cells of the row and nothing else. -/
theorem fillRow_gScreen (row : Int) (h1 : 1 ≤ row) (h2 : row ≤ 25) (s : Screen)
    (i j : Nat) :
    (fillRow row s).gScreen i j =
      if (i : Int) = row - 1 ∧ j < 80 then { c := 0x20, attr := s.gCursor.attr }
      else s.gScreen i j :=
  fillRow_fold_spec row h1 h2 s 80 (le_refl _) i j

theorem copyRowUp_apply (g : Nat → Nat → Cell) (row i j : Nat) :
    copyRowUp g row i j = if i = row - 1 ∧ j < 80 then g row j else g i j :=
  rfl

/-- The scroll loop after `k` copies: the first `k` array rows hold what the
rows below them held. -/
theorem copyRowUp_fold (g : Nat → Nat → Cell) :
    ∀ k : Nat, ∀ i j : Nat,
      (List.range' 1 k).foldl copyRowUp g i j =
        if i < k ∧ j < 80 then g (i + 1) j else g i j
  | 0, i, j => by
    rw [if_neg (fun h => by omega)]
    rfl
  | k + 1, i, j => by
    rw [List.range'_concat, Nat.one_mul, List.foldl_append, List.foldl_cons,
      List.foldl_nil, copyRowUp_apply]
    rw [copyRowUp_fold g k i j, copyRowUp_fold g k (1 + k) j]
    by_cases h : i = 1 + k - 1 ∧ j < 80
    · rw [if_pos h, if_neg (fun hh => by omega), if_pos ⟨by omega, h.2⟩]
      have : i + 1 = 1 + k := by omega
      rw [this]
    · rw [if_neg h]
      by_cases h' : i < k ∧ j < 80
      · rw [if_pos h', if_pos ⟨by omega, h'.2⟩]
      · rw [if_neg h', if_neg (fun hh => h' ⟨by omega, hh.2⟩)]

/-- A line feed above the last row: the cursor row below is cleared, no
other cell changes. -/
theorem doLineFeed_gScreen_noscroll (s : Screen) (h1 : 1 ≤ s.gCursor.row)
    (h2 : s.gCursor.row < 25) (i j : Nat) :
    (doLineFeed s).gScreen i j =
      if (i : Int) = s.gCursor.row ∧ j < 80 then { c := 0x20, attr := s.gCursor.attr }
      else s.gScreen i j := by
  unfold doLineFeed
  simp only [MAX_ROW]
  rw [if_neg (by omega)]
  rw [fillRow_gScreen _ (by dsimp only; omega) (by dsimp only; omega)]
  dsimp only
  by_cases h : (i : Int) = s.gCursor.row ∧ j < 80
  · rw [if_pos h, if_pos ⟨by omega, h.2⟩]
  · rw [if_neg h, if_neg (fun hh => h ⟨by omega, hh.2⟩)]

/-- A line feed on the last row: every row moves up by one and the last
row is cleared. -/
theorem doLineFeed_gScreen_scroll (s : Screen) (h : s.gCursor.row = 25) (i j : Nat) :
    (doLineFeed s).gScreen i j =
      if j < 80 then
        (if i = 24 then { c := 0x20, attr := s.gCursor.attr }
         else if i < 24 then s.gScreen (i + 1) j else s.gScreen i j)
      else s.gScreen i j := by
  unfold doLineFeed
  simp only [MAX_ROW]
  rw [if_pos (by omega)]
  rw [fillRow_gScreen _ (by dsimp only; omega) (by dsimp only; omega)]
  dsimp only
  rw [copyRowUp_fold]
  by_cases hj : j < 80
  · rw [if_pos hj]
    by_cases hi : i = 24
    · rw [if_pos hi, if_pos ⟨by omega, hj⟩]
    · rw [if_neg hi, if_neg (fun hh => hi (by omega))]
      by_cases hi2 : i < 24
      · rw [if_pos hi2, if_pos ⟨hi2, hj⟩]
      · rw [if_neg hi2, if_neg (fun hh => hi2 hh.1)]
  · rw [if_neg hj, if_neg (fun hh => hj hh.2), if_neg (fun hh => hj hh.2)]

/-- The loop of `ScreenOutput` stops as soon as the byte is NUL or the
declared length is reached, whatever fuel is left. -/
theorem ScreenOutputLoop_stop (indexInit : Nat → Nat) (pStr : List Nat) (length : Nat)
    (fuel index : Nat) (s : Screen)
    (h : ¬ (pStr.getD index 0 ≠ 0 ∧ index < length)) :
    ScreenOutputLoop indexInit pStr length fuel index s = s := by
  cases fuel with
  | zero => rfl
  | succ fuel => rw [ScreenOutputLoop, if_neg h]

/-- One iteration of the loop of `ScreenOutput` on a line feed byte. -/
theorem ScreenOutputLoop_lf (indexInit : Nat → Nat) (pStr : List Nat) (length : Nat)
    (fuel index : Nat) (s : Screen) (hb : pStr.getD index 0 = 0x0A)
    (hl : index < length) :
    ScreenOutputLoop indexInit pStr length (fuel + 1) index s =
      ScreenOutputLoop indexInit pStr length fuel (index + 1) (doLineFeed s) := by
  rw [ScreenOutputLoop, if_pos ⟨by rw [hb]; decide, hl⟩]
  simp only [hb]
  rw [if_neg (by decide)]
  simp only [if_true]
  rw [if_neg (by rw [doLineFeed_gCursor]; simp [MAX_COLUMN])]

/-- A run of `k` line feed bytes is `k` calls of `doLineFeed`. -/
theorem ScreenOutputLoop_lf_run (indexInit : Nat → Nat) (pStr : List Nat)
    (length : Nat) :
    ∀ (k fuel index : Nat) (s : Screen),
      (∀ i, index ≤ i → i < index + k → pStr.getD i 0 = 0x0A) →
      index + k ≤ length → k ≤ fuel →
      ScreenOutputLoop indexInit pStr length fuel index s =
        ScreenOutputLoop indexInit pStr length (fuel - k) (index + k)
          (Nat.iterate doLineFeed k s)
  | 0, fuel, index, s, _, _, _ => rfl
  | k + 1, 0, index, s, _, _, hf => by omega
  | k + 1, fuel + 1, index, s, hb, hl, hf => by
    rw [ScreenOutputLoop_lf indexInit pStr length fuel index s
      (hb index (le_refl _) (by omega)) (by omega)]
    rw [ScreenOutputLoop_lf_run indexInit pStr length k fuel (index + 1) (doLineFeed s)
      (fun i h1 h2 => hb i (by omega) (by omega)) (by omega) (by omega)]
    have e1 : fuel + 1 - (k + 1) = fuel - k := by omega
    have e2 : index + 1 + k = index + (k + 1) := by omega
    rw [e1, e2]
    rfl

/-- Line feeds from row 1: after `n <= 24` of them the cursor is on row
`1 + n` and the rows `2 .. 1 + n` are blank. -/
theorem doLineFeed_iterate_rows (s : Screen) (hrow : s.gCursor.row = 1) :
    ∀ n : Nat, n ≤ 24 →
      (Nat.iterate doLineFeed n s).gCursor.row = 1 + (n : Int) ∧
      (Nat.iterate doLineFeed n s).gCursor.attr = s.gCursor.attr ∧
      ∀ i j : Nat, 1 ≤ i → i ≤ n → j < 80 →
        (Nat.iterate doLineFeed n s).gScreen i j = { c := 0x20, attr := s.gCursor.attr }
  | 0, _ => ⟨by simpa using hrow, rfl, fun i j h1 h2 _ => by omega⟩
  | n + 1, hn => by
    obtain ⟨ih1, ih2, ih3⟩ := doLineFeed_iterate_rows s hrow n (by omega)
    rw [Function.iterate_succ_apply']
    refine ⟨?_, ?_, ?_⟩
    · rw [doLineFeed_gCursor]
      dsimp only
      rw [ih1, if_neg (by omega)]
      omega
    · rw [doLineFeed_gCursor]
      exact ih2
    · intro i j h1 h2 hj
      rw [doLineFeed_gScreen_noscroll _ (by omega) (by omega), ih1, ih2]
      by_cases hi : i = n + 1
      · rw [if_pos ⟨by omega, hj⟩]
      · rw [if_neg (fun h => hi (by have := h.1; omega))]
        exact ih3 i j h1 (by omega) hj

/-- A line feed on row 25 when the rows 2..25 are blank leaves the whole
grid blank. -/
theorem doLineFeed_last_row_blank (t : Screen) (a : Nat) (h1 : t.gCursor.row = 25)
    (h2 : t.gCursor.attr = a)
    (h3 : ∀ i j : Nat, 1 ≤ i → i ≤ 24 → j < 80 → t.gScreen i j = { c := 0x20, attr := a }) :
    (doLineFeed t).gCursor.row = 25 ∧ (doLineFeed t).gCursor.column = 1 ∧
    (doLineFeed t).gCursor.attr = a ∧
    ∀ i j : Nat, i < 25 → j < 80 → (doLineFeed t).gScreen i j = { c := 0x20, attr := a } := by
  refine ⟨?_, ?_, ?_, ?_⟩
  · rw [doLineFeed_gCursor]; dsimp only; rw [h1, if_pos (by decide)]
  · rw [doLineFeed_gCursor]
  · rw [doLineFeed_gCursor]; dsimp only; exact h2
  · intro i j hi hj
    rw [doLineFeed_gScreen_scroll _ h1, if_pos hj, h2]
    by_cases h24 : i = 24
    · rw [if_pos h24]
    · rw [if_neg h24, if_pos (by omega)]
      exact h3 (i + 1) j (by omega) (by omega) hj

/-- From row 1, 26 line feeds leave the whole grid blank with the cursor
at (25, 1): every line feed clears the row it moves onto, so the rows that
scroll up on the 25th are blank already. -/
theorem doLineFeed_iterate_26 (s : Screen) (hrow : s.gCursor.row = 1) :
    (Nat.iterate doLineFeed 26 s).gCursor.row = 25 ∧
    (Nat.iterate doLineFeed 26 s).gCursor.column = 1 ∧
    (Nat.iterate doLineFeed 26 s).gCursor.attr = s.gCursor.attr ∧
    ∀ i j : Nat, i < 25 → j < 80 →
      (Nat.iterate doLineFeed 26 s).gScreen i j = { c := 0x20, attr := s.gCursor.attr } := by
  obtain ⟨a1, a2, a3⟩ := doLineFeed_iterate_rows s hrow 24 (le_refl _)
  have e : Nat.iterate doLineFeed 26 s =
      doLineFeed (doLineFeed (Nat.iterate doLineFeed 24 s)) := by
    rw [Function.iterate_succ_apply', Function.iterate_succ_apply']
  rw [e]
  generalize Nat.iterate doLineFeed 24 s = t at a1 a2 a3
  obtain ⟨b1, _, b3, b4⟩ := doLineFeed_last_row_blank t s.gCursor.attr
    (by rw [a1]; norm_num) a2 a3
  exact doLineFeed_last_row_blank (doLineFeed t) s.gCursor.attr b1 b3
    (fun i j _ hi hj => b4 i j (by omega) hj)

/-- `ScreenOutput` on 26 line feed bytes is 26 calls of `doLineFeed`. -/
theorem ScreenOutput_lineFeeds26 (indexInit : Nat → Nat) (length : Nat) (s : Screen)
    (hL : 26 ≤ length) :
    ScreenOutput indexInit length (List.replicate 26 0x0A) s =
      Nat.iterate doLineFeed 26 s := by
  unfold ScreenOutput
  rw [List.length_replicate]
  rw [ScreenOutputLoop_lf_run indexInit _ length 26 26 0 s
    (fun i _ h2 => by
      rw [List.getD_eq_getElem?_getD, List.getElem?_replicate, if_pos (by omega)]
      rfl)
    (by omega) (le_refl _)]
  rfl

/-- C11, counterexample: with every cell holding `X` and the cursor at
(1, 1), after 26 line feeds the second row (array row 1) holds a blank, not
the `X` that the third row (array row 2) held. -/
theorem C11_counterexample :
    (ScreenOutput (fun _ => 0) 26 (List.replicate 26 0x0A)
      (exampleScreen 0x58 1 1)).gScreen 1 0 = { c := 0x20, attr := 0x0F } ∧
    (exampleScreen 0x58 1 1).gScreen 2 0 = { c := 0x58, attr := 0x07 } ∧
    (ScreenOutput (fun _ => 0) 26 (List.replicate 26 0x0A)
      (exampleScreen 0x58 1 1)).gScreen 1 0 ≠ (exampleScreen 0x58 1 1).gScreen 2 0 := by
  have h : (ScreenOutput (fun _ => 0) 26 (List.replicate 26 0x0A)
      (exampleScreen 0x58 1 1)).gScreen 1 0 = { c := 0x20, attr := 0x0F } := by
    rw [ScreenOutput_lineFeeds26 _ _ _ (le_refl _)]
    exact (doLineFeed_iterate_26 (exampleScreen 0x58 1 1) rfl).2.2.2 1 0 (by decide)
      (by decide)
  refine ⟨h, rfl, ?_⟩
  rw [h]
  decide

/-- C11, amended: for every initial grid content, with the cursor starting
on row 1, after `ScreenOutput` has processed 26 consecutive line feed bytes
every row 1..25 is entirely blank (space with the current attribute) and the
cursor is at (25, 1); so row 1's original content is gone and row 25 is
blank, but the rows 2..24 are blank too and do not hold what the rows 3..25
held: each line feed clears the row it moves onto. -/
theorem C11_line_feeds_blank_grid (indexInit : Nat → Nat) (length : Nat) (s : Screen)
    (hrow : s.gCursor.row = 1) (hL : 26 ≤ length) :
    (∀ i j : Nat, i < 25 → j < 80 →
      (ScreenOutput indexInit length (List.replicate 26 0x0A) s).gScreen i j =
        { c := 0x20, attr := s.gCursor.attr }) ∧
    (ScreenOutput indexInit length (List.replicate 26 0x0A) s).gCursor.row = 25 ∧
    (ScreenOutput indexInit length (List.replicate 26 0x0A) s).gCursor.column = 1 := by
  rw [ScreenOutput_lineFeeds26 indexInit length s hL]
  obtain ⟨h1, h2, _, h4⟩ := doLineFeed_iterate_26 s hrow
  exact ⟨h4, h1, h2⟩

/-- C11, amended, witness: every cell holding `X`, the cursor at (1, 1). -/
theorem C11_line_feeds_blank_grid_witness :
    (∀ i j : Nat, i < 25 → j < 80 →
      (ScreenOutput (fun _ => 0) 26 (List.replicate 26 0x0A)
        (exampleScreen 0x58 1 1)).gScreen i j =
        { c := 0x20, attr := (exampleScreen 0x58 1 1).gCursor.attr }) ∧
    (ScreenOutput (fun _ => 0) 26 (List.replicate 26 0x0A)
      (exampleScreen 0x58 1 1)).gCursor.row = 25 ∧
    (ScreenOutput (fun _ => 0) 26 (List.replicate 26 0x0A)
      (exampleScreen 0x58 1 1)).gCursor.column = 1 :=
  C11_line_feeds_blank_grid (fun _ => 0) 26 (exampleScreen 0x58 1 1) rfl (le_refl _)

/-! ## Screen.c: the byte loop -/

theorem getD_drop_zero (l : List Nat) (n : Nat) :
    (l.drop n).getD 0 0 = l.getD n 0 := by
  rw [List.getD_eq_getElem?_getD, List.getD_eq_getElem?_getD, List.getElem?_drop]
  rfl

theorem length_gt_of_getD_ne_zero (l : List Nat) (n : Nat) (h : l.getD n 0 ≠ 0) :
    n < l.length := by
  by_contra hc
  apply h
  rw [List.getD_eq_getElem?_getD, List.getElem?_eq_none (by omega)]
  rfl

/-- `ProcEscape` on a text that does not start with `[` returns 0 and
leaves the state. -/
theorem ProcEscape_not_csi (index0 : Nat) (pStr : List Nat) (s : Screen)
    (h : pStr.getD 0 0 ≠ 0x5B) : ProcEscape index0 pStr s = (0, s) := by
  unfold ProcEscape
  rw [if_pos h]

/-- One iteration of the loop of `ScreenOutput` on a byte that enters no
control sequence. -/
theorem ScreenOutputLoop_step_plain (indexInit : Nat → Nat) (pStr : List Nat)
    (length fuel index : Nat) (s : Screen) (hc : pStr.getD index 0 ≠ 0)
    (hl : index < length)
    (hesc : pStr.getD index 0 = 0x1B → pStr.getD (index + 1) 0 ≠ 0x5B) :
    ScreenOutputLoop indexInit pStr length (fuel + 1) index s =
      ScreenOutputLoop indexInit pStr length fuel (index + 1)
        (ScreenOutputByte (pStr.getD index 0) s) := by
  rw [ScreenOutputLoop, if_pos ⟨hc, hl⟩]
  unfold ScreenOutputByte
  by_cases h1 : pStr.getD index 0 = 0x1B
  · have hp := ProcEscape_not_csi (indexInit index) (pStr.drop (index + 1)) s
      (by rw [getD_drop_zero]; exact hesc h1)
    simp only [h1, if_true, hp, Nat.add_zero]
  · by_cases h2 : pStr.getD index 0 = 0x0A
    · have h3 : ¬ ((10 : Nat) = 27) := by decide
      simp only [h2, h3, if_false, if_true]
    · simp only [h1, h2, if_false]

/-- Two buffers that agree up to the point where the loop of `ScreenOutput`
stops, with no control sequence entered before that point, give the same
state. -/
theorem ScreenOutputLoop_agree (indexInit : Nat → Nat) (b1 b2 : List Nat) (L k : Nat)
    (hk : k ≤ L)
    (hagree : ∀ i, i < k → b1.getD i 0 = b2.getD i 0)
    (hnz : ∀ i, i < k → b1.getD i 0 ≠ 0)
    (hend : k = L ∨ (b1.getD k 0 = 0 ∧ b2.getD k 0 = 0))
    (hesc : ∀ i, i < k → b1.getD i 0 = 0x1B → i + 1 < k ∧ b1.getD (i + 1) 0 ≠ 0x5B) :
    ∀ (d f1 f2 index : Nat) (s : Screen), index + d = k →
      b1.length ≤ f1 + index → b2.length ≤ f2 + index →
      ScreenOutputLoop indexInit b1 L f1 index s =
        ScreenOutputLoop indexInit b2 L f2 index s
  | 0, f1, f2, index, s, hd, _, _ => by
    have hik : index = k := by omega
    subst hik
    rw [ScreenOutputLoop_stop indexInit b1 L f1 index s (by
        rcases hend with h | h
        · exact fun hh => by omega
        · exact fun hh => hh.1 h.1),
      ScreenOutputLoop_stop indexInit b2 L f2 index s (by
        rcases hend with h | h
        · exact fun hh => by omega
        · exact fun hh => hh.1 h.2)]
  | d + 1, f1, f2, index, s, hd, h1, h2 => by
    have hik : index < k := by omega
    have hb := hagree index hik
    have hn1 := hnz index hik
    have hn2 : b2.getD index 0 ≠ 0 := by rw [← hb]; exact hn1
    have l1 := length_gt_of_getD_ne_zero b1 index hn1
    have l2 := length_gt_of_getD_ne_zero b2 index hn2
    obtain ⟨g1, rfl⟩ : ∃ g, f1 = g + 1 := ⟨f1 - 1, by omega⟩
    obtain ⟨g2, rfl⟩ : ∃ g, f2 = g + 1 := ⟨f2 - 1, by omega⟩
    rw [ScreenOutputLoop_step_plain indexInit b1 L g1 index s hn1 (by omega)
        (fun he => (hesc index hik he).2),
      ScreenOutputLoop_step_plain indexInit b2 L g2 index s hn2 (by omega)
        (fun he => by
          have he1 : b1.getD index 0 = 0x1B := by rw [hb]; exact he
          obtain ⟨q1, q2⟩ := hesc index hik he1
          rw [← hagree (index + 1) q1]
          exact q2),
      ← hb]
    exact ScreenOutputLoop_agree indexInit b1 b2 L k hk hagree hnz hend hesc d g1 g2
      (index + 1) _ (by omega) (by omega) (by omega)

/-- C13, counterexample: declared length 2 and two buffers `ESC [ H` and
`ESC [ Q` that agree on their first 2 bytes. With the indeterminate index of
`ProcEscape` starting at 1, the byte at buffer index 2 is the one the function
search examines: for `H` CUP runs and the cursor goes from (5, 5) to (1, 1),
for `Q` nothing runs and the cursor stays. -/
theorem C13_counterexample :
    (∀ i, i < 2 → [0x1B, 0x5B, 0x48].getD i 0 = [0x1B, 0x5B, 0x51].getD i 0) ∧
    (∀ i, i < 3 → [0x1B, 0x5B, 0x48].getD i 0 ≠ 0 ∧ [0x1B, 0x5B, 0x51].getD i 0 ≠ 0) ∧
    (ScreenOutput (fun _ => 1) 2 [0x1B, 0x5B, 0x48] (exampleScreen 0x20 5 5)).gCursor.row
      = 1 ∧
    (ScreenOutput (fun _ => 1) 2 [0x1B, 0x5B, 0x51] (exampleScreen 0x20 5 5)).gCursor.row
      = 5 := by
  refine ⟨by decide, by decide, ?_, ?_⟩
  · simp [ScreenOutput, ScreenOutputLoop, ProcEscape_bracket, ProcEscapeSearch, gEscCsiTbl,
      ProcEscapeCsiCup, OptimizeCursor, toInt32, MAX_ROW, MAX_COLUMN, exampleScreen]
  · simp [ScreenOutput, ScreenOutputLoop, ProcEscape_bracket, ProcEscapeSearch, gEscCsiTbl,
      MAX_COLUMN, exampleScreen]

/-- C13, amended: truncation rule of `ScreenOutput` away from control
sequences. For every starting state, declared length `L` and two buffers that
agree on their first `k` bytes, where `k` is the smaller of `L` and the index
of the first NUL byte (of both), if every ESC among the first `k` bytes is
followed, before index `k`, by a byte other than `[`, then `ScreenOutput`
produces the same state for both buffers. -/
theorem C13_truncation_rule (indexInit : Nat → Nat) (b1 b2 : List Nat) (L k : Nat)
    (s : Screen) (hk : k ≤ L)
    (hagree : ∀ i, i < k → b1.getD i 0 = b2.getD i 0)
    (hnz : ∀ i, i < k → b1.getD i 0 ≠ 0)
    (hend : k = L ∨ (b1.getD k 0 = 0 ∧ b2.getD k 0 = 0))
    (hesc : ∀ i, i < k → b1.getD i 0 = 0x1B → i + 1 < k ∧ b1.getD (i + 1) 0 ≠ 0x5B) :
    ScreenOutput indexInit L b1 s = ScreenOutput indexInit L b2 s := by
  unfold ScreenOutput
  exact ScreenOutputLoop_agree indexInit b1 b2 L k hk hagree hnz hend hesc k _ _ 0 s
    (by omega) (by omega) (by omega)

/-- C13, amended, witness: declared length 3 and two buffers that agree on
`A ESC B` and differ afterwards. -/
theorem C13_truncation_rule_witness :
    ScreenOutput (fun _ => 1) 3 [0x41, 0x1B, 0x42, 0x43] (exampleScreen 0x20 5 5) =
      ScreenOutput (fun _ => 1) 3 [0x41, 0x1B, 0x42, 0x58, 0x59] (exampleScreen 0x20 5 5) :=
  C13_truncation_rule (fun _ => 1) [0x41, 0x1B, 0x42, 0x43] [0x41, 0x1B, 0x42, 0x58, 0x59]
    3 3 (exampleScreen 0x20 5 5) (le_refl _) (by decide) (by decide) (Or.inl rfl)
    (by decide)

/-- The function search of `ProcEscape` on a byte that is no function code
returns 1 and leaves the state. -/
theorem ProcEscapeSearch_no_match (code n m index : Nat) (s : Screen) :
    ∀ tbl : List (Nat × (Nat → Nat → Screen → Screen)),
      code ∉ tbl.map (fun e => e.1) → ProcEscapeSearch code n m index s tbl = (1, s)
  | [], _ => rfl
  | e :: rest, h => by
    rw [List.map_cons, List.mem_cons, not_or] at h
    unfold ProcEscapeSearch
    rw [if_neg (fun he => h.1 he.symm)]
    exact ProcEscapeSearch_no_match code n m index s rest h.2

/-- Dropping two leading bytes of the buffer: the loop of `ScreenOutput`
from index `index + 2` of the longer buffer does what it does from `index`
of the shorter one. -/
theorem ScreenOutputLoop_shift_two (indexInit : Nat → Nat) (a b : Nat) (rest : List Nat)
    (L : Nat) :
    ∀ (fuel index : Nat) (s : Screen),
      ScreenOutputLoop indexInit (a :: b :: rest) (L + 2) fuel (index + 2) s =
        ScreenOutputLoop (fun i => indexInit (i + 2)) rest L fuel index s
  | 0, _, _ => rfl
  | fuel + 1, index, s => by
    have hg : (a :: b :: rest).getD (index + 2) 0 = rest.getD index 0 := rfl
    have hd : (a :: b :: rest).drop (index + 2 + 1) = rest.drop (index + 1) := rfl
    rw [ScreenOutputLoop, ScreenOutputLoop, hg, hd]
    by_cases hc : rest.getD index 0 ≠ 0 ∧ index < L
    · rw [if_pos hc, if_pos ⟨hc.1, by omega⟩]
      by_cases h1 : rest.getD index 0 = 0x1B
      · simp only [h1, if_true]
        have e : index + 2 + 1 +
            (ProcEscape (indexInit (index + 2)) (List.drop (index + 1) rest) s).1 =
            index + 1 +
            (ProcEscape (indexInit (index + 2)) (List.drop (index + 1) rest) s).1 + 2 := by
          omega
        rw [e]
        exact ScreenOutputLoop_shift_two indexInit a b rest L fuel _ _
      · by_cases h2 : rest.getD index 0 = 0x0A
        · have h3 : ¬ ((10 : Nat) = 27) := by decide
          simp only [h2, h3, if_false, if_true]
          exact ScreenOutputLoop_shift_two indexInit a b rest L fuel (index + 1) _
        · simp only [h1, h2, if_false]
          exact ScreenOutputLoop_shift_two indexInit a b rest L fuel (index + 1) _
    · rw [if_neg hc, if_neg (fun h => hc ⟨h.1, by omega⟩)]

/-- `ESC [` with no function found: `ScreenOutput` consumes the two bytes,
changes nothing and goes on with the byte after `[`. -/
theorem ScreenOutput_csi_no_match (indexInit : Nat → Nat) (L : Nat) (rest : List Nat)
    (s : Screen) (hcol : s.gCursor.column ≤ 80)
    (hcode : (0x5B :: rest).getD (indexInit 0) 0 ∉ gEscCsiTbl.map (fun e => e.1)) :
    ScreenOutput indexInit (L + 2) (0x1B :: 0x5B :: rest) s =
      ScreenOutput (fun i => indexInit (i + 2)) L rest s := by
  unfold ScreenOutput
  have hp : ProcEscape (indexInit 0) (0x5B :: rest) s = (1, s) := by
    rw [ProcEscape_bracket]
    exact ProcEscapeSearch_no_match _ 0 0 _ s gEscCsiTbl hcode
  have hlen : (0x1B :: 0x5B :: rest).length = rest.length + 1 + 1 := rfl
  have hg : (0x1B :: 0x5B :: rest).getD 0 0 = 0x1B := rfl
  rw [hlen, ScreenOutputLoop, if_pos ⟨by rw [hg]; decide, by omega⟩]
  have hd : (0x1B :: 0x5B :: rest).drop (0 + 1) = 0x5B :: rest := rfl
  simp only [hg, hd, if_true, hp]
  rw [if_neg (by simp only [MAX_COLUMN]; omega)]
  rw [ScreenOutputLoop_shift_two indexInit 0x1B 0x5B rest L (rest.length + 1) 0 s]
  exact ScreenOutputLoop_fuel_succ _ rest L rest.length 0 s (by omega)

/-- `ProcEscape` on the text `[5q`: no byte of it is a function code, so
whatever the indeterminate index is, the search finds nothing. -/
theorem ProcEscape_unknown_text (k : Nat) (s : Screen) :
    ProcEscape k [0x5B, 0x35, 0x71] s = (1, s) := by
  rw [ProcEscape_bracket]
  apply ProcEscapeSearch_no_match
  rcases k with _ | _ | _ | k
  · decide
  · decide
  · decide
  · have h0 : [0x5B, 0x35, 0x71].getD (k + 1 + 1 + 1) 0 = 0 := by
      simp [List.getD]
    rw [h0]
    decide

/-- `ScreenOutput` on `ESC [ 5 q` from a blank grid with the cursor at
(1, 1): whatever the indeterminate index of `ProcEscape` is, the bytes `5` and
`q` are written to the first two cells. -/
theorem ScreenOutput_unknown_text (indexInit : Nat → Nat) :
    (ScreenOutput indexInit 4 [0x1B, 0x5B, 0x35, 0x71] (exampleScreen 0x20 1 1)).gScreen
      0 0 = { c := 0x35, attr := 0x0F } ∧
    (ScreenOutput indexInit 4 [0x1B, 0x5B, 0x35, 0x71] (exampleScreen 0x20 1 1)).gScreen
      0 1 = { c := 0x71, attr := 0x0F } := by
  have h : ScreenOutput indexInit 4 [0x1B, 0x5B, 0x35, 0x71] (exampleScreen 0x20 1 1) =
      ScreenOutputLoop indexInit [0x1B, 0x5B, 0x35, 0x71] 4 3 2 (exampleScreen 0x20 1 1) := by
    unfold ScreenOutput
    simp only [List.length_cons, List.length_nil]
    rw [ScreenOutputLoop]
    simp only [List.drop, List.getD, ProcEscape_unknown_text]
    rfl
  rw [h]
  refine ⟨?_, ?_⟩
  · simp [ScreenOutputLoop, WriteScreen_gCursor, exampleScreen, MAX_COLUMN, WriteScreen]
  · simp [ScreenOutputLoop, WriteScreen_gCursor, exampleScreen, MAX_COLUMN, WriteScreen]

/-- C15, counterexample: `ScreenOutput` on `ESC [ 5 q`, whose terminator `q`
is no function code, from a blank grid with the cursor at (1, 1), with the
index of `ProcEscape` starting at 2 so that the search examines `q`: the bytes
`5` and `q` are written to the grid, so the sequence is not skipped as a
whole. -/
theorem C15_counterexample :
    (ScreenOutput (fun _ => 2) 4 [0x1B, 0x5B, 0x35, 0x71] (exampleScreen 0x20 1 1)).gScreen
      0 0 = { c := 0x35, attr := 0x0F } ∧
    (ScreenOutput (fun _ => 2) 4 [0x1B, 0x5B, 0x35, 0x71] (exampleScreen 0x20 1 1)).gScreen
      0 1 = { c := 0x71, attr := 0x0F } ∧
    (ScreenOutput (fun _ => 2) 4 [0x1B, 0x5B, 0x35, 0x71] (exampleScreen 0x20 1 1)).gScreen
      0 0 ≠ (exampleScreen 0x20 1 1).gScreen 0 0 := by
  obtain ⟨h1, h2⟩ := ScreenOutput_unknown_text (fun _ => 2)
  refine ⟨h1, h2, ?_⟩
  rw [h1]
  decide

/-- C15, amended: for every buffer that starts with `ESC [` (followed by
parameter bytes, a terminator that is no function code, and any further
bytes), when the byte that the function search of `ProcEscape` examines is
none of the twelve function codes, `ScreenOutput` consumes only the two bytes
`ESC [` without changing any cell, cursor coordinate or attribute, and
processes everything after `[` (parameter bytes and terminator included, as
ordinary bytes) exactly as if the buffer had started there. -/
theorem C15_unknown_terminator (indexInit : Nat → Nat) (L : Nat) (rest : List Nat)
    (s : Screen) (hcol : s.gCursor.column ≤ 80)
    (hcode : (0x5B :: rest).getD (indexInit 0) 0 ∉ gEscCsiTbl.map (fun e => e.1)) :
    ScreenOutput indexInit (L + 2) (0x1B :: 0x5B :: rest) s =
      ScreenOutput (fun i => indexInit (i + 2)) L rest s :=
  ScreenOutput_csi_no_match indexInit L rest s hcol hcode

/-- C15, amended, witness: the buffer `ESC [ 5 q X`. -/
theorem C15_unknown_terminator_witness :
    ScreenOutput (fun _ => 2) (3 + 2) (0x1B :: 0x5B :: [0x35, 0x71, 0x58])
        (exampleScreen 0x20 1 1) =
      ScreenOutput (fun i => (fun _ => 2) (i + 2)) 3 [0x35, 0x71, 0x58]
        (exampleScreen 0x20 1 1) :=
  C15_unknown_terminator (fun _ => 2) 3 [0x35, 0x71, 0x58] (exampleScreen 0x20 1 1)
    (by decide) (by decide)

/-! ## Screen.c: erase in display -/

set_option maxRecDepth 1000000 in
/-- C16, the code at the failing input: with every cell holding `X` and the
cursor at (2, 1), the erase-in-display handler with `n = 1` blanks not only
the cells up to the cursor (row 1 and the first cell of row 2) but the first
56 cells of row 2: the array cells (1, 1) and (1, 55), which lie after the
cursor, hold a blank afterwards; the array cell (1, 56) is the first left as
it was. -/
theorem C16_code_at_failing_input :
    (exampleScreen 0x58 2 1).gScreen 1 1 = { c := 0x58, attr := 0x07 } ∧
    (ProcEscapeCsiEd 1 0 (exampleScreen 0x58 2 1)).gScreen 1 0 =
      { c := 0x20, attr := 0x0F } ∧
    (ProcEscapeCsiEd 1 0 (exampleScreen 0x58 2 1)).gScreen 1 1 =
      { c := 0x20, attr := 0x0F } ∧
    (ProcEscapeCsiEd 1 0 (exampleScreen 0x58 2 1)).gScreen 1 55 =
      { c := 0x20, attr := 0x0F } ∧
    (ProcEscapeCsiEd 1 0 (exampleScreen 0x58 2 1)).gScreen 1 56 =
      { c := 0x58, attr := 0x07 } := by
  refine ⟨rfl, ?_, ?_, ?_, ?_⟩ <;> decide

/-! ## Keyboard.c: table lookup -/

/-- The loop of `Convert` gives the same result on every reordering of a
table without duplicate scancodes. -/
theorem ConvertLoop_perm (x scan : Nat) (t1 t2 : List ConvEntry_t)
    (hnd : (t1.map (fun r => r.scan)).Nodup) (hp : t2.Perm t1) :
    ConvertLoop x scan t2 = ConvertLoop x scan t1 := by
  have hnd2 : (t2.map (fun r => r.scan)).Nodup :=
    (List.Perm.nodup_iff (List.Perm.map _ hp)).2 hnd
  by_cases h : scan ∈ t1.map (fun r => r.scan)
  · obtain ⟨e, he, rfl⟩ := List.mem_map.1 h
    rw [ConvertLoop_mem x e t1 hnd he, ConvertLoop_mem x e t2 hnd2 (hp.mem_iff.2 he)]
  · have h2 : scan ∉ t2.map (fun r => r.scan) :=
      fun hh => h ((List.Perm.map _ hp).mem_iff.1 hh)
    rw [ConvertLoop_miss x scan t1 h, ConvertLoop_miss x scan t2 h2]

/-- C21: no two entries of `gConvTbl` have the same scancode; an entry is
the only one with its scancode, the first-hit search of `Convert` finds it,
and the result of the search is the same on every reordering of the table. -/
theorem C21_no_duplicate_scancodes :
    (gConvTbl.map (fun r => r.scan)).Nodup ∧
    (∀ e ∈ gConvTbl, ∀ e' ∈ gConvTbl, e'.scan = e.scan → e' = e) ∧
    (∀ e ∈ gConvTbl, ∀ x : Nat,
      Convert x e.scan = SendCode x (specSelectedText e x) e.alt) ∧
    (∀ (tbl : List ConvEntry_t) (x scan : Nat), tbl.Perm gConvTbl →
      ConvertLoop x scan tbl = Convert x scan) := by
  refine ⟨gConvTbl_scan_nodup, ?_, ?_, ?_⟩
  · intro e he e' he' hs
    exact List.inj_on_of_nodup_map gConvTbl_scan_nodup he' he hs
  · intro e he x
    exact ConvertLoop_mem x e gConvTbl gConvTbl_scan_nodup he
  · intro tbl x scan hp
    exact ConvertLoop_perm x scan gConvTbl tbl gConvTbl_scan_nodup hp

/-- C21, witness: the table reversed, searched for the `a` key. -/
theorem C21_no_duplicate_scancodes_witness :
    ConvertLoop 0 0x1E0000 gConvTbl.reverse = Convert 0 0x1E0000 :=
  C21_no_duplicate_scancodes.2.2.2 gConvTbl.reverse 0 0x1E0000 (List.reverse_perm _)

/-! ## Keyboard.c: left and right modifier keys -/

theorem SendCode_congr (x y : Nat) (pCode : Option (List Nat)) (alt : Bool)
    (ha : x &&& MODIFIER_MASK_ALT ≠ 0 ↔ y &&& MODIFIER_MASK_ALT ≠ 0) :
    SendCode x pCode alt = SendCode y pCode alt := by
  cases pCode with
  | none => rfl
  | some code =>
    have hiff : (alt ≠ false ∧ x &&& MODIFIER_MASK_ALT ≠ 0) =
        (alt ≠ false ∧ y &&& MODIFIER_MASK_ALT ≠ 0) :=
      propext (and_congr_right (fun _ => ha))
    simp only [SendCode, hiff]

theorem ConvertLoop_congr (x y scan : Nat)
    (hc : x &&& MODIFIER_MASK_CTRL ≠ 0 ↔ y &&& MODIFIER_MASK_CTRL ≠ 0)
    (hs : x &&& MODIFIER_MASK_SHIFT ≠ 0 ↔ y &&& MODIFIER_MASK_SHIFT ≠ 0)
    (ha : x &&& MODIFIER_MASK_ALT ≠ 0 ↔ y &&& MODIFIER_MASK_ALT ≠ 0) :
    ∀ tbl : List ConvEntry_t, ConvertLoop x scan tbl = ConvertLoop y scan tbl
  | [] => rfl
  | e :: rest => by
    unfold ConvertLoop
    by_cases h : e.scan ≠ scan
    · rw [if_pos h, if_pos h]
      exact ConvertLoop_congr x y scan hc hs ha rest
    · rw [if_neg h, if_neg h]
      by_cases h1 : x &&& MODIFIER_MASK_CTRL ≠ 0
      · rw [if_pos h1, if_pos (hc.1 h1)]
        exact SendCode_congr x y _ _ ha
      · rw [if_neg h1, if_neg (fun hh => h1 (hc.2 hh))]
        by_cases h2 : x &&& MODIFIER_MASK_SHIFT ≠ 0
        · rw [if_pos h2, if_pos (hs.1 h2)]
          exact SendCode_congr x y _ _ ha
        · rw [if_neg h2, if_neg (fun hh => h2 (hs.2 hh))]
          exact SendCode_congr x y _ _ ha

/-- Whether `ProcModifierKey` handles a scancode does not depend on the
modifier state, and an unhandled scancode leaves the state. -/
theorem ProcModifierKeyLoop_fst (x y scan : Nat) :
    ∀ tbl : List ModifierRuleEntry_t,
      (ProcModifierKeyLoop x scan tbl).1 = (ProcModifierKeyLoop y scan tbl).1 ∧
      ((ProcModifierKeyLoop x scan tbl).1 = false → (ProcModifierKeyLoop x scan tbl).2 = x)
  | [] => ⟨rfl, fun _ => rfl⟩
  | e :: rest => by
    unfold ProcModifierKeyLoop
    by_cases h : e.scan ≠ scan
    · rw [if_pos h, if_pos h]
      exact ProcModifierKeyLoop_fst x y scan rest
    · rw [if_neg h, if_neg h]
      by_cases h1 : e.state = false
      · rw [if_pos h1, if_pos h1]
        exact ⟨rfl, fun hh => by simp at hh⟩
      · rw [if_neg h1, if_neg h1]
        exact ⟨rfl, fun hh => by simp at hh⟩

/-- C28: for every scancode and every two modifier states that agree on the
three predicates "some Ctrl bit set" (bit 2 or 3), "some Shift bit set" (bit 4
or 5) and "some Alt bit set" (bit 0 or 1), `KeyboardInput` sends the same
message (same bytes and declared length) or none in both. -/
theorem C28_left_right_equivalent (scan x y : Nat)
    (hc : (x.testBit 2 = true ∨ x.testBit 3 = true) ↔
      (y.testBit 2 = true ∨ y.testBit 3 = true))
    (hs : (x.testBit 4 = true ∨ x.testBit 5 = true) ↔
      (y.testBit 4 = true ∨ y.testBit 5 = true))
    (ha : (x.testBit 0 = true ∨ x.testBit 1 = true) ↔
      (y.testBit 0 = true ∨ y.testBit 1 = true)) :
    (KeyboardInput x scan).2 = (KeyboardInput y scan).2 := by
  have hc' : x &&& MODIFIER_MASK_CTRL ≠ 0 ↔ y &&& MODIFIER_MASK_CTRL ≠ 0 := by
    rw [mask_ctrl_iff, mask_ctrl_iff]; exact hc
  have hs' : x &&& MODIFIER_MASK_SHIFT ≠ 0 ↔ y &&& MODIFIER_MASK_SHIFT ≠ 0 := by
    rw [mask_shift_iff, mask_shift_iff]; exact hs
  have ha' : x &&& MODIFIER_MASK_ALT ≠ 0 ↔ y &&& MODIFIER_MASK_ALT ≠ 0 := by
    rw [mask_alt_iff, mask_alt_iff]; exact ha
  obtain ⟨e1, e2⟩ := ProcModifierKeyLoop_fst x y scan gModifierRuleTbl
  obtain ⟨_, e3⟩ := ProcModifierKeyLoop_fst y x scan gModifierRuleTbl
  unfold KeyboardInput ProcModifierKey
  dsimp only
  by_cases h : (ProcModifierKeyLoop x scan gModifierRuleTbl).1 = false
  · have h' : (ProcModifierKeyLoop y scan gModifierRuleTbl).1 = false := by rw [← e1]; exact h
    rw [if_neg (by simp [h]), if_neg (by simp [h']), e2 h, e3 h']
    exact ConvertLoop_congr x y scan hc' hs' ha' gConvTbl
  · have h' : ¬ (ProcModifierKeyLoop y scan gModifierRuleTbl).1 = false := by rw [← e1]; exact h
    rw [if_pos h, if_pos h']

/-- C28, witness: the `a` key with left Ctrl and left Alt against right Ctrl
and right Alt. -/
theorem C28_left_right_equivalent_witness :
    (KeyboardInput 0x05 0x1E0000).2 = (KeyboardInput 0x0A 0x1E0000).2 :=
  C28_left_right_equivalent 0x1E0000 0x05 0x0A (by decide) (by decide) (by decide)

/-! ## Screen.c: cursor movement -/

/-- Which functions `gEscCsiTbl` holds for the terminators of the cursor
movements. -/
theorem gEscCsiTbl_cursor_functions :
    ∀ e ∈ gEscCsiTbl,
      (e.1 = 0x41 → e.2 = ProcEscapeCsiCuu) ∧ (e.1 = 0x42 → e.2 = ProcEscapeCsiCud) ∧
      (e.1 = 0x43 → e.2 = ProcEscapeCsiCuf) ∧ (e.1 = 0x44 → e.2 = ProcEscapeCsiCub) ∧
      (e.1 = 0x45 → e.2 = ProcEscapeCsiCnl) ∧ (e.1 = 0x46 → e.2 = ProcEscapeCsiCpl) ∧
      (e.1 = 0x47 → e.2 = ProcEscapeCsiCha) ∧
      (e.1 = 0x48 ∨ e.1 = 0x66 → e.2 = ProcEscapeCsiCup) := by
  intro e he
  simp only [gEscCsiTbl, List.mem_cons, List.mem_singleton, List.not_mem_nil,
    or_false] at he
  rcases he with rfl | rfl | rfl | rfl | rfl | rfl | rfl | rfl | rfl | rfl | rfl | rfl <;>
    simp

/-- C24, counterexample: with `n = m = 4294967295`, 32-bit parameters larger
than the grid, the casts `( int32_t ) n` and `( int32_t ) m` are `-1` and the
CUP handler puts the cursor on row 1 and column 1, not on the last row and
column `min(max(n, 1), 25)`, `min(max(m, 1), 80)`; so does CHA for the
column. -/
theorem C24_counterexample :
    (4294967295 : Nat) < 2 ^ 32 ∧
    (ProcEscapeCsiCup 4294967295 4294967295 (exampleScreen 0x20 5 7)).gCursor.row = 1 ∧
    (ProcEscapeCsiCup 4294967295 4294967295 (exampleScreen 0x20 5 7)).gCursor.column = 1 ∧
    (ProcEscapeCsiCha 4294967295 0 (exampleScreen 0x20 5 7)).gCursor.column = 1 ∧
    min (max ((4294967295 : Nat) : Int) 1) 25 = 25 ∧
    min (max ((4294967295 : Nat) : Int) 1) 80 = 80 := by
  decide

/-- The conversion to `int32_t` keeps a value below `2 ^ 31`. -/
theorem toInt32_natCast (n : Nat) (hn : (n : Int) < 2147483648) : toInt32 (n : Int) = n := by
  unfold toInt32
  omega

/-- C24, amended: for every pair of parameters `n`, `m` below `2 ^ 31` (so
that the conversion to `int32_t` keeps their values), the CUP handler, to
which both `H` and `f` dispatch, leaves `row = min(max(n, 1), 25)` and
`column = min(max(m, 1), 80)`, and the CHA handler (`G`) leaves
`column = min(max(n, 1), 80)` with the row unchanged when the row is inside
the grid; a parameter larger than the grid lands on the last row or column. -/
theorem C24_cup_cha (s : Screen) (n m : Nat) (hn : n < 2 ^ 31) (hm : m < 2 ^ 31) :
    (∀ e ∈ gEscCsiTbl, e.1 = 0x48 ∨ e.1 = 0x66 →
      (e.2 n m s).gCursor.row = min (max (n : Int) 1) 25 ∧
      (e.2 n m s).gCursor.column = min (max (m : Int) 1) 80) ∧
    (∀ e ∈ gEscCsiTbl, e.1 = 0x47 →
      (e.2 n m s).gCursor.column = min (max (n : Int) 1) 80 ∧
      (1 ≤ s.gCursor.row → s.gCursor.row ≤ 25 →
        (e.2 n m s).gCursor.row = s.gCursor.row)) := by
  have hn' : (n : Int) < 2147483648 := by
    have : n < 2147483648 := by simpa using hn
    exact_mod_cast this
  have hm' : (m : Int) < 2147483648 := by
    have : m < 2147483648 := by simpa using hm
    exact_mod_cast this
  clear hn hm
  constructor
  · intro e he hcode
    rw [(gEscCsiTbl_cursor_functions e he).2.2.2.2.2.2.2 hcode]
    clear he hcode
    unfold ProcEscapeCsiCup OptimizeCursor
    rw [toInt32_natCast n hn', toInt32_natCast m hm']
    simp only [MAX_ROW, MAX_COLUMN]
    constructor
    · split_ifs <;> omega
    · split_ifs <;> omega
  · intro e he hcode
    rw [(gEscCsiTbl_cursor_functions e he).2.2.2.2.2.2.1 hcode]
    clear he hcode
    unfold ProcEscapeCsiCha OptimizeCursor
    rw [toInt32_natCast n hn']
    simp only [MAX_ROW, MAX_COLUMN]
    constructor
    · split_ifs <;> omega
    · intro h1 h2
      split_ifs <;> omega

/-- C24, amended, witness: `ESC [ 30 ; 100 H` as CUP with (30, 100). -/
theorem C24_cup_cha_witness :
    (ProcEscapeCsiCup 30 100 (exampleScreen 0x20 5 7)).gCursor.row = 25 ∧
    (ProcEscapeCsiCup 30 100 (exampleScreen 0x20 5 7)).gCursor.column = 80 := by
  have h := (C24_cup_cha (exampleScreen 0x20 5 7) 30 100 (by norm_num) (by norm_num)).1
    (0x48, ProcEscapeCsiCup) (by simp [gEscCsiTbl]) (Or.inl rfl)
  simpa using h

/-- C25: for every cursor `(r, c)` inside the grid and every `n` such that
`r + n` and `c + n` fit in a signed 32-bit integer: `A` gives row
`max(r - n, 1)`, `B` row `min(r + n, 25)`, `C` column `min(c + n, 80)`, `D`
column `max(c - n, 1)`, each leaving the other coordinate unchanged; `E` gives
`(min(r + n, 25), 1)` and `F` gives `(max(r - n, 1), 1)`; with `n = 0` the
handlers A, B, C and D leave the cursor exactly where it was. -/
theorem C25_relative_moves (s : Screen) (n m : Nat) (hs : cursorInBounds s)
    (hr : s.gCursor.row + (n : Int) ≤ 2147483647)
    (hc : s.gCursor.column + (n : Int) ≤ 2147483647) :
    ((ProcEscapeCsiCuu n m s).gCursor.row = max (s.gCursor.row - n) 1 ∧
      (ProcEscapeCsiCuu n m s).gCursor.column = s.gCursor.column) ∧
    ((ProcEscapeCsiCud n m s).gCursor.row = min (s.gCursor.row + n) 25 ∧
      (ProcEscapeCsiCud n m s).gCursor.column = s.gCursor.column) ∧
    ((ProcEscapeCsiCuf n m s).gCursor.column = min (s.gCursor.column + n) 80 ∧
      (ProcEscapeCsiCuf n m s).gCursor.row = s.gCursor.row) ∧
    ((ProcEscapeCsiCub n m s).gCursor.column = max (s.gCursor.column - n) 1 ∧
      (ProcEscapeCsiCub n m s).gCursor.row = s.gCursor.row) ∧
    ((ProcEscapeCsiCnl n m s).gCursor.row = min (s.gCursor.row + n) 25 ∧
      (ProcEscapeCsiCnl n m s).gCursor.column = 1) ∧
    ((ProcEscapeCsiCpl n m s).gCursor.row = max (s.gCursor.row - n) 1 ∧
      (ProcEscapeCsiCpl n m s).gCursor.column = 1) ∧
    (n = 0 → (ProcEscapeCsiCuu n m s).gCursor = s.gCursor ∧
      (ProcEscapeCsiCud n m s).gCursor = s.gCursor ∧
      (ProcEscapeCsiCuf n m s).gCursor = s.gCursor ∧
      (ProcEscapeCsiCub n m s).gCursor = s.gCursor) := by
  obtain ⟨h1, h2, h3, h4⟩ := hs
  have hn0 : (0 : Int) ≤ (n : Int) := Int.natCast_nonneg n
  refine ⟨⟨?_, ?_⟩, ⟨?_, ?_⟩, ⟨?_, ?_⟩, ⟨?_, ?_⟩, ⟨?_, ?_⟩, ⟨?_, ?_⟩, ?_⟩
  · unfold ProcEscapeCsiCuu OptimizeCursor toInt32; simp only [MAX_ROW, MAX_COLUMN]
    split_ifs <;> omega
  · unfold ProcEscapeCsiCuu OptimizeCursor toInt32; simp only [MAX_ROW, MAX_COLUMN]
    split_ifs <;> omega
  · unfold ProcEscapeCsiCud OptimizeCursor toInt32; simp only [MAX_ROW, MAX_COLUMN]
    split_ifs <;> omega
  · unfold ProcEscapeCsiCud OptimizeCursor toInt32; simp only [MAX_ROW, MAX_COLUMN]
    split_ifs <;> omega
  · unfold ProcEscapeCsiCuf OptimizeCursor toInt32; simp only [MAX_ROW, MAX_COLUMN]
    split_ifs <;> omega
  · unfold ProcEscapeCsiCuf OptimizeCursor toInt32; simp only [MAX_ROW, MAX_COLUMN]
    split_ifs <;> omega
  · unfold ProcEscapeCsiCub OptimizeCursor toInt32; simp only [MAX_ROW, MAX_COLUMN]
    split_ifs <;> omega
  · unfold ProcEscapeCsiCub OptimizeCursor toInt32; simp only [MAX_ROW, MAX_COLUMN]
    split_ifs <;> omega
  · unfold ProcEscapeCsiCnl OptimizeCursor toInt32; simp only [MAX_ROW, MAX_COLUMN]
    split_ifs <;> omega
  · unfold ProcEscapeCsiCnl OptimizeCursor toInt32; simp only [MAX_ROW, MAX_COLUMN]
    split_ifs <;> omega
  · unfold ProcEscapeCsiCpl OptimizeCursor toInt32; simp only [MAX_ROW, MAX_COLUMN]
    split_ifs <;> omega
  · unfold ProcEscapeCsiCpl OptimizeCursor toInt32; simp only [MAX_ROW, MAX_COLUMN]
    split_ifs <;> omega
  · intro h0
    subst h0
    have e : ∀ t : cursorInfo_t, ∀ r c : Int, r = t.row → c = t.column →
        ({ row := r, column := c, attr := t.attr } : cursorInfo_t) = t := by
      intro t r c hr hc
      subst hr hc
      rfl
    refine ⟨?_, ?_, ?_, ?_⟩
    · unfold ProcEscapeCsiCuu OptimizeCursor toInt32; simp only [MAX_ROW, MAX_COLUMN]
      apply e <;> split_ifs <;> omega
    · unfold ProcEscapeCsiCud OptimizeCursor toInt32; simp only [MAX_ROW, MAX_COLUMN]
      apply e <;> split_ifs <;> omega
    · unfold ProcEscapeCsiCuf OptimizeCursor toInt32; simp only [MAX_ROW, MAX_COLUMN]
      apply e <;> split_ifs <;> omega
    · unfold ProcEscapeCsiCub OptimizeCursor toInt32; simp only [MAX_ROW, MAX_COLUMN]
      apply e <;> split_ifs <;> omega

/-- C25, witness: the cursor at (5, 7) and `n = 3`. -/
theorem C25_relative_moves_witness :
    (ProcEscapeCsiCud 3 0 (exampleScreen 0x20 5 7)).gCursor.row = 8 ∧
    (ProcEscapeCsiCud 3 0 (exampleScreen 0x20 5 7)).gCursor.column = 7 := by
  have h := (C25_relative_moves (exampleScreen 0x20 5 7) 3 0 (by decide) (by decide)
    (by decide)).2.1
  simpa [exampleScreen] using h

/-! ## Screen.c: foreground colours -/

set_option maxRecDepth 1000000 in
/-- The foreground cases of the SGR switch on an 8-bit attribute: colour in
bits 0-2, bright bit 3 set, bits 4-7 kept. -/
theorem ProcEscapeCsiSgrAttr_foreground :
    ∀ a, a < 256 →
      ∀ p ∈ [(30, VGA_TEXT_ATTR_FG_BLACK), (31, VGA_TEXT_ATTR_FG_RED),
             (32, VGA_TEXT_ATTR_FG_GREEN), (33, VGA_TEXT_ATTR_FG_BROWN),
             (34, VGA_TEXT_ATTR_FG_BLUE), (35, VGA_TEXT_ATTR_FG_PURPLE),
             (36, VGA_TEXT_ATTR_FG_CYAN), (37, VGA_TEXT_ATTR_FG_WHITE),
             (39, VGA_TEXT_ATTR_FG_WHITE)],
        ProcEscapeCsiSgrAttr p.1 a % 8 = p.2 ∧
        ProcEscapeCsiSgrAttr p.1 a / 8 % 2 = 1 ∧
        ProcEscapeCsiSgrAttr p.1 a / 16 = a / 16 := by
  decide

/-- A parameter outside the cases of the SGR switch stores nothing. -/
theorem ProcEscapeCsiSgrAttr_default (n a : Nat)
    (h : n ∉ [0, 7, 30, 31, 32, 33, 34, 35, 36, 37, 39, 40, 41, 42, 43, 44, 45, 46, 47, 49]) :
    ProcEscapeCsiSgrAttr n a = a := by
  simp only [List.mem_cons, List.mem_singleton, List.not_mem_nil, or_false, not_or] at h
  obtain ⟨h0, h7, h30, h31, h32, h33, h34, h35, h36, h37, h39, h40, h41, h42, h43, h44,
    h45, h46, h47, h49⟩ := h
  unfold ProcEscapeCsiSgrAttr
  rw [if_neg h0, if_neg h7, if_neg h30, if_neg h31, if_neg h32, if_neg h33, if_neg h34,
    if_neg h35, if_neg h36, if_neg (not_or.2 ⟨h37, h39⟩), if_neg (not_or.2 ⟨h40, h49⟩),
    if_neg h41, if_neg h42, if_neg h43, if_neg h44, if_neg h45, if_neg h46, if_neg h47]

/-- C27: for every 8-bit starting attribute, the SGR handler with `n` in
30..37 or 39 sets the foreground (bits 0-2) to the named colour with the
bright bit (bit 3) set, 37 and 39 both giving bright white, and leaves the
background and blink bits (bits 4-7) unchanged; with any `n` outside
{0, 7, 30..37, 39, 40..47, 49} it leaves the attribute unchanged; and for
every `n` it changes neither a grid cell nor the cursor row or column. -/
theorem C27_sgr_foreground_and_frame (s : Screen) (m : Nat) :
    (s.gCursor.attr < 256 →
      ∀ p ∈ [(30, VGA_TEXT_ATTR_FG_BLACK), (31, VGA_TEXT_ATTR_FG_RED),
             (32, VGA_TEXT_ATTR_FG_GREEN), (33, VGA_TEXT_ATTR_FG_BROWN),
             (34, VGA_TEXT_ATTR_FG_BLUE), (35, VGA_TEXT_ATTR_FG_PURPLE),
             (36, VGA_TEXT_ATTR_FG_CYAN), (37, VGA_TEXT_ATTR_FG_WHITE),
             (39, VGA_TEXT_ATTR_FG_WHITE)],
        (ProcEscapeCsiSgr p.1 m s).gCursor.attr % 8 = p.2 ∧
        (ProcEscapeCsiSgr p.1 m s).gCursor.attr / 8 % 2 = 1 ∧
        (ProcEscapeCsiSgr p.1 m s).gCursor.attr / 16 = s.gCursor.attr / 16) ∧
    (∀ n : Nat,
      n ∉ [0, 7, 30, 31, 32, 33, 34, 35, 36, 37, 39, 40, 41, 42, 43, 44, 45, 46, 47, 49] →
      (ProcEscapeCsiSgr n m s).gCursor.attr = s.gCursor.attr) ∧
    (∀ n : Nat, (ProcEscapeCsiSgr n m s).gScreen = s.gScreen ∧
      (ProcEscapeCsiSgr n m s).gCursor.row = s.gCursor.row ∧
      (ProcEscapeCsiSgr n m s).gCursor.column = s.gCursor.column) := by
  refine ⟨fun ha p hp => ?_, fun n hn => ?_, fun n => ⟨rfl, rfl, rfl⟩⟩
  · exact ProcEscapeCsiSgrAttr_foreground s.gCursor.attr ha p hp
  · exact ProcEscapeCsiSgrAttr_default n s.gCursor.attr hn

/-- C27, witness: SGR 31 (red) from the attribute 0x0F gives 0x0C, bright
red on black. -/
theorem C27_sgr_foreground_and_frame_witness :
    (ProcEscapeCsiSgr 31 0 (exampleScreen 0x20 1 1)).gCursor.attr % 8 =
      VGA_TEXT_ATTR_FG_RED ∧
    (ProcEscapeCsiSgr 31 0 (exampleScreen 0x20 1 1)).gCursor.attr / 8 % 2 = 1 ∧
    (ProcEscapeCsiSgr 31 0 (exampleScreen 0x20 1 1)).gCursor.attr / 16 =
      (exampleScreen 0x20 1 1).gCursor.attr / 16 :=
  (C27_sgr_foreground_and_frame (exampleScreen 0x20 1 1) 0).1 (by decide)
    (31, VGA_TEXT_ATTR_FG_RED) (by simp)

/-- What a call of `WriteScreen` does for a column in 1..80 of any row from
1 on: on the rows up to 25 it stores in the cell, on the rows behind it stores
outside the array. -/
theorem WriteScreen_spec (row column : Int) (c attr : Nat) (s : Screen) (i j : Nat)
    (hr : 1 ≤ row) (hc1 : 1 ≤ column) (hc2 : column ≤ 80) :
    (WriteScreen row column c attr s).gScreen i j =
      (if (1 ≤ row ∧ row ≤ 25 ∧ 1 ≤ column ∧ column ≤ 80) ∧
          (i : Int) = row - 1 ∧ (j : Int) = column - 1
       then { c := c, attr := attr } else s.gScreen i j) ∧
    (WriteScreen row column c attr s).overrun =
      (if 1 ≤ row ∧ row ≤ 25 ∧ 1 ≤ column ∧ column ≤ 80 then s.overrun else true) := by
  by_cases h : 1 ≤ row ∧ row ≤ 25 ∧ 1 ≤ column ∧ column ≤ 80
  · obtain ⟨h1, h2⟩ := WriteScreen_inside row column c attr s h i j
    rw [h1, h2, if_pos h]
    refine ⟨?_, rfl⟩
    by_cases hc : (i : Int) = row - 1 ∧ (j : Int) = column - 1
    · rw [if_pos hc, if_pos ⟨h, hc⟩]
    · rw [if_neg hc, if_neg (fun hh => hc hh.2)]
  · have hout : ¬ (0 ≤ (row - 1) * 80 + (column - 1) ∧ (row - 1) * 80 + (column - 1) < 2000) :=
      fun hh => h ⟨hr, by omega, hc1, hc2⟩
    unfold WriteScreen
    rw [if_neg hout, if_neg h, if_neg (fun hh => h hh.1)]
    exact ⟨rfl, rfl⟩

/-- The loop of `ProcEscapeCsiEd` with the end position 2000, started at a
position from which the exit test `( row - 1 ) * 25 + column <= 2000` lets it
run. The test fails first at row 78, column 76: the loop ends after the write
at (78, 75), within the fuel; on its way it blanks every cell of the grid at
or after its starting position, and its last write lies outside the array. -/
theorem ProcEscapeCsiEdLoop_full :
    ∀ (fuel : Nat) (row column : Int) (s : Screen),
      1 ≤ row → row ≤ 78 → 1 ≤ column → column ≤ 80 → (row = 78 → column ≤ 75) →
      80 * (78 - row) + 76 - column ≤ (fuel : Int) →
      ∃ s', ProcEscapeCsiEdLoop fuel row column 2000 s = some s' ∧ s'.overrun = true ∧
        ∀ i j : Nat, s'.gScreen i j =
          if i < 25 ∧ j < 80 ∧
            (row < (i : Int) + 1 ∨ (row = (i : Int) + 1 ∧ column ≤ (j : Int) + 1))
          then { c := 0x20, attr := s.gCursor.attr } else s.gScreen i j
  | 0, row, column, s, h1, h2, h3, h4, h5, hf => by omega
  | fuel + 1, row, column, s, h1, h2, h3, h4, h5, hf => by
    unfold ProcEscapeCsiEdLoop
    simp only [MAX_ROW]
    by_cases hc : column + 1 > 80
    · simp only [if_pos hc]
      rw [if_pos (by omega)]
      obtain ⟨s', e1, e2, e3⟩ := ProcEscapeCsiEdLoop_full fuel (row + 1) 1
        (WriteScreen row column 0x20 s.gCursor.attr s) (by omega) (by omega) (by omega)
        (by omega) (by omega) (by push_cast at hf ⊢; omega)
      refine ⟨s', e1, e2, fun i j => ?_⟩
      rw [e3 i j, WriteScreen_gCursor,
        (WriteScreen_spec row column 0x20 s.gCursor.attr s i j h1 h3 h4).1]
      split_ifs <;> first | rfl | (exfalso; omega)
    · simp only [if_neg hc]
      by_cases ht : (row - 1) * 25 + (column + 1) ≤ 2000
      · rw [if_pos ht]
        obtain ⟨s', e1, e2, e3⟩ := ProcEscapeCsiEdLoop_full fuel row (column + 1)
          (WriteScreen row column 0x20 s.gCursor.attr s) h1 h2 (by omega) (by omega)
          (by omega) (by push_cast at hf ⊢; omega)
        refine ⟨s', e1, e2, fun i j => ?_⟩
        rw [e3 i j, WriteScreen_gCursor,
          (WriteScreen_spec row column 0x20 s.gCursor.attr s i j h1 h3 h4).1]
        split_ifs <;> first | rfl | (exfalso; omega)
      · rw [if_neg ht]
        refine ⟨_, rfl, ?_, fun i j => ?_⟩
        · rw [(WriteScreen_spec row column 0x20 s.gCursor.attr s 0 0 h1 h3 h4).2,
            if_neg (by omega)]
        · rw [(WriteScreen_spec row column 0x20 s.gCursor.attr s i j h1 h3 h4).1]
          split_ifs <;> first | rfl | (exfalso; omega)

/-- Erase-in-display with `n = 0` and `n = 2` from a cursor inside the
grid: the cells of the grid at or after the starting position are blanked,
the others are left, and the loop goes on past row 25, where its writes
address cells outside the array. -/
theorem ProcEscapeCsiEd_full (s : Screen) (m : Nat) (hs : cursorInBounds s) :
    ((ProcEscapeCsiEd 0 m s).overrun = true ∧
      ∀ i j : Nat, (ProcEscapeCsiEd 0 m s).gScreen i j =
        if i < 25 ∧ j < 80 ∧ (s.gCursor.row < (i : Int) + 1 ∨
          (s.gCursor.row = (i : Int) + 1 ∧ s.gCursor.column ≤ (j : Int) + 1))
        then { c := 0x20, attr := s.gCursor.attr } else s.gScreen i j) ∧
    ((ProcEscapeCsiEd 2 m s).overrun = true ∧
      ∀ i j : Nat, (ProcEscapeCsiEd 2 m s).gScreen i j =
        if i < 25 ∧ j < 80 then { c := 0x20, attr := s.gCursor.attr } else s.gScreen i j) := by
  obtain ⟨h1, h2, h3, h4⟩ := hs
  have hend : MAX_ROW * MAX_COLUMN = 2000 := by decide
  constructor
  · obtain ⟨s', e1, e2, e3⟩ := ProcEscapeCsiEdLoop_full ProcEscapeCsiEdFuel s.gCursor.row
      s.gCursor.column s h1 (by omega) h3 h4 (by omega)
      (by simp only [ProcEscapeCsiEdFuel]; push_cast; omega)
    have e : ProcEscapeCsiEd 0 m s = s' := by
      unfold ProcEscapeCsiEd
      rw [if_pos rfl, hend, e1]
      rfl
    rw [e]
    exact ⟨e2, e3⟩
  · obtain ⟨s', e1, e2, e3⟩ := ProcEscapeCsiEdLoop_full ProcEscapeCsiEdFuel 1 1 s
      (le_refl _) (by norm_num) (le_refl _) (by norm_num) (by norm_num)
      (by simp only [ProcEscapeCsiEdFuel]; norm_num)
    have e : ProcEscapeCsiEd 2 m s = s' := by
      unfold ProcEscapeCsiEd
      rw [if_neg (by decide), if_neg (by decide), if_pos rfl, hend, e1]
      rfl
    rw [e]
    refine ⟨e2, fun i j => ?_⟩
    rw [e3 i j]
    split_ifs <;> first | rfl | (exfalso; omega)

/-- C26, the code at the failing input: every cell holding `X`, the cursor
at (3, 7), inside the grid, and no store outside the array so far.
Erase-in-display with `n = 0` leaves the cell before the cursor and blanks the
cells from the cursor to the end of the array, but its loop does not stop
there: it stores outside the array `gScreen`, and so does the loop for `n = 2`.
The source declares `gCursor` right behind `gScreen`, so the cursor position
and the attribute are not kept by such a call. -/
theorem C26_code_at_failing_input :
    cursorInBounds (exampleScreen 0x58 3 7) ∧
    (exampleScreen 0x58 3 7).overrun = false ∧
    (ProcEscapeCsiEd 0 0 (exampleScreen 0x58 3 7)).gScreen 2 5 =
      { c := 0x58, attr := 0x07 } ∧
    (ProcEscapeCsiEd 0 0 (exampleScreen 0x58 3 7)).gScreen 2 6 =
      { c := 0x20, attr := 0x0F } ∧
    (ProcEscapeCsiEd 0 0 (exampleScreen 0x58 3 7)).gScreen 24 79 =
      { c := 0x20, attr := 0x0F } ∧
    (ProcEscapeCsiEd 0 0 (exampleScreen 0x58 3 7)).overrun = true ∧
    (ProcEscapeCsiEd 2 0 (exampleScreen 0x58 3 7)).overrun = true := by
  obtain ⟨⟨e0, c0⟩, ⟨e2, _⟩⟩ := ProcEscapeCsiEd_full (exampleScreen 0x58 3 7) 0 (by decide)
  refine ⟨by decide, rfl, ?_, ?_, ?_, e0, e2⟩
  · rw [c0 2 5]; decide
  · rw [c0 2 6]; decide
  · rw [c0 24 79]; decide

/-- C30, the code at the failing input: from a blank grid with the cursor
at (1, 1) and no write outside the array so far, the erase-in-display handler
with `n = 2` (and with `n = 0`) performs a write that addresses a cell outside
the 25 x 80 array: its loop runs on to row 78. -/
theorem C30_code_at_failing_input :
    cursorInBounds (exampleScreen 0x20 1 1) ∧
    (exampleScreen 0x20 1 1).overrun = false ∧
    (ProcEscapeCsiEd 2 0 (exampleScreen 0x20 1 1)).overrun = true ∧
    (ProcEscapeCsiEd 0 0 (exampleScreen 0x20 1 1)).overrun = true := by
  obtain ⟨⟨e0, _⟩, ⟨e2, _⟩⟩ := ProcEscapeCsiEd_full (exampleScreen 0x20 1 1) 0 (by decide)
  exact ⟨by decide, rfl, e2, e0⟩

/-! ## Screen.c: single bytes -/

/-- `ScreenOutput` on a buffer of one byte other than NUL is one iteration
of its loop. -/
theorem ScreenOutput_single (indexInit : Nat → Nat) (L b : Nat) (s : Screen)
    (hb : b ≠ 0) (hL : 1 ≤ L) :
    ScreenOutput indexInit L [b] s = ScreenOutputByte b s := by
  unfold ScreenOutput
  have hlen : [b].length = 0 + 1 := rfl
  have hnext : [b].getD (0 + 1) 0 ≠ 0x5B := by
    have e : [b].getD (0 + 1) 0 = 0 := rfl
    rw [e]
    decide
  rw [hlen, ScreenOutputLoop_step_plain indexInit [b] L 0 0 s hb (by omega)
    (fun _ => hnext)]
  rfl

/-- The effect of a byte other than ESC and line feed when the cursor is
left of the last column: the byte is written at the cursor and the column
advances. -/
theorem ScreenOutputByte_plain (b : Nat) (s : Screen) (hs : cursorInBounds s)
    (hb1 : b ≠ 0x1B) (hb2 : b ≠ 0x0A) (hc : s.gCursor.column < 80) :
    (ScreenOutputByte b s).gCursor =
      { row := s.gCursor.row, column := s.gCursor.column + 1, attr := s.gCursor.attr } ∧
    ∀ i j : Nat, (ScreenOutputByte b s).gScreen i j =
      if (i : Int) = s.gCursor.row - 1 ∧ (j : Int) = s.gCursor.column - 1
      then { c := b, attr := s.gCursor.attr } else s.gScreen i j := by
  unfold ScreenOutputByte
  simp only [if_neg hb1, if_neg hb2, WriteScreen_gCursor, MAX_COLUMN]
  rw [if_neg (by omega)]
  exact ⟨rfl, fun i j =>
    (WriteScreen_inside s.gCursor.row s.gCursor.column b s.gCursor.attr s hs i j).1⟩

/-- The effect of a byte other than ESC and line feed when the cursor is on
the last column: the byte is written at the cursor and a line feed follows. -/
theorem ScreenOutputByte_wrap (b : Nat) (s : Screen) (hb1 : b ≠ 0x1B) (hb2 : b ≠ 0x0A)
    (hc : s.gCursor.column = 80) :
    ScreenOutputByte b s =
      doLineFeed
        { gScreen := (WriteScreen s.gCursor.row s.gCursor.column b s.gCursor.attr s).gScreen
          gCursor := { row := s.gCursor.row, column := 81, attr := s.gCursor.attr }
          overrun := (WriteScreen s.gCursor.row s.gCursor.column b s.gCursor.attr s).overrun } := by
  unfold ScreenOutputByte
  simp only [if_neg hb1, if_neg hb2, WriteScreen_gCursor, MAX_COLUMN]
  rw [if_pos (by omega), hc]
  rfl

/-- C22: for every cursor `(r, c)` inside the grid, attribute `a` and byte
`b` other than NUL, ESC and line feed, `ScreenOutput` on the single byte `b`
stores `{b, a}` in the array cell `(r-1, c-1)`; if `c < 80` the cursor becomes
`(r, c+1)` and no other cell changes; if `c = 80` a line feed is forced: for
`r < 25` the cursor becomes `(r+1, 1)` and the byte stays in its cell, for
`r = 25` the grid scrolls, the byte ends in row 24, column 80 (array cell
(23, 79)) and the cursor is (25, 1). -/
theorem C22_printable_byte (indexInit : Nat → Nat) (L b : Nat) (s : Screen)
    (hs : cursorInBounds s) (hL : 1 ≤ L) (hb0 : b ≠ 0) (hb1 : b ≠ 0x1B) (hb2 : b ≠ 0x0A) :
    (s.gCursor.column < 80 →
      (ScreenOutput indexInit L [b] s).gCursor.row = s.gCursor.row ∧
      (ScreenOutput indexInit L [b] s).gCursor.column = s.gCursor.column + 1 ∧
      ∀ i j : Nat, (ScreenOutput indexInit L [b] s).gScreen i j =
        if (i : Int) = s.gCursor.row - 1 ∧ (j : Int) = s.gCursor.column - 1
        then { c := b, attr := s.gCursor.attr } else s.gScreen i j) ∧
    (s.gCursor.column = 80 → s.gCursor.row < 25 →
      (ScreenOutput indexInit L [b] s).gCursor.row = s.gCursor.row + 1 ∧
      (ScreenOutput indexInit L [b] s).gCursor.column = 1 ∧
      ∀ i : Nat, (i : Int) = s.gCursor.row - 1 →
        (ScreenOutput indexInit L [b] s).gScreen i 79 = { c := b, attr := s.gCursor.attr }) ∧
    (s.gCursor.column = 80 → s.gCursor.row = 25 →
      (ScreenOutput indexInit L [b] s).gCursor.row = 25 ∧
      (ScreenOutput indexInit L [b] s).gCursor.column = 1 ∧
      (ScreenOutput indexInit L [b] s).gScreen 23 79 = { c := b, attr := s.gCursor.attr } ∧
      (∀ i j : Nat, i < 24 → j < 80 → ¬ (i = 23 ∧ j = 79) →
        (ScreenOutput indexInit L [b] s).gScreen i j = s.gScreen (i + 1) j) ∧
      (∀ j : Nat, j < 80 →
        (ScreenOutput indexInit L [b] s).gScreen 24 j =
          { c := 0x20, attr := s.gCursor.attr })) := by
  rw [ScreenOutput_single indexInit L b s hb0 hL]
  have hw := fun i j =>
    (WriteScreen_inside s.gCursor.row s.gCursor.column b s.gCursor.attr s hs i j).1
  obtain ⟨h1, h2, h3, h4⟩ := hs
  refine ⟨fun hc => ?_, fun hc hr => ?_, fun hc hr => ?_⟩
  · obtain ⟨e1, e2⟩ := ScreenOutputByte_plain b s ⟨h1, h2, h3, h4⟩ hb1 hb2 hc
    rw [e1]
    exact ⟨rfl, rfl, e2⟩
  · rw [ScreenOutputByte_wrap b s hb1 hb2 hc, doLineFeed_gCursor]
    refine ⟨?_, rfl, fun i hi => ?_⟩
    · dsimp only
      rw [if_neg (by omega)]
    · rw [doLineFeed_gScreen_noscroll _ (by dsimp only; omega) (by dsimp only; omega)]
      dsimp only
      rw [if_neg (fun hh => by omega), hw i 79, if_pos ⟨hi, by omega⟩]
  · rw [ScreenOutputByte_wrap b s hb1 hb2 hc, doLineFeed_gCursor]
    refine ⟨?_, rfl, ?_, fun i j hi hj hne => ?_, fun j hj => ?_⟩
    · dsimp only
      rw [if_pos (by omega)]
    · rw [doLineFeed_gScreen_scroll _ (by dsimp only; omega)]
      dsimp only
      rw [if_pos (by decide), if_neg (by decide), if_pos (by decide), hw 24 79,
        if_pos ⟨by omega, by omega⟩]
    · rw [doLineFeed_gScreen_scroll _ (by dsimp only; omega)]
      dsimp only
      rw [if_pos hj, if_neg (by omega), if_pos hi, hw (i + 1) j,
        if_neg (fun hh => hne ⟨by omega, by omega⟩)]
    · rw [doLineFeed_gScreen_scroll _ (by dsimp only; omega)]
      dsimp only
      rw [if_pos hj, if_pos rfl]

/-- C22, witness: the byte `A` with the cursor at (25, 80). -/
theorem C22_printable_byte_witness :
    (ScreenOutput (fun _ => 0) 1 [0x41] (exampleScreen 0x58 25 80)).gCursor.row = 25 ∧
    (ScreenOutput (fun _ => 0) 1 [0x41] (exampleScreen 0x58 25 80)).gCursor.column = 1 ∧
    (ScreenOutput (fun _ => 0) 1 [0x41] (exampleScreen 0x58 25 80)).gScreen 23 79 =
      { c := 0x41, attr := (exampleScreen 0x58 25 80).gCursor.attr } :=
  have h := (C22_printable_byte (fun _ => 0) 1 0x41 (exampleScreen 0x58 25 80) (by decide)
    (le_refl _) (by decide) (by decide) (by decide)).2.2 rfl rfl
  ⟨h.1, h.2.1, h.2.2.1⟩

/-! ## Screen.c: line feed on the last row -/

/-- The effect of a line feed byte is one call of `doLineFeed`. -/
theorem ScreenOutputByte_lf (s : Screen) : ScreenOutputByte 0x0A s = doLineFeed s := by
  have h3 : ¬ ((10 : Nat) = 27) := by decide
  have hc : ¬ ((doLineFeed s).gCursor.column > 80) := by
    rw [doLineFeed_gCursor]
    show ¬ ((1 : Int) > 80)
    decide
  simp only [ScreenOutputByte, MAX_COLUMN, h3, if_false, if_true]
  rw [if_neg hc]

/-- C23: for every grid and attribute `a`, a line feed processed with the
cursor on row 25 scrolls by exactly one row: afterwards each row `i` in 1..24
holds exactly what row `i+1` held before (characters and attributes), row 25
consists of 80 cells `{space, a}`, and the cursor is at (25, 1). -/
theorem C23_line_feed_scroll (indexInit : Nat → Nat) (L : Nat) (s : Screen)
    (hrow : s.gCursor.row = 25) (hL : 1 ≤ L) :
    ScreenOutput indexInit L [0x0A] s = doLineFeed s ∧
    (∀ i j : Nat, i < 24 → j < 80 → (doLineFeed s).gScreen i j = s.gScreen (i + 1) j) ∧
    (∀ j : Nat, j < 80 → (doLineFeed s).gScreen 24 j = { c := 0x20, attr := s.gCursor.attr }) ∧
    (doLineFeed s).gCursor = { row := 25, column := 1, attr := s.gCursor.attr } := by
  refine ⟨?_, fun i j hi hj => ?_, fun j hj => ?_, ?_⟩
  · rw [ScreenOutput_single indexInit L 0x0A s (by decide) hL, ScreenOutputByte_lf]
  · rw [doLineFeed_gScreen_scroll s hrow, if_pos hj, if_neg (by omega), if_pos hi]
  · rw [doLineFeed_gScreen_scroll s hrow, if_pos hj, if_pos rfl]
  · rw [doLineFeed_gCursor, hrow, if_pos (by decide)]

/-- C23, witness: a grid of `X` with the cursor at (25, 3). -/
theorem C23_line_feed_scroll_witness :
    ScreenOutput (fun _ => 0) 1 [0x0A] (exampleScreen 0x58 25 3) =
      doLineFeed (exampleScreen 0x58 25 3) ∧
    (∀ i j : Nat, i < 24 → j < 80 →
      (doLineFeed (exampleScreen 0x58 25 3)).gScreen i j =
        (exampleScreen 0x58 25 3).gScreen (i + 1) j) ∧
    (∀ j : Nat, j < 80 → (doLineFeed (exampleScreen 0x58 25 3)).gScreen 24 j =
      { c := 0x20, attr := (exampleScreen 0x58 25 3).gCursor.attr }) ∧
    (doLineFeed (exampleScreen 0x58 25 3)).gCursor =
      { row := 25, column := 1, attr := (exampleScreen 0x58 25 3).gCursor.attr } :=
  C23_line_feed_scroll (fun _ => 0) 1 (exampleScreen 0x58 25 3) rfl (le_refl _)

/-! ## Screen.c: ESC without a bracket -/

/-- Dropping the leading byte of the buffer: the loop of `ScreenOutput`
from index `index + 1` of the longer buffer does what it does from `index`
of the shorter one. -/
theorem ScreenOutputLoop_shift_one (indexInit : Nat → Nat) (a : Nat) (rest : List Nat)
    (L : Nat) :
    ∀ (fuel index : Nat) (s : Screen),
      ScreenOutputLoop indexInit (a :: rest) (L + 1) fuel (index + 1) s =
        ScreenOutputLoop (fun i => indexInit (i + 1)) rest L fuel index s
  | 0, _, _ => rfl
  | fuel + 1, index, s => by
    have hg : (a :: rest).getD (index + 1) 0 = rest.getD index 0 := rfl
    have hd : (a :: rest).drop (index + 1 + 1) = rest.drop (index + 1) := rfl
    rw [ScreenOutputLoop, ScreenOutputLoop, hg, hd]
    by_cases hc : rest.getD index 0 ≠ 0 ∧ index < L
    · rw [if_pos hc, if_pos ⟨hc.1, by omega⟩]
      by_cases h1 : rest.getD index 0 = 0x1B
      · simp only [h1, if_true]
        have e : index + 1 + 1 +
            (ProcEscape (indexInit (index + 1)) (List.drop (index + 1) rest) s).1 =
            index + 1 +
            (ProcEscape (indexInit (index + 1)) (List.drop (index + 1) rest) s).1 + 1 := by
          omega
        rw [e]
        exact ScreenOutputLoop_shift_one indexInit a rest L fuel _ _
      · by_cases h2 : rest.getD index 0 = 0x0A
        · have h3 : ¬ ((10 : Nat) = 27) := by decide
          simp only [h2, h3, if_false, if_true]
          exact ScreenOutputLoop_shift_one indexInit a rest L fuel (index + 1) _
        · simp only [h1, h2, if_false]
          exact ScreenOutputLoop_shift_one indexInit a rest L fuel (index + 1) _
    · rw [if_neg hc, if_neg (fun h => hc ⟨h.1, by omega⟩)]

/-- An ESC byte that is not followed by `[` has no effect on a state whose
cursor column is inside the grid. -/
theorem ScreenOutputByte_esc (s : Screen) (hcol : s.gCursor.column ≤ 80) :
    ScreenOutputByte 0x1B s = s := by
  have hc : ¬ (s.gCursor.column > 80) := by omega
  simp only [ScreenOutputByte, MAX_COLUMN, if_true]
  rw [if_neg hc]

/-- C29: for every state (cursor column inside the grid) and every byte `b`
other than `[`, when `ScreenOutput` meets ESC followed by `b`, `ProcEscape`
returns 0 and leaves the state: exactly one byte (the ESC) is consumed without
changing any cell, cursor coordinate or attribute, and `b` and the bytes after
it are processed exactly as if the buffer had started at `b`; so `ESC b` has
the effect of the ordinary byte `b`, which is written to the grid at the cursor
if it is not NUL, ESC or line feed. -/
theorem C29_esc_without_bracket (indexInit : Nat → Nat) (L b : Nat) (rest : List Nat)
    (s : Screen) (hb : b ≠ 0x5B) (hcol : s.gCursor.column ≤ 80) :
    (∀ index0 : Nat, ProcEscape index0 (b :: rest) s = (0, s)) ∧
    ScreenOutput indexInit (L + 1) (0x1B :: b :: rest) s =
      ScreenOutput (fun i => indexInit (i + 1)) L (b :: rest) s ∧
    (b ≠ 0 → ScreenOutput indexInit (1 + 1) [0x1B, b] s = ScreenOutputByte b s) ∧
    (cursorInBounds s → s.gCursor.column < 80 → b ≠ 0 → b ≠ 0x1B → b ≠ 0x0A →
      ∀ i j : Nat, (i : Int) = s.gCursor.row - 1 → (j : Int) = s.gCursor.column - 1 →
        (ScreenOutput indexInit (1 + 1) [0x1B, b] s).gScreen i j =
          { c := b, attr := s.gCursor.attr }) := by
  have main : ∀ (L' : Nat) (rest' : List Nat),
      ScreenOutput indexInit (L' + 1) (0x1B :: b :: rest') s =
        ScreenOutput (fun i => indexInit (i + 1)) L' (b :: rest') s := by
    intro L' rest'
    unfold ScreenOutput
    have hlen : (0x1B :: b :: rest').length = (b :: rest').length + 1 := rfl
    have hg : (0x1B :: b :: rest').getD 0 0 = 0x1B := rfl
    rw [hlen, ScreenOutputLoop_step_plain indexInit (0x1B :: b :: rest') (L' + 1) _ 0 s
      (by rw [hg]; decide) (by omega) (fun _ => hb), hg, ScreenOutputByte_esc s hcol]
    exact ScreenOutputLoop_shift_one indexInit 0x1B (b :: rest') L' _ 0 s
  refine ⟨fun index0 => ProcEscape_not_csi index0 (b :: rest) s hb, main L rest, ?_, ?_⟩
  · intro hb0
    rw [main 1 [], ScreenOutput_single _ 1 b s hb0 (le_refl _)]
  intro hs hc hb0 hb1 hb2 i j hi hj
  rw [main 1 [], ScreenOutput_single _ 1 b s hb0 (le_refl _),
    (ScreenOutputByte_plain b s hs hb1 hb2 hc).2 i j, if_pos ⟨hi, hj⟩]

/-- C29, witness: `ESC A` with the cursor at (5, 5) writes `A` at the
cursor, array cell (4, 4). -/
theorem C29_esc_without_bracket_witness :
    (ScreenOutput (fun _ => 0) (1 + 1) [0x1B, 0x41] (exampleScreen 0x20 5 5)).gScreen 4 4 =
      { c := 0x41, attr := 0x0F } :=
  (C29_esc_without_bracket (fun _ => 0) 1 0x41 [] (exampleScreen 0x20 5 5)
    (by decide) (by decide)).2.2.2 (by decide) (by decide) (by decide) (by decide)
    (by decide) 4 4 (by decide) (by decide)

/-! ## Screen.c: line feed above the last row -/

/-- C31: for every grid, attribute `a` and cursor on a row `r` with
`1 <= r < 25`, a line feed (the call `doLineFeed`, which is what
`ScreenOutput` does on the byte 0x0A) moves the cursor to `(r+1, 1)` and
overwrites all 80 cells of row `r+1` (array row `r`) with `{space, a}`
although no scroll happens; every cell of every other row is unchanged, and so
is the attribute. -/
theorem C31_line_feed_clears_next_row (indexInit : Nat → Nat) (L : Nat) (s : Screen)
    (h1 : 1 ≤ s.gCursor.row) (h2 : s.gCursor.row < 25) (hL : 1 ≤ L) :
    ScreenOutput indexInit L [0x0A] s = doLineFeed s ∧
    (doLineFeed s).gCursor =
      { row := s.gCursor.row + 1, column := 1, attr := s.gCursor.attr } ∧
    (∀ i j : Nat, (i : Int) = s.gCursor.row → j < 80 →
      (doLineFeed s).gScreen i j = { c := 0x20, attr := s.gCursor.attr }) ∧
    (∀ i j : Nat, (i : Int) ≠ s.gCursor.row → (doLineFeed s).gScreen i j = s.gScreen i j) := by
  refine ⟨?_, ?_, fun i j hi hj => ?_, fun i j hi => ?_⟩
  · rw [ScreenOutput_single indexInit L 0x0A s (by decide) hL, ScreenOutputByte_lf]
  · rw [doLineFeed_gCursor, if_neg (by omega)]
  · rw [doLineFeed_gScreen_noscroll s h1 h2, if_pos ⟨hi, hj⟩]
  · rw [doLineFeed_gScreen_noscroll s h1 h2, if_neg (fun h => hi h.1)]

/-- C31, witness: every cell holding `X` with attribute 0x07, the cursor at
(3, 7) with attribute 0x0F: the line feed blanks cell (4, 1), array cell
(3, 0), and leaves the cell (3, 1) above it. -/
theorem C31_line_feed_clears_next_row_witness :
    (doLineFeed (exampleScreen 0x58 3 7)).gCursor = { row := 4, column := 1, attr := 0x0F } ∧
    (doLineFeed (exampleScreen 0x58 3 7)).gScreen 3 0 = { c := 0x20, attr := 0x0F } ∧
    (doLineFeed (exampleScreen 0x58 3 7)).gScreen 2 0 = { c := 0x58, attr := 0x07 } :=
  have h := C31_line_feed_clears_next_row (fun _ => 0) 1 (exampleScreen 0x58 3 7)
    (by decide) (by decide) (le_refl _)
  ⟨h.2.1, h.2.2.1 3 0 (by decide) (by decide), h.2.2.2 2 0 (by decide)⟩

/-! ## Screen.c: termination of the byte loop -/

/-- The loop of `ScreenOutput` in terms of `ScreenOutputStep`. -/
theorem ScreenOutputLoop_succ_step (indexInit : Nat → Nat) (pStr : List Nat)
    (length fuel index : Nat) (s : Screen) :
    ScreenOutputLoop indexInit pStr length (fuel + 1) index s =
      if pStr.getD index 0 ≠ 0 ∧ index < length then
        ScreenOutputLoop indexInit pStr length fuel
          (ScreenOutputStep indexInit pStr index s).1
          (ScreenOutputStep indexInit pStr index s).2
      else s := by
  rw [ScreenOutputLoop]
  rfl

/-- No function code of `gEscCsiTbl` is NUL. -/
theorem gEscCsiTbl_code_ne_zero : ∀ e ∈ gEscCsiTbl, e.1 ≠ 0 := by
  intro e he
  simp only [gEscCsiTbl, List.mem_cons, List.mem_singleton, List.not_mem_nil,
    or_false] at he
  rcases he with rfl | rfl | rfl | rfl | rfl | rfl | rfl | rfl | rfl | rfl | rfl | rfl <;>
    decide

/-- The function search of `ProcEscape` returns 1, or `index + 1` when the
byte is the code of an entry. -/
theorem ProcEscapeSearch_fst (code n m index : Nat) (s : Screen) :
    ∀ tbl : List (Nat × (Nat → Nat → Screen → Screen)),
      (ProcEscapeSearch code n m index s tbl).1 = 1 ∨
      ((ProcEscapeSearch code n m index s tbl).1 = index + 1 ∧ ∃ e ∈ tbl, e.1 = code)
  | [] => Or.inl rfl
  | e :: rest => by
    rw [ProcEscapeSearch]
    by_cases h : e.1 = code
    · rw [if_pos h]
      exact Or.inr ⟨rfl, e, List.mem_cons_self _ _, h⟩
    · rw [if_neg h]
      rcases ProcEscapeSearch_fst code n m index s rest with h1 | ⟨h1, e', he', hc⟩
      · exact Or.inl h1
      · exact Or.inr ⟨h1, e', List.mem_cons_of_mem _ he', hc⟩

/-- The count returned by `ProcEscape` never passes the end of its text:
the function search matches only a byte that is there. -/
theorem ProcEscape_fst_le (index0 : Nat) (pStr : List Nat) (s : Screen) :
    (ProcEscape index0 pStr s).1 ≤ pStr.length := by
  unfold ProcEscape
  by_cases h : pStr.getD 0 0 ≠ 0x5B
  · rw [if_pos h]
    exact Nat.zero_le _
  · rw [if_neg h]
    have h0 : 0 < pStr.length :=
      length_gt_of_getD_ne_zero pStr 0 (fun hz => h (by rw [hz]; decide))
    dsimp only
    rcases ProcEscapeSearch_fst (pStr.getD (index0 + (GetEscapeCsiParam pStr).1) 0)
      (GetEscapeCsiParam pStr).2.1 (GetEscapeCsiParam pStr).2.2
      (index0 + (GetEscapeCsiParam pStr).1) s gEscCsiTbl with h1 | ⟨h1, e, he, hc⟩
    · rw [h1]
      exact h0
    · rw [h1]
      have hne : pStr.getD (index0 + (GetEscapeCsiParam pStr).1) 0 ≠ 0 := by
        rw [← hc]
        exact gEscCsiTbl_code_ne_zero e he
      exact length_gt_of_getD_ne_zero pStr _ hne

/-- Every iteration of the loop of `ScreenOutput` moves the index forward
by at least one, and from an index inside the buffer not past its end. -/
theorem ScreenOutputStep_fst (indexInit : Nat → Nat) (pStr : List Nat) (index : Nat)
    (s : Screen) :
    index + 1 ≤ (ScreenOutputStep indexInit pStr index s).1 ∧
    (index < pStr.length → (ScreenOutputStep indexInit pStr index s).1 ≤ pStr.length) := by
  unfold ScreenOutputStep
  dsimp only
  have hp := ProcEscape_fst_le (indexInit index) (pStr.drop (index + 1)) s
  rw [List.length_drop] at hp
  split_ifs <;> dsimp only <;> constructor <;> intros <;> omega

/-- The counting loop and the loop of `ScreenOutput` reach the same state. -/
theorem ScreenOutputCount_state (indexInit : Nat → Nat) (pStr : List Nat) (length : Nat) :
    ∀ (fuel index : Nat) (s : Screen) (r : Nat × Nat × Screen),
      ScreenOutputCount indexInit pStr length fuel index s = some r →
      ScreenOutputLoop indexInit pStr length fuel index s = r.2.2
  | 0, _, _, _, h => by
    rw [ScreenOutputCount] at h
    exact absurd h (by simp)
  | fuel + 1, index, s, r, h => by
    rw [ScreenOutputCount] at h
    rw [ScreenOutputLoop_succ_step]
    by_cases hc : pStr.getD index 0 ≠ 0 ∧ index < length
    · rw [if_pos hc] at h
      rw [if_pos hc]
      rw [Option.map_eq_some'] at h
      obtain ⟨p, hp, hr⟩ := h
      rw [ScreenOutputCount_state indexInit pStr length fuel _ _ p hp, ← hr]
    · rw [if_neg hc] at h
      rw [if_neg hc]
      have hr : (0, index, s) = r := Option.some.inj h
      rw [← hr]

/-- The loop of `ScreenOutput` stops: with a budget of more iterations than
bytes are left in the buffer the counting loop returns, having made at most
`min length pStr.length - index` iterations, each of which moved the index
forward, and without the index passing the end of the buffer. -/
theorem ScreenOutputCount_terminates (indexInit : Nat → Nat) (pStr : List Nat)
    (length : Nat) :
    ∀ (fuel index : Nat) (s : Screen), pStr.length ≤ fuel + index →
      ∃ r : Nat × Nat × Screen,
        ScreenOutputCount indexInit pStr length (fuel + 1) index s = some r ∧
        index + r.1 ≤ r.2.1 ∧ r.2.1 ≤ max index pStr.length ∧
        index + r.1 ≤ max index (min length pStr.length)
  | 0, index, s, h => by
    have h0 : pStr.getD index 0 = 0 := by
      rw [List.getD_eq_getElem?_getD, List.getElem?_eq_none (by omega)]
      rfl
    have hc : ¬ (pStr.getD index 0 ≠ 0 ∧ index < length) := fun hc => hc.1 h0
    rw [ScreenOutputCount, if_neg hc]
    exact ⟨_, rfl, by dsimp only; omega, by dsimp only; omega, by dsimp only; omega⟩
  | fuel + 1, index, s, h => by
    rw [ScreenOutputCount]
    by_cases hc : pStr.getD index 0 ≠ 0 ∧ index < length
    · rw [if_pos hc]
      have hlen : index < pStr.length := length_gt_of_getD_ne_zero pStr index hc.1
      obtain ⟨q1, q2⟩ := ScreenOutputStep_fst indexInit pStr index s
      have q3 := q2 hlen
      obtain ⟨r, e1, e2, e3, e4⟩ := ScreenOutputCount_terminates indexInit pStr length fuel
        (ScreenOutputStep indexInit pStr index s).1
        (ScreenOutputStep indexInit pStr index s).2 (by omega)
      rw [e1]
      refine ⟨(r.1 + 1, r.2), rfl, ?_, ?_, ?_⟩
      · dsimp only; omega
      · dsimp only; omega
      · dsimp only
        have := hc.2
        omega
    · rw [if_neg hc]
      exact ⟨_, rfl, by dsimp only; omega, by dsimp only; omega, by dsimp only; omega⟩
/-- C32, the code at the failing input. The loop of `ScreenOutput` does stop
for every buffer, declared length, starting state and value of the
indeterminate index of `ProcEscape`: every iteration moves the index forward,
the index never passes the end of the buffer, and at most
`min length pStr.length` iterations are made. But the number of iterations
is not bounded by the position of the first NUL: on the six bytes
`ESC [ NUL H A A` with declared length 6, whose first NUL is at index 2, and
with the indeterminate index holding 2, the function search of `ProcEscape`
examines the `H` behind the NUL, CUP runs and 3 is returned, so the loop goes
from index 0 to index 4 and makes 3 iterations, writing both `A` to the grid. -/
theorem C32_code_at_failing_input :
    (∀ (indexInit : Nat → Nat) (pStr : List Nat) (length : Nat) (s : Screen),
      ∃ r : Nat × Nat × Screen,
        ScreenOutputCount indexInit pStr length (pStr.length + 1) 0 s = some r ∧
        r.2.2 = ScreenOutput indexInit length pStr s ∧
        r.1 ≤ r.2.1 ∧ r.2.1 ≤ pStr.length ∧ r.1 ≤ min length pStr.length) ∧
    List.indexOf 0 [0x1B, 0x5B, 0, 0x48, 0x41, 0x41] = 2 ∧
    (ScreenOutputCount (fun _ => 2) [0x1B, 0x5B, 0, 0x48, 0x41, 0x41] 6 7 0
      (exampleScreen 0x20 5 5)).map (fun r => (r.1, r.2.1)) = some (3, 6) ∧
    (ScreenOutput (fun _ => 2) 6 [0x1B, 0x5B, 0, 0x48, 0x41, 0x41]
      (exampleScreen 0x20 5 5)).gScreen 0 1 = { c := 0x41, attr := 0x0F } := by
  refine ⟨fun indexInit pStr length s => ?_, by decide, ?_, ?_⟩
  · obtain ⟨r, e1, e2, e3, e4⟩ :=
      ScreenOutputCount_terminates indexInit pStr length pStr.length 0 s (by omega)
    refine ⟨r, e1, ?_, by omega, by omega, by omega⟩
    have e5 := ScreenOutputCount_state indexInit pStr length (pStr.length + 1) 0 s r e1
    rw [← e5, ScreenOutputLoop_fuel_succ indexInit pStr length pStr.length 0 s (by omega)]
    rfl
  · simp [ScreenOutputCount, ScreenOutputStep, ProcEscape_bracket, ProcEscapeSearch, gEscCsiTbl,
      ProcEscapeCsiCup, OptimizeCursor, toInt32, MAX_ROW, MAX_COLUMN, exampleScreen,
      WriteScreen_gCursor]
  · simp [ScreenOutput, ScreenOutputLoop, ProcEscape_bracket, ProcEscapeSearch, gEscCsiTbl,
      ProcEscapeCsiCup, OptimizeCursor, toInt32, MAX_ROW, MAX_COLUMN, exampleScreen,
      WriteScreen_gCursor, WriteScreen]

/-! ## Screen.c: termination of erase in display -/

/-- The loop of `ProcEscapeCsiEd` stops: from a position up to row 78,
column 75 and with an end offset of at most 2000, `80 * (78 - row) + 76 - column`
iterations are enough. The exit test compares `(row - 1) * 25 + column`, which
drops by 54 when the column wraps, but grows by 25 from one row to the next
and passes 2000 at row 78, column 76. -/
theorem ProcEscapeCsiEdLoop_terminates :
    ∀ (fuel : Nat) (row column endPos : Int) (s : Screen),
      1 ≤ row → row ≤ 78 → 1 ≤ column → column ≤ 80 → (row = 78 → column ≤ 75) →
      endPos ≤ 2000 → 80 * (78 - row) + 76 - column ≤ (fuel : Int) →
      ∃ s', ProcEscapeCsiEdLoop fuel row column endPos s = some s'
  | 0, row, column, endPos, s, h1, h2, h3, h4, h5, he, hf => by
    exfalso
    have : column ≤ 75 ∨ row ≤ 77 := by omega
    push_cast at hf
    omega
  | fuel + 1, row, column, endPos, s, h1, h2, h3, h4, h5, he, hf => by
    unfold ProcEscapeCsiEdLoop
    simp only [MAX_ROW]
    by_cases hc : column + 1 > 80
    · simp only [if_pos hc]
      by_cases ht : (row + 1 - 1) * 25 + 1 ≤ endPos
      · rw [if_pos ht]
        exact ProcEscapeCsiEdLoop_terminates fuel (row + 1) 1 endPos _ (by omega) (by omega)
          (by omega) (by omega) (by omega) he (by push_cast at hf ⊢; omega)
      · rw [if_neg ht]
        exact ⟨_, rfl⟩
    · simp only [if_neg hc]
      by_cases ht : (row - 1) * 25 + (column + 1) ≤ endPos
      · rw [if_pos ht]
        exact ProcEscapeCsiEdLoop_terminates fuel row (column + 1) endPos _ h1 h2 (by omega)
          (by omega) (by omega) he (by push_cast at hf ⊢; omega)
      · rw [if_neg ht]
        exact ⟨_, rfl⟩

/-- Once the loop of `ProcEscapeCsiEd` has stopped within a budget, a larger
budget gives the same state. -/
theorem ProcEscapeCsiEdLoop_fuel_mono :
    ∀ (fuel k : Nat) (row column endPos : Int) (s s' : Screen),
      ProcEscapeCsiEdLoop fuel row column endPos s = some s' →
      ProcEscapeCsiEdLoop (fuel + k) row column endPos s = some s'
  | 0, k, row, column, endPos, s, s', h => by
    rw [ProcEscapeCsiEdLoop] at h
    exact absurd h (by simp)
  | fuel + 1, k, row, column, endPos, s, s', h => by
    have e : fuel + 1 + k = (fuel + k) + 1 := by omega
    rw [e, ProcEscapeCsiEdLoop]
    rw [ProcEscapeCsiEdLoop] at h
    split_ifs at h ⊢ <;>
      first
        | exact h
        | exact ProcEscapeCsiEdLoop_fuel_mono fuel k _ _ endPos _ s' h

/-- From a start inside the grid and with an end offset of at most 2000, the
loop of `ProcEscapeCsiEd` stops within 6235 iterations, and every budget from
6235 on gives the state that the budget `ProcEscapeCsiEdFuel` gives. -/
theorem ProcEscapeCsiEdLoop_budget (row column endPos : Int) (s : Screen)
    (h1 : 1 ≤ row) (h2 : row ≤ 25) (h3 : 1 ≤ column) (h4 : column ≤ 80)
    (he : endPos ≤ 2000) (fuel : Nat) (hf : 6235 ≤ fuel) :
    ∃ s', ProcEscapeCsiEdLoop fuel row column endPos s = some s' ∧
      ProcEscapeCsiEdLoop ProcEscapeCsiEdFuel row column endPos s = some s' := by
  obtain ⟨s', e⟩ := ProcEscapeCsiEdLoop_terminates 6235 row column endPos s h1 (by omega) h3 h4
    (by omega) he (by push_cast; omega)
  refine ⟨s', ?_, ?_⟩
  · have hk : fuel = 6235 + (fuel - 6235) := by omega
    rw [hk]
    exact ProcEscapeCsiEdLoop_fuel_mono 6235 (fuel - 6235) row column endPos s s' e
  · exact ProcEscapeCsiEdLoop_fuel_mono 6235 1765 row column endPos s s' e
/-- C33: for every cursor inside the grid and every `n` in {0, 1, 2} the
`do ... while` loop of the erase-in-display handler stops: it returns within
6235 iterations (every larger budget gives the same state, which is the state
`ProcEscapeCsiEd` returns), although the value `(row - 1) * 25 + column` of its
exit test is not monotone: from column 80 of a row to column 1 of the next it
drops by 54. -/
theorem C33_erase_in_display_terminates (s : Screen) (m : Nat) (hs : cursorInBounds s)
    (fuel : Nat) (hf : 6235 ≤ fuel) :
    (∃ s', ProcEscapeCsiEdLoop fuel s.gCursor.row s.gCursor.column
        (MAX_ROW * MAX_COLUMN) s = some s' ∧ ProcEscapeCsiEd 0 m s = s') ∧
    (∃ s', ProcEscapeCsiEdLoop fuel 1 1
        ((s.gCursor.row - 1) * 80 + s.gCursor.column) s = some s' ∧
      ProcEscapeCsiEd 1 m s = s') ∧
    (∃ s', ProcEscapeCsiEdLoop fuel 1 1 (MAX_ROW * MAX_COLUMN) s = some s' ∧
      ProcEscapeCsiEd 2 m s = s') ∧
    (∀ row : Int, (row + 1 - 1) * MAX_ROW + 1 = (row - 1) * MAX_ROW + 80 - 54) := by
  obtain ⟨h1, h2, h3, h4⟩ := hs
  have hend : MAX_ROW * MAX_COLUMN = 2000 := by decide
  refine ⟨?_, ?_, ?_, fun row => ?_⟩
  · obtain ⟨s', e1, e2⟩ := ProcEscapeCsiEdLoop_budget s.gCursor.row s.gCursor.column 2000 s
      h1 h2 h3 h4 (le_refl _) fuel hf
    refine ⟨s', by rw [hend]; exact e1, ?_⟩
    unfold ProcEscapeCsiEd
    rw [if_pos rfl, hend, e2]
    rfl
  · obtain ⟨s', e1, e2⟩ := ProcEscapeCsiEdLoop_budget 1 1
      ((s.gCursor.row - 1) * 80 + s.gCursor.column) s
      (le_refl _) (by norm_num) (le_refl _) (by norm_num) (by omega) fuel hf
    refine ⟨s', e1, ?_⟩
    unfold ProcEscapeCsiEd
    rw [if_neg (by decide), if_pos rfl, e2]
    rfl
  · obtain ⟨s', e1, e2⟩ := ProcEscapeCsiEdLoop_budget 1 1 2000 s
      (le_refl _) (by norm_num) (le_refl _) (by norm_num) (le_refl _) fuel hf
    refine ⟨s', by rw [hend]; exact e1, ?_⟩
    unfold ProcEscapeCsiEd
    rw [if_neg (by decide), if_neg (by decide), if_pos rfl, hend, e2]
    rfl
  · simp only [MAX_ROW]
    omega

/-- C33, witness: every cell holding `X`, the cursor at (3, 7), erase from
the start to the cursor (`n = 1`) with a budget of 6235 iterations. -/
theorem C33_erase_in_display_terminates_witness :
    ∃ s', ProcEscapeCsiEdLoop 6235 1 1
        (((exampleScreen 0x58 3 7).gCursor.row - 1) * 80 +
          (exampleScreen 0x58 3 7).gCursor.column) (exampleScreen 0x58 3 7) = some s' ∧
      ProcEscapeCsiEd 1 0 (exampleScreen 0x58 3 7) = s' :=
  (C33_erase_in_display_terminates (exampleScreen 0x58 3 7) 0 (by decide) 6235
    (le_refl _)).2.1

/-! ## Screen.c: stores outside the array -/

/-- One iteration of the loop of `ScreenOutput` on an ESC byte. -/
theorem ScreenOutputLoop_esc (indexInit : Nat → Nat) (pStr : List Nat) (length : Nat)
    (fuel index : Nat) (s : Screen) (hb : pStr.getD index 0 = 0x1B) (hl : index < length) :
    ScreenOutputLoop indexInit pStr length (fuel + 1) index s =
      ScreenOutputLoop indexInit pStr length fuel
        (index + 1 + (ProcEscape (indexInit index) (pStr.drop (index + 1)) s).1)
        (if (ProcEscape (indexInit index) (pStr.drop (index + 1)) s).2.gCursor.column >
            MAX_COLUMN
          then doLineFeed (ProcEscape (indexInit index) (pStr.drop (index + 1)) s).2
          else (ProcEscape (indexInit index) (pStr.drop (index + 1)) s).2) := by
  have hc : pStr.getD index 0 ≠ 0 ∧ index < length := ⟨by rw [hb]; decide, hl⟩
  rw [ScreenOutputLoop, if_pos hc]
  simp only [hb, if_true]

/-- `ScreenOutput` on a control sequence that is the whole buffer, when
`ProcEscape` returns the count of the bytes after ESC and leaves the cursor
column inside the grid: the state is the one `ProcEscape` returns. -/
theorem ScreenOutput_csi_whole (indexInit : Nat → Nat) (rest : List Nat) (s : Screen)
    (hr : (ProcEscape (indexInit 0) rest s).1 = rest.length)
    (hcol : ¬ ((ProcEscape (indexInit 0) rest s).2.gCursor.column > MAX_COLUMN)) :
    ScreenOutput indexInit (rest.length + 1) (0x1B :: rest) s =
      (ProcEscape (indexInit 0) rest s).2 := by
  unfold ScreenOutput
  have hlen : (0x1B :: rest).length = rest.length + 1 := rfl
  have hd : (0x1B :: rest).drop (0 + 1) = rest := rfl
  rw [hlen, ScreenOutputLoop_esc indexInit (0x1B :: rest) (rest.length + 1) rest.length 0 s rfl
    (by omega), hd, if_neg hcol, hr]
  exact ScreenOutputLoop_stop indexInit (0x1B :: rest) (rest.length + 1) _ _ _
    (fun h => absurd h.2 (by omega))

/-- C7, the code at the failing input: from a blank grid with the cursor at
(1, 1), inside the grid, and no store outside the array so far, the function
that `gEscCsiTbl` holds for the code `J`, erase-in-display, called with the
parameters (0, 0), stores outside the array `gScreen`: its loop runs on to row
78. So does `ScreenOutput` on `ESC [ J` when the indeterminate index of
`ProcEscape` starts at 1. The source declares `gCursor` right behind `gScreen`;
what such a store leaves in it is not held to 1..25 and 1..80. -/
theorem C7_code_at_failing_input :
    cursorInBounds (exampleScreen 0x20 1 1) ∧
    (exampleScreen 0x20 1 1).overrun = false ∧
    (ProcEscapeSearch 0x4A 0 0 1 (exampleScreen 0x20 1 1) gEscCsiTbl).2.overrun = true ∧
    (ScreenOutput (fun _ => 1) 3 [0x1B, 0x5B, 0x4A] (exampleScreen 0x20 1 1)).overrun
      = true := by
  have hs : ProcEscapeSearch 0x4A 0 0 1 (exampleScreen 0x20 1 1) gEscCsiTbl =
      (2, ProcEscapeCsiEd 0 0 (exampleScreen 0x20 1 1)) := by
    simp [ProcEscapeSearch, gEscCsiTbl]
  have hed : (ProcEscapeCsiEd 0 0 (exampleScreen 0x20 1 1)).overrun = true :=
    (ProcEscapeCsiEd_full (exampleScreen 0x20 1 1) 0 (by decide)).1.1
  have hp : ProcEscape 1 [0x5B, 0x4A] (exampleScreen 0x20 1 1) =
      (2, ProcEscapeCsiEd 0 0 (exampleScreen 0x20 1 1)) := by
    rw [ProcEscape_bracket]
    exact hs
  refine ⟨by decide, rfl, ?_, ?_⟩
  · rw [hs]
    exact hed
  · have hrun := ScreenOutput_csi_whole (fun _ => 1) [0x5B, 0x4A] (exampleScreen 0x20 1 1)
      (by rw [hp]; rfl)
      (by rw [hp]; dsimp only; rw [ProcEscapeCsiEd_gCursor]; decide)
    rw [hp] at hrun
    have hL : ([0x5B, 0x4A] : List Nat).length + 1 = 3 := rfl
    rw [hL] at hrun
    rw [hrun]
    exact hed

/-- What `ScreenOutput` does on `ESC [ 2 J` when the indeterminate index of
`ProcEscape` does not start at 2: no handler runs, `ESC [` is skipped and `2`
and `J` are written as text. -/
theorem ScreenOutput_ed_text_printed (indexInit : Nat → Nat) (s : Screen)
    (h : indexInit 0 ≠ 2) :
    ScreenOutput indexInit 4 [0x1B, 0x5B, 0x32, 0x4A] s =
      ScreenOutputByte 0x4A (ScreenOutputByte 0x32
        (if s.gCursor.column > MAX_COLUMN then doLineFeed s else s)) := by
  unfold ScreenOutput
  have hlen : ([0x1B, 0x5B, 0x32, 0x4A] : List Nat).length = 3 + 1 := rfl
  have hd : ([0x1B, 0x5B, 0x32, 0x4A] : List Nat).drop (0 + 1) = [0x5B, 0x32, 0x4A] := rfl
  have hn2 : ([0x1B, 0x5B, 0x32, 0x4A] : List Nat).getD 2 0 ≠ 0 := by decide
  have hn3 : ([0x1B, 0x5B, 0x32, 0x4A] : List Nat).getD 3 0 ≠ 0 := by decide
  have he2 : ([0x1B, 0x5B, 0x32, 0x4A] : List Nat).getD 2 0 = 0x1B →
      ([0x1B, 0x5B, 0x32, 0x4A] : List Nat).getD (2 + 1) 0 ≠ 0x5B := fun _ => by decide
  have he3 : ([0x1B, 0x5B, 0x32, 0x4A] : List Nat).getD 3 0 = 0x1B →
      ([0x1B, 0x5B, 0x32, 0x4A] : List Nat).getD (3 + 1) 0 ≠ 0x5B := fun _ => by decide
  rw [hlen, ScreenOutputLoop_esc indexInit [0x1B, 0x5B, 0x32, 0x4A] 4 3 0 s rfl (by omega), hd,
    ProcEscape_ed_text, if_neg h]
  dsimp only
  rw [ScreenOutputLoop_step_plain indexInit _ 4 2 2 _ hn2 (by omega) he2,
    ScreenOutputLoop_step_plain indexInit _ 4 1 3 _ hn3 (by omega) he3]
  exact ScreenOutputLoop_stop indexInit _ 4 _ _ _ (fun hh => absurd hh.2 (by omega))

/-- C9, the code at the failing input: with every cell holding `X` and the
cursor at (2, 1), `ScreenOutput` on `ESC [ 2 J` never hands the parameter 2 to
a handler. If the indeterminate index of `ProcEscape` starts at 2,
erase-in-display runs with `n = 0`, from the cursor on, and its loop stores
outside the array `gScreen`. With every other starting value no handler runs
at all: `2` and `J` are written to the grid at (2, 1) and (2, 2), the cell
(0, 0) still holds `X` with its old attribute, and no store leaves the
array. -/
theorem C9_code_at_failing_input (indexInit : Nat → Nat) :
    if indexInit 0 = 2 then
      (ScreenOutput indexInit 4 [0x1B, 0x5B, 0x32, 0x4A]
        (exampleScreen 0x58 2 1)).overrun = true
    else
      (ScreenOutput indexInit 4 [0x1B, 0x5B, 0x32, 0x4A]
        (exampleScreen 0x58 2 1)).gScreen 0 0 = { c := 0x58, attr := 0x07 } ∧
      (ScreenOutput indexInit 4 [0x1B, 0x5B, 0x32, 0x4A]
        (exampleScreen 0x58 2 1)).gScreen 0 0 ≠
          { c := 0x20, attr := (exampleScreen 0x58 2 1).gCursor.attr } ∧
      (ScreenOutput indexInit 4 [0x1B, 0x5B, 0x32, 0x4A]
        (exampleScreen 0x58 2 1)).gScreen 1 0 = { c := 0x32, attr := 0x0F } ∧
      (ScreenOutput indexInit 4 [0x1B, 0x5B, 0x32, 0x4A]
        (exampleScreen 0x58 2 1)).gScreen 1 1 = { c := 0x4A, attr := 0x0F } ∧
      (ScreenOutput indexInit 4 [0x1B, 0x5B, 0x32, 0x4A]
        (exampleScreen 0x58 2 1)).overrun = false := by
  by_cases h : indexInit 0 = 2
  · rw [if_pos h]
    have hp : ProcEscape (indexInit 0) [0x5B, 0x32, 0x4A] (exampleScreen 0x58 2 1) =
        (3, ProcEscapeCsiEd 0 0 (exampleScreen 0x58 2 1)) := by
      rw [ProcEscape_ed_text, if_pos h]
    have hrun := ScreenOutput_csi_whole indexInit [0x5B, 0x32, 0x4A] (exampleScreen 0x58 2 1)
      (by rw [hp]; rfl)
      (by rw [hp]; dsimp only; rw [ProcEscapeCsiEd_gCursor]; decide)
    rw [hp] at hrun
    have hL : ([0x5B, 0x32, 0x4A] : List Nat).length + 1 = 4 := rfl
    rw [hL] at hrun
    rw [hrun]
    exact (ProcEscapeCsiEd_full (exampleScreen 0x58 2 1) 0 (by decide)).1.1
  · rw [if_neg h, ScreenOutput_ed_text_printed indexInit _ h]
    have hcol : ¬ ((exampleScreen 0x58 2 1).gCursor.column > MAX_COLUMN) := by decide
    rw [if_neg hcol]
    refine ⟨?_, ?_, ?_, ?_, ?_⟩ <;>
      simp [ScreenOutputByte, exampleScreen, MAX_COLUMN, WriteScreen]

end Mterm
